import Mathlib

/-!
# Order lifecycle of the MoltenMum storefront (`src/server/server.js`)

A shallow embedding of the order validator, the two order-creation paths
(`POST /api/orders`, `POST /api/stripe/webhook`), checkout-session creation
(`POST /api/checkout`) with its delivery-range check, the order listings
(`GET /api/orders`, `GET /api/admin/orders`), the admin order update
(`PUT /api/admin/orders/:id`) and the account update (`PUT /api/account/me`),
followed by theorems about them.

Modelling conventions.

* A JavaScript number is `JSNum`: `NaN`, the two infinities, or a finite value
  `m / 2^e` (every finite binary64 value has this form; the sign of zero is not
  tracked).  Comparison against integer constants, `Number.isInteger`,
  truthiness and `Math.round` are exact on such values.
* A JavaScript string is `JsString`, the sequence of its UTF-16 code units, so
  that `length`, `slice` and `trim` count and cut as JavaScript does, also
  inside a surrogate pair.  A string literal of the source is written as a Lean
  string and converted by `JsString.ofString`.
* A JSON value is `JVal`; object fields keep their insertion order, which is the
  order `JSON.stringify` prints them in.
* A `TEXT` column that holds `JSON.stringify(v)` is represented by the tree `v`
  itself; equality of two such texts is equality of the trees.
* A `TEXT` column that holds a plain text is a Lean `String`; the driver writes
  a JavaScript string as UTF-8 (`storedText`).  The driver binds `null`
  and `undefined` as `NULL`, spreads an array argument over the parameters of
  the statement, and refuses a boolean; it enforces foreign keys.
* Behaviour of the JavaScript engine and of SQLite that the source does not
  determine (conversion of an arbitrary string to a number, the text SQLite
  writes for a number) is collected in `Engine` and every definition is
  parametric in it.
-/

namespace MoltenMum

/-! ## JavaScript numbers -/

/-- JavaScript number: `fin m e` is the finite value `m / 2^e`. -/
inductive JSNum where
  | nan
  | posInf
  | negInf
  | fin (m : Int) (e : Nat)
  deriving DecidableEq, Repr

namespace JSNum

/-- Integer `n` as a JavaScript number. -/
def ofInt (n : Int) : JSNum := fin n 0

/-- Global `isNaN` on a number. -/
def isNaN : JSNum → Bool
  | nan => true
  | _ => false

/-- Truthiness of a number (`!x` is its negation): false for `NaN` and zero. -/
def truthy : JSNum → Bool
  | nan => false
  | fin m _ => m != 0
  | _ => true

/-- JavaScript `x < n` for an integer constant `n`. -/
def ltInt : JSNum → Int → Bool
  | nan, _ => false
  | posInf, _ => false
  | negInf, _ => true
  | fin m e, n => decide (m < n * 2 ^ e)

/-- JavaScript `x > n` for an integer constant `n`. -/
def gtInt : JSNum → Int → Bool
  | nan, _ => false
  | posInf, _ => true
  | negInf, _ => false
  | fin m e, n => decide (n * 2 ^ e < m)

/-- JavaScript `x <= n` for an integer constant `n`. -/
def leInt : JSNum → Int → Bool
  | nan, _ => false
  | posInf, _ => false
  | negInf, _ => true
  | fin m e, n => decide (m ≤ n * 2 ^ e)

/-- `Number.isInteger`. -/
def isInteger : JSNum → Bool
  | fin m e => m % 2 ^ e == 0
  | _ => false

/-- `Math.round`: the nearest integer, ties towards plus infinity, which is
`floor (x + 1/2)`. -/
def round : JSNum → JSNum
  | fin m e => fin ((2 * m + 2 ^ e) / 2 ^ (e + 1)) 0
  | x => x

/-- SQLite `=` on two stored numbers: numeric equality; `NaN` is stored as
`NULL`, which is equal to nothing. -/
def sqlEq : JSNum → JSNum → Bool
  | fin m e, fin n f => decide (m * 2 ^ f = n * 2 ^ e)
  | posInf, posInf => true
  | negInf, negInf => true
  | _, _ => false

/-- JavaScript `x === n` for an integer constant `n`. -/
def eqInt : JSNum → Int → Bool
  | fin m e, n => decide (m = n * 2 ^ e)
  | _, _ => false

/-- The natural number a JavaScript number denotes, when it denotes one. -/
def toNat? : JSNum → Option Nat
  | fin m e => if 0 ≤ m ∧ m % 2 ^ e = 0 then some (m / 2 ^ e).toNat else none
  | _ => none

end JSNum

/-! ## JavaScript strings -/

/-- A JavaScript string: the sequence of its UTF-16 code units, each below
`2^16`.  A surrogate (`0xD800` to `0xDFFF`) may stand alone. -/
structure JsString where
  data : List Nat
  deriving DecidableEq, Repr

/-- First half of a surrogate pair. -/
def isHighSurrogate (u : Nat) : Bool := decide (0xD800 ≤ u) && decide (u ≤ 0xDBFF)

/-- Second half of a surrogate pair. -/
def isLowSurrogate (u : Nat) : Bool := decide (0xDC00 ≤ u) && decide (u ≤ 0xDFFF)

/-- The code units of one character: one unit up to `U+FFFF`, a surrogate pair
above. -/
def encodeChar (c : Char) : List Nat :=
  if c.toNat < 0x10000 then [c.toNat]
  else [0xD800 + (c.toNat - 0x10000) / 1024, 0xDC00 + (c.toNat - 0x10000) % 1024]

/-- The code units of a text. -/
def encodeChars : List Char → List Nat
  | [] => []
  | c :: cs => encodeChar c ++ encodeChars cs

/-- The JavaScript string of a text (a literal of the source, a text read from
the database). -/
def JsString.ofString (s : String) : JsString := ⟨encodeChars s.data⟩

instance : Coe String JsString := ⟨JsString.ofString⟩

/-- `s.length`. -/
def JsString.length (s : JsString) : Nat := s.data.length

/-- The characters of a sequence of code units in which every surrogate is
part of a pair; `none` when a surrogate stands alone.  `pending` is a first
half waiting for its second half. -/
def decodeUnits : Option Nat → List Nat → Option (List Char)
  | none, [] => some []
  | some _, [] => none
  | none, u :: rest =>
    if isHighSurrogate u then decodeUnits (some u) rest
    else if isLowSurrogate u then none
    else (decodeUnits none rest).map (fun cs => Char.ofNat u :: cs)
  | some h, u :: rest =>
    if isLowSurrogate u then
      (decodeUnits none rest).map
        (fun cs => Char.ofNat (0x10000 + (h - 0xD800) * 1024 + (u - 0xDC00)) :: cs)
    else none

/-- The text of a well-formed JavaScript string; `none` for a string with a
surrogate outside a pair. -/
def JsString.toText? (s : JsString) : Option String :=
  (decodeUnits none s.data).map String.mk

/-! ## JSON values -/

/-- JSON value as `JSON.parse` / `express.json()` delivers it, plus `undefined`
for an absent property. -/
inductive JVal where
  | undefined
  | null
  | bool (b : Bool)
  | num (n : JSNum)
  | str (s : JsString)
  | arr (l : List JVal)
  | obj (fields : List (JsString × JVal))

namespace JVal

mutual
/-- Structural equality test on JSON trees. -/
def beq : JVal → JVal → Bool
  | undefined, undefined => true
  | null, null => true
  | bool a, bool b => a == b
  | num a, num b => a == b
  | str a, str b => a == b
  | arr a, arr b => beqList a b
  | obj a, obj b => beqFields a b
  | _, _ => false
/-- Structural equality test on lists of JSON trees. -/
def beqList : List JVal → List JVal → Bool
  | [], [] => true
  | x :: xs, y :: ys => beq x y && beqList xs ys
  | _, _ => false
/-- Structural equality test on field lists. -/
def beqFields : List (JsString × JVal) → List (JsString × JVal) → Bool
  | [], [] => true
  | (k, x) :: xs, (l, y) :: ys => k == l && beq x y && beqFields xs ys
  | _, _ => false
end

/-- Truthiness of a JSON value (`!v`, `v || d`). -/
def truthy : JVal → Bool
  | undefined => false
  | null => false
  | bool b => b
  | num n => n.truthy
  | str s => !s.data.isEmpty
  | arr _ => true
  | obj _ => true

/-- `Array.isArray`. -/
def isArray : JVal → Bool
  | arr _ => true
  | _ => false

/-- Value is `null` or `undefined` (the test of `??`). -/
def isNullish : JVal → Bool
  | undefined => true
  | null => true
  | _ => false

/-- Own property of a parsed JSON object. -/
def lookup (k : JsString) : List (JsString × JVal) → JVal
  | [] => undefined
  | (k', v) :: rest => if k' = k then v else lookup k rest

end JVal

/-- JavaScript exception (`TypeError`, `SyntaxError`, a driver error, ...). -/
inductive JsError where
  | thrown
  deriving DecidableEq, Repr

/-- Property read `v.k` for one of the keys the server reads (`id`, `qty`,
`price_cents`, `name`), none of which is on a built-in prototype: a
`TypeError` on `null` and `undefined`, the own property on an object,
`undefined` on every other value. -/
def getField (v : JVal) (k : JsString) : Except JsError JVal :=
  match v with
  | .undefined => .error .thrown
  | .null => .error .thrown
  | .obj fields => .ok (JVal.lookup k fields)
  | _ => .ok .undefined

mutual
/-- Conversion of a value to a primitive (`ToString`, `ToNumber`) does not
throw.  Parsed JSON holds no functions, so an own `toString` property of an
object shadows the inherited method and the conversion ends in a `TypeError`;
an array is converted by joining the conversions of its elements. -/
def coercible : JVal → Bool
  | .obj fields => !fields.any (fun p => p.1 == JsString.ofString "toString")
  | .arr l => coercibleList l
  | _ => true
/-- Every element of the list is `coercible`. -/
def coercibleList : List JVal → Bool
  | [] => true
  | x :: xs => coercible x && coercibleList xs
end

/-! ## Engine behaviour left open by the source -/

/-- Library behaviour the source relies on without fixing it. -/
structure Engine where
  /-- ECMAScript `StringToNumber` on strings other than short decimal numerals. -/
  stringToNumber : JsString → JSNum
  /-- `Number(a)` for a non-empty array `a` whose conversion to a string
  (`Array.prototype.join`) does not throw. -/
  arrayToNumber : List JVal → JSNum
  /-- Text SQLite stores when a number is written to a `TEXT` column. -/
  numberToText : JSNum → String
  /-- Item id that a text compares equal to under `INTEGER` affinity, if any. -/
  textToRowid : String → Option Nat
  /-- Text the database returns after the driver has written a JavaScript
  string that is not well-formed UTF-16 (how a surrogate outside a pair is
  encoded depends on the engine). -/
  illFormedText : JsString → String

/-- The text the database holds for a bound JavaScript string: the text of the
string when it is well formed, else what the engine makes of it. -/
def storedText (E : Engine) (s : JsString) : String :=
  match s.toText? with
  | some t => t
  | none => E.illFormedText s

/-- Code unit of a decimal digit, `0` to `9`. -/
def isDigitUnit (u : Nat) : Bool := decide (48 ≤ u) && decide (u ≤ 57)

/-- Value of a string of decimal digits. -/
def digitsValue (cs : List Nat) : Nat :=
  cs.foldl (fun n c => 10 * n + (c - 48)) 0

/-- `Number(s)` for a string: a decimal numeral of at most 15 digits denotes its
value exactly; the empty string is `0`; other strings are left to the engine. -/
def stringToNumber (E : Engine) (s : JsString) : JSNum :=
  if s.data = [] then .fin 0 0
  else if s.data.all isDigitUnit ∧ s.data.length ≤ 15 then .fin (digitsValue s.data) 0
  else E.stringToNumber s

/-- `Number(v)` (ECMAScript `ToNumber`): a `TypeError` when the value is not
`coercible`; an object otherwise converts to `"[object Object]"`, which is `NaN`. -/
def toNumber (E : Engine) : JVal → Except JsError JSNum
  | .undefined => .ok .nan
  | .null => .ok (.fin 0 0)
  | .bool true => .ok (.fin 1 0)
  | .bool false => .ok (.fin 0 0)
  | .num n => .ok n
  | .str s => .ok (stringToNumber E s)
  | .arr [] => .ok (.fin 0 0)
  | .arr (x :: xs) =>
    if coercibleList (x :: xs) then .ok (E.arrayToNumber (x :: xs)) else .error .thrown
  | .obj fields => if coercible (.obj fields) then .ok .nan else .error .thrown

/-! ## Input safety helpers (`server.js` lines 28-74) -/

/-- White space and line terminators removed by `String.prototype.trim` and
matched by `\s`, as code units (all of them lie below the surrogates). -/
def isJsSpace (c : Nat) : Bool :=
  c ∈ [0x09, 0x0A, 0x0B, 0x0C, 0x0D, 0x20, 0xA0, 0x1680, 0x2028, 0x2029, 0x202F, 0x205F,
    0x3000, 0xFEFF] || (0x2000 ≤ c && c ≤ 0x200A)

/-- `String.prototype.trim`. -/
def jsTrim (s : JsString) : JsString :=
  ⟨((s.data.dropWhile isJsSpace).reverse.dropWhile isJsSpace).reverse⟩

/-- `s.slice(0, max)`: the first `max` code units (a cut inside a surrogate
pair keeps its first half). -/
def jsSlice (s : JsString) (max : Nat) : JsString :=
  ⟨s.data.take max⟩

def SAFE_TEXT_MAX : Nat := 200

def SAFE_LONG_TEXT_MAX : Nat := 2000

/-- `safeText`: the empty string for a non-string, else trimmed and cut. -/
def safeText (val : JVal) (max : Nat) : JsString :=
  match val with
  | .str s => jsSlice (jsTrim s) max
  | _ => ⟨[]⟩

/-- `safeLongText`. -/
def safeLongText (val : JVal) (max : Nat) : JsString := safeText val max

/-- The price cap `1_000_000_00`. -/
def PRICE_CAP : Int := 100000000

/-- `safePrice`: `null` (`none`) when `Number(val)` is `NaN`, negative or above
the cap, else `Math.round` of it. -/
def safePrice (E : Engine) (val : JVal) : Except JsError (Option JSNum) :=
  match toNumber E val with
  | .error e => .error e
  | .ok n => if n.isNaN || n.ltInt 0 || n.gtInt PRICE_CAP then .ok none else .ok (some n.round)

/-- One element of the list `validateItemsPayload` returns. -/
structure CleanItem where
  id : JSNum
  qty : JSNum
  name : JsString
  price_cents : JSNum
  deriving DecidableEq, Repr

/-- `i.price_cents ?? 0`. -/
def priceOrZero (rawPrice : JVal) : JVal :=
  if rawPrice.isNullish then .num (.fin 0 0) else rawPrice

/-- `typeof price === "number" ? price : 0`. -/
def priceOrDefault : Option JSNum → JSNum
  | some p => p
  | none => .fin 0 0

/-- Body of the `for` loop of `validateItemsPayload` for one element `i`:
`.ok none` is `return null`, `.ok (some c)` the pushed line, `.error` a thrown
exception.  The three conversions run before the two checks, as in the source. -/
def validateLine (E : Engine) (i : JVal) : Except JsError (Option CleanItem) :=
  match getField i "id" with
  | .error e => .error e
  | .ok rawId =>
    match toNumber E rawId with
    | .error e => .error e
    | .ok id =>
      match getField i "qty" with
      | .error e => .error e
      | .ok rawQty =>
        match toNumber E rawQty with
        | .error e => .error e
        | .ok qty =>
          match getField i "price_cents" with
          | .error e => .error e
          | .ok rawPrice =>
            match safePrice E (priceOrZero rawPrice) with
            | .error e => .error e
            | .ok price =>
              if !id.truthy || id.ltInt 0 || !id.isInteger then .ok none
              else if !qty.truthy || qty.ltInt 1 || qty.gtInt 99 then .ok none
              else
                match getField i "name" with
                | .error e => .error e
                | .ok name =>
                  .ok (some
                    { id := id
                      qty := qty
                      name := safeText name 160
                      price_cents := priceOrDefault price })

/-- The `for` loop of `validateItemsPayload` over the remaining elements, with
the lines pushed so far. -/
def validateLoop (E : Engine) : List JVal → List CleanItem → Except JsError (Option (List CleanItem))
  | [], cleaned => .ok (some cleaned)
  | i :: rest, cleaned =>
    match validateLine E i with
    | .error e => .error e
    | .ok none => .ok none
    | .ok (some c) => validateLoop E rest (cleaned ++ [c])

/-- `validateItemsPayload`: `.ok none` is `null`, `.error` a thrown exception.
The default parameter turns `undefined` into the empty array. -/
def validateItemsPayload (E : Engine) (items : JVal) : Except JsError (Option (List CleanItem)) :=
  match items with
  | .undefined => .ok none
  | .arr l => if l.length = 0 ∨ l.length > 50 then .ok none else validateLoop E l []
  | _ => .ok none

/-! ## `JSON.stringify` -/

mutual
/-- The tree that `JSON.stringify(v)` serialises: `NaN`, the infinities and an
`undefined` array element print as `null`, an `undefined` property is left out. -/
def jsonify : JVal → JVal
  | .undefined => .null
  | .null => .null
  | .bool b => .bool b
  | .num (.fin m e) => .num (.fin m e)
  | .num _ => .null
  | .str s => .str s
  | .arr l => .arr (jsonifyList l)
  | .obj fields => .obj (jsonifyFields fields)
/-- The elements of an array as `JSON.stringify` prints them. -/
def jsonifyList : List JVal → List JVal
  | [] => []
  | x :: xs => jsonify x :: jsonifyList xs
/-- The properties of an object as `JSON.stringify` prints them. -/
def jsonifyFields : List (JsString × JVal) → List (JsString × JVal)
  | [] => []
  | (_, .undefined) :: rest => jsonifyFields rest
  | (k, v) :: rest => (k, jsonify v) :: jsonifyFields rest
end

/-- The object literal `{ id, qty, name, price_cents }` pushed by
`validateItemsPayload`, keys in the order the source writes them. -/
def CleanItem.toJVal (c : CleanItem) : JVal :=
  .obj [("id", .num c.id), ("qty", .num c.qty), ("name", .str c.name),
    ("price_cents", .num c.price_cents)]

/-- `JSON.stringify(cleanedItems)`. -/
def cleanedJson (cleaned : List CleanItem) : JVal :=
  jsonify (.arr (cleaned.map CleanItem.toJVal))

/-! ## Database (`db.js`) -/

/-- Row of `users`. -/
structure User where
  id : Nat
  name : Option String
  email : Option String
  password_hash : Option String
  role : Option String
  address_line1 : Option String
  address_line2 : Option String
  city : Option String
  postcode : Option String
  country : Option String
  created_at : Nat
  deriving DecidableEq, Repr

/-- Row of `items`, the columns checkout reads. -/
structure Item where
  id : Nat
  name : String
  price_cents : Int
  in_stock : Bool
  deriving DecidableEq, Repr

/-- Row of `orders`.  `items_json` is the tree of the stored JSON text,
`address_json` the user record that was serialised (`none` is `NULL`),
`created_at` the `CURRENT_TIMESTAMP` default in seconds. -/
structure Order where
  id : Nat
  user_id : Nat
  items_json : JVal
  address_json : Option User
  delivery_method : Option String
  total_cents : JSNum
  status : String
  admin_status : Option String
  delivery_date : Option String
  admin_note : Option String
  created_at : Nat

/-- The database: three tables and the `sqlite_sequence` entry of `orders`. -/
structure Db where
  users : List User
  items : List Item
  orders : List Order
  orderSeq : Nat

/-- Largest `id` in a list of orders (0 for none). -/
def maxOrderId : List Order → Nat
  | [] => 0
  | o :: rest => max o.id (maxOrderId rest)

/-- Rowid an `AUTOINCREMENT` insert into `orders` receives: one more than the
largest rowid the table holds or has ever held. -/
def nextOrderId (db : Db) : Nat :=
  max db.orderSeq (maxOrderId db.orders) + 1

/-- `INSERT INTO orders` of a row that already carries its rowid. -/
def insertOrder (db : Db) (o : Order) : Db :=
  { db with orders := db.orders ++ [o], orderSeq := o.id }

/-- `SELECT * FROM users WHERE id=?` for an integer id. -/
def getUser (db : Db) (uid : Nat) : Option User :=
  db.users.find? (fun u => u.id == uid)

/-- One value bound to a parameter of `TEXT` affinity: `none` is `NULL`, which
the driver binds for `null`, `undefined` and `NaN`; it refuses a boolean, and
an array or object in this place. -/
def bindScalar (E : Engine) : JVal → Except JsError (Option String)
  | .str s => .ok (some (storedText E s))
  | .num .nan => .ok none
  | .num n => .ok (some (E.numberToText n))
  | .null => .ok none
  | .undefined => .ok none
  | _ => .error .thrown

/-- An argument of `.get(...)` / `.run(...)` in a place where the statement
expects one parameter of `TEXT` affinity.  The driver spreads an array
argument over the parameters, so an array of one element binds that element;
an array of another length, and an object (read as named parameters, of which
the statement has none), leave the parameter count wrong and the call throws. -/
def bindText (E : Engine) : JVal → Except JsError (Option String)
  | .arr [x] => bindScalar E x
  | .arr _ => .error .thrown
  | v => bindScalar E v

/-- SQL `=` on two texts: never true when one side is `NULL`. -/
def sqlTextEq : Option String → Option String → Bool
  | some a, some b => a == b
  | _, _ => false

/-- The rowid that one bound value equals under the `INTEGER` affinity of an
`id` column, if any: `NULL` equals nothing. -/
def scalarRowid (E : Engine) : JVal → Except JsError (Option Nat)
  | .num n => .ok n.toNat?
  | .str s => .ok (E.textToRowid (storedText E s))
  | .null => .ok none
  | .undefined => .ok none
  | _ => .error .thrown

/-- The rowid an argument of `.get(...)` selects in `WHERE id=?`; an array is
spread as in `bindText`. -/
def boundRowid (E : Engine) : JVal → Except JsError (Option Nat)
  | .arr [x] => scalarRowid E x
  | .arr _ => .error .thrown
  | v => scalarRowid E v

/-- `SELECT * FROM items WHERE id=?` with the raw cart value bound. -/
def lookupItem (E : Engine) (items : List Item) (rawId : JVal) : Except JsError (Option Item) :=
  match boundRowid E rawId with
  | .error e => .error e
  | .ok none => .ok none
  | .ok (some k) => .ok (items.find? (fun it => it.id == k))

/-! ## HTTP responses and effects -/

/-- The columns `PUT /api/account/me` returns of a user. -/
structure AccountView where
  id : Nat
  name : Option String
  email : Option String
  address_line1 : Option String
  address_line2 : Option String
  city : Option String
  postcode : Option String
  country : Option String
  role : Option String
  deriving DecidableEq, Repr

/-- Response body. -/
inductive Body where
  | error (msg : String)
  | order (orderId : Nat) (deduped : Bool)
  | url (u : String)
  | received
  | row (o : Option Order)
  | text (s : String)
  | account (u : Option AccountView)

/-- Response: status code and body. -/
structure Response where
  status : Nat
  body : Body

/-- One element of Stripe `line_items`. -/
structure LineItem where
  name : String
  unit_amount : Int
  quantity : JVal

/-- The `metadata` object of the checkout session. -/
structure SessionMeta where
  user_id : Nat
  delivery_method : JVal
  items_json : JVal

/-- Argument of `stripe.checkout.sessions.create`. -/
structure SessionRequest where
  line_items : List LineItem
  metadata : SessionMeta

/-- What a handler did: the database afterwards, the response, the order ids
for which `sendMail` was called, and the payment sessions requested. -/
structure Outcome where
  db : Db
  resp : Response
  mails : List Nat
  sessions : List SessionRequest

/-- A handler that answers without side effects. -/
def reply (db : Db) (status : Nat) (body : Body) : Outcome :=
  { db := db, resp := { status := status, body := body }, mails := [], sessions := [] }

/-! ## `POST /api/orders` (manual placement, lines 668-754) -/

/-- Request body of `POST /api/orders`; an absent property is `undefined`. -/
structure OrderBody where
  items : JVal
  total_cents : JVal
  delivery_method : JVal

/-- The `WHERE` clause of the dedup query on one row, at time `now`. -/
def isRecentDuplicate (now uid : Nat) (total : JSNum) (delivery : Option String)
    (itemsJson : JVal) (o : Order) : Bool :=
  o.user_id == uid && o.total_cents.sqlEq total && sqlTextEq o.delivery_method delivery
    && o.items_json.beq itemsJson && decide (now ≤ o.created_at + 86400)

/-- `ORDER BY id DESC LIMIT 1`: a row of largest id. -/
def maxById : List Order → Option Order
  | [] => none
  | o :: rest =>
    match maxById rest with
    | none => some o
    | some b => if b.id < o.id then some o else some b

/-- The dedup query of `POST /api/orders`. -/
def findRecentDuplicate (db : Db) (now uid : Nat) (total : JSNum) (delivery : Option String)
    (itemsJson : JVal) : Option Order :=
  maxById (db.orders.filter (isRecentDuplicate now uid total delivery itemsJson))

/-- `sendMail`: resolves or rejects, as the mail transport decides. -/
def sendMail (mailOk : Bool) : Except JsError Unit :=
  if mailOk then .ok () else .error .thrown

/-- The destructuring default `delivery_method = "collect"`, which applies to
`undefined` only. -/
def deliveryOrDefault : JVal → JVal
  | .undefined => .str "collect"
  | v => v

/-- The row written by the `INSERT` of `POST /api/orders`; the columns the
statement does not name take their defaults. -/
def placedOrder (orderId uid : Nat) (itemsJson : JVal) (address : Option User)
    (delivery : Option String) (safeTotal : JSNum) (now : Nat) : Order :=
  { id := orderId
    user_id := uid
    items_json := itemsJson
    address_json := address
    delivery_method := delivery
    total_cents := safeTotal
    status := "placed"
    admin_status := some "awaiting"
    delivery_date := none
    admin_note := none
    created_at := now }

/-- Handler of `POST /api/orders` for the authenticated user `uid` at time
`now`; `mailOk` says whether the notification send succeeds.  The `INSERT`
names `uid` as `user_id`, which `FOREIGN KEY(user_id) REFERENCES users(id)`
refuses when the caller has no row in `users` (the driver enforces foreign
keys), so the handler ends in its `catch`. -/
def postOrders (E : Engine) (db : Db) (now uid : Nat) (body : OrderBody) (mailOk : Bool) :
    Outcome :=
  let delivery_method := deliveryOrDefault body.delivery_method
  match body.items with
  | .arr (i :: rest) =>
    match validateItemsPayload E (.arr (i :: rest)) with
    | .error _ => reply db 500 (.error "Failed to create order")
    | .ok none => reply db 400 (.error "Bad items payload")
    | .ok (some cleanedItems) =>
      match safePrice E body.total_cents with
      | .error _ => reply db 500 (.error "Failed to create order")
      | .ok none => reply db 400 (.error "Bad total")
      | .ok (some safeTotal) =>
        let itemsJson := cleanedJson cleanedItems
        match bindText E delivery_method with
        | .error _ => reply db 500 (.error "Failed to create order")
        | .ok delivery =>
          match findRecentDuplicate db now uid safeTotal delivery itemsJson with
          | some existing => reply db 200 (.order existing.id true)
          | none =>
            match getUser db uid with
            | none => reply db 500 (.error "Failed to create order")
            | some user =>
              let orderId := nextOrderId db
              let db1 := insertOrder db
                (placedOrder orderId uid itemsJson (some user) delivery safeTotal now)
              match sendMail mailOk with
              | .ok _ =>
                { db := db1, resp := ⟨200, .order orderId false⟩, mails := [orderId],
                  sessions := [] }
              | .error _ =>
                { db := db1, resp := ⟨200, .order orderId false⟩, mails := [orderId],
                  sessions := [] }
  | _ => reply db 400 (.error "No items provided")

/-! ## `POST /api/stripe/webhook` (lines 161-242) -/

/-- The `items_json` entry of a session's metadata as the webhook reads it. -/
inductive ItemsMeta where
  /-- The entry is absent or empty, so `"[]"` is parsed instead. -/
  | absent
  /-- The entry is a text that `JSON.parse` rejects. -/
  | malformed
  /-- The entry is a text that `JSON.parse` turns into this tree. -/
  | parsed (v : JVal)

/-- Metadata of the session object; Stripe keeps metadata values as strings. -/
structure EventMeta where
  user_id : Option JsString
  delivery_method : Option JsString
  items_json : ItemsMeta

/-- A signature-verified event: its `type`, and of `event.data.object` the
`metadata` and the `amount_total`. -/
structure Event where
  type : String
  metadata : Option EventMeta
  amount_total : JSNum

/-- A webhook request: `constructEvent` either throws with a message or returns
the event. -/
inductive WebhookRequest where
  | badSignature (message : String)
  | verified (event : Event)

/-- `JSON.parse(metadata.items_json || "[]")`. -/
def parseItemsMeta : ItemsMeta → Except JsError JVal
  | .absent => .ok (.arr [])
  | .malformed => .error .thrown
  | .parsed v => .ok v

/-- Whether the template of the webhook mail evaluates for one element `i` of
`items`: it reads `i.qty`, `i.name` and `i.price_cents` and converts them. -/
def webhookLineRenders (i : JVal) : Bool :=
  match getField i "qty", getField i "name", getField i "price_cents" with
  | .ok qty, .ok name, .ok price => coercible qty && coercible name && coercible price
  | _, _, _ => false

/-- Whether the template of the webhook mail evaluates: `items.map` needs an
array. -/
def webhookMailRenders : JVal → Bool
  | .arr l => l.all webhookLineRenders
  | _ => false

/-- The row written by the `INSERT` of the webhook; the columns the statement
does not name take their defaults. -/
def paidOrder (orderId : Nat) (user : User) (itemsJson : JVal) (delivery : Option String)
    (amount_total : JSNum) (now : Nat) : Order :=
  { id := orderId
    user_id := user.id
    items_json := itemsJson
    address_json := some user
    delivery_method := delivery
    total_cents := amount_total
    status := "paid"
    admin_status := some "awaiting"
    delivery_date := none
    admin_note := none
    created_at := now }

/-- The `try` block of the webhook for a `checkout.session.completed` event:
the database afterwards and the order ids mailed, or the exception caught. -/
def webhookProcess (E : Engine) (db : Db) (now : Nat) (ev : Event) (mailOk : Bool) :
    Db × List Nat × Except JsError Unit :=
  let metadata : EventMeta := match ev.metadata with
    | some m => m
    | none => { user_id := none, delivery_method := none, items_json := .absent }
  let userId : JSNum := match metadata.user_id with
    | some s => stringToNumber E s
    | none => .nan
  match parseItemsMeta metadata.items_json with
  | .error e => (db, [], .error e)
  | .ok items =>
    match userId.toNat?.bind (getUser db) with
    | none => (db, [], .error .thrown)
    | some user =>
      let delivery := match metadata.delivery_method with
        | some s => JVal.str s
        | none => JVal.undefined
      match bindText E delivery with
      | .error e => (db, [], .error e)
      | .ok deliveryText =>
        let orderId := nextOrderId db
        let db1 := insertOrder db
          (paidOrder orderId user (jsonify items) deliveryText ev.amount_total now)
        if webhookMailRenders items then (db1, [orderId], sendMail mailOk)
        else (db1, [], .error .thrown)

/-- Handler of `POST /api/stripe/webhook`. -/
def stripeWebhook (E : Engine) (db : Db) (now : Nat) (req : WebhookRequest) (mailOk : Bool) :
    Outcome :=
  match req with
  | .badSignature message => reply db 400 (.text ("Webhook Error: " ++ message))
  | .verified ev =>
    if ev.type = "checkout.session.completed" then
      match webhookProcess E db now ev mailOk with
      | (db1, mails, .ok _) =>
        { db := db1, resp := ⟨200, .received⟩, mails := mails, sessions := [] }
      | (db1, mails, .error _) =>
        { db := db1, resp := ⟨200, .received⟩, mails := mails, sessions := [] }
    else reply db 200 .received

/-- The webhook request as it arrives: the event its body encodes, and the
message with which signature verification fails (`none` when it succeeds). -/
structure RawWebhook where
  payload : Event
  signatureError : Option String

/-- `stripe.webhooks.constructEvent(req.body, sig, secret)`: throws when the
signature does not verify, and returns the event of the body otherwise. -/
def constructEvent (raw : RawWebhook) : WebhookRequest :=
  match raw.signatureError with
  | some message => .badSignature message
  | none => .verified raw.payload

/-! ## Delivery range (lines 77-136) -/

/-- Result of `postcodeToCoords`. -/
structure Coords where
  lat : JSNum
  lng : JSNum
  deriving DecidableEq, Repr

/-- The services a request reaches outside the process. -/
structure World where
  /-- `postcodeToCoords`: `none` when the lookup answers a status other than
  200 or the request throws. -/
  postcodeToCoords : String → Option Coords
  /-- `haversineDistance` in miles, as the floating-point code computes it. -/
  haversineDistance : Coords → Coords → JSNum
  /-- `stripe.checkout.sessions.create`: the session URL, or `none` when the
  call throws. -/
  createSession : SessionRequest → Option String

def ORIGIN_POSTCODE : String := "LA11 7EZ"

/-- What `fetch` and `res.json()` give for one postcode: an exception, or the
parsed body with its `status` and, when `data.result` is an object, the
coordinates read from it as numbers (`none` when `data.result` is missing, so
that reading `latitude` throws). -/
inductive PostcodeReply where
  | threw
  | body (status : JVal) (result : Option Coords)

/-- `data.status !== 200` is false: the status is the number 200. -/
def isStatus200 : JVal → Bool
  | .num n => n.eqInt 200
  | _ => false

/-- `postcodeToCoords` over the replies of postcodes.io: `null` (`none`) when
the status is not 200 and when anything throws. -/
def postcodeToCoords (fetch : String → PostcodeReply) (pc : String) : Option Coords :=
  match fetch pc with
  | .threw => none
  | .body status result => if isStatus200 status then result else none

/-- The outside world whose postcode lookups are `postcodeToCoords` over
`fetch`. -/
def worldOf (fetch : String → PostcodeReply) (haversineDistance : Coords → Coords → JSNum)
    (createSession : SessionRequest → Option String) : World :=
  { postcodeToCoords := postcodeToCoords fetch
    haversineDistance := haversineDistance
    createSession := createSession }

/-- `withinDeliveryRange`. -/
def withinDeliveryRange (W : World) (postcode : String) : Bool :=
  match W.postcodeToCoords ORIGIN_POSTCODE, W.postcodeToCoords postcode with
  | some origin, some target => (W.haversineDistance origin target).leInt 15
  | _, _ => false

/-! ## `POST /api/checkout` (lines 860-936) -/

/-- Request body of `POST /api/checkout`. -/
structure CheckoutBody where
  items : JVal
  delivery_method : JVal

/-- Result of the `for` loop of the checkout handler. -/
inductive CartLines where
  /-- An exception reached the outer `catch`. -/
  | threw
  /-- Some line named an id the catalog does not have. -/
  | notFound
  /-- The loop finished with these `line_items` and `snapshotItems`. -/
  | built (line_items : List LineItem) (snapshotItems : List JVal)

/-- The `for` loop of the checkout handler over the remaining cart elements. -/
def checkoutLoop (E : Engine) (catalog : List Item) :
    List JVal → List LineItem → List JVal → CartLines
  | [], line_items, snapshotItems => .built line_items snapshotItems
  | i :: rest, line_items, snapshotItems =>
    match getField i "id" with
    | .error _ => .threw
    | .ok rawId =>
      match lookupItem E catalog rawId with
      | .error _ => .threw
      | .ok none => .notFound
      | .ok (some dbItem) =>
        match getField i "qty" with
        | .error _ => .threw
        | .ok qty =>
          checkoutLoop E catalog rest
            (line_items ++
              [{ name := dbItem.name, unit_amount := dbItem.price_cents, quantity := qty }])
            (snapshotItems ++
              [JVal.obj [("id", .num (.ofInt dbItem.id)), ("name", .str dbItem.name),
                ("price_cents", .num (.ofInt dbItem.price_cents)), ("qty", qty)]])

/-- The code points a string iterator yields: a surrogate pair as one string
of two units, every other unit on its own; `pending` is a first half waiting
for its second half. -/
def codePoints : Option Nat → List Nat → List JsString
  | none, [] => []
  | some h, [] => [⟨[h]⟩]
  | none, u :: rest =>
    if isHighSurrogate u then codePoints (some u) rest else ⟨[u]⟩ :: codePoints none rest
  | some h, u :: rest =>
    if isLowSurrogate u then ⟨[h, u]⟩ :: codePoints none rest
    else if isHighSurrogate u then ⟨[h]⟩ :: codePoints (some u) rest
    else ⟨[h]⟩ :: ⟨[u]⟩ :: codePoints none rest

/-- The values `for (const i of items)` iterates over: the elements of an
array, the code points of a string; other values are not iterable. -/
def iterate : JVal → Except JsError (List JVal)
  | .arr l => .ok l
  | .str s => .ok ((codePoints none s.data).map JVal.str)
  | _ => .error .thrown

/-- Handler of `POST /api/checkout` for the authenticated user `uid`. -/
def postCheckout (E : Engine) (W : World) (db : Db) (uid : Nat) (body : CheckoutBody) :
    Outcome :=
  match getUser db uid with
  | none => reply db 500 (.error "Checkout failed")
  | some user =>
    if user.postcode.getD "" = "" then
      reply db 400 (.error "Please add your address before checking out.")
    else if !withinDeliveryRange W (user.postcode.getD "") then
      reply db 403 (.error "Your address is outside our 15-mile service area.")
    else
      match iterate body.items with
      | .error _ => reply db 500 (.error "Checkout failed")
      | .ok cart =>
        match checkoutLoop E db.items cart [] [] with
        | .threw => reply db 500 (.error "Checkout failed")
        | .notFound => reply db 400 (.error "Item not found")
        | .built line_items snapshotItems =>
          let request : SessionRequest :=
            { line_items := line_items
              metadata :=
                { user_id := uid
                  delivery_method := body.delivery_method
                  items_json := jsonify (.arr snapshotItems) } }
          match W.createSession request with
          | none =>
            { db := db, resp := ⟨500, .error "Checkout failed"⟩, mails := [],
              sessions := [request] }
          | some url =>
            { db := db, resp := ⟨200, .url url⟩, mails := [], sessions := [request] }

/-- The `checkout.session.completed` event Stripe sends for a session created
from `request` and paid with `amount_total`, when the session's delivery method
is a string (metadata values travel as strings, the user id in decimal). -/
def completedEvent (request : SessionRequest) (amount_total : JSNum) : Option Event :=
  match request.metadata.delivery_method with
  | .str s =>
    some
      { type := "checkout.session.completed"
        metadata := some
          { user_id := some (JsString.ofString (toString request.metadata.user_id))
            delivery_method := some s
            items_json := .parsed request.metadata.items_json }
        amount_total := amount_total }
  | _ => none

/-! ## `PUT /api/admin/orders/:id` (lines 979-993) -/

/-- Request body of the admin order update. -/
structure AdminOrderBody where
  admin_status : JVal
  delivery_date : JVal
  admin_note : JVal

/-- JavaScript `a || b` on JSON values. -/
def jsOr (a b : JVal) : JVal := if a.truthy then a else b

/-- `requireAdmin`: the caller's row exists and has role `admin`. -/
def isAdmin (db : Db) (uid : Nat) : Bool :=
  match getUser db uid with
  | some u => u.role == some "admin"
  | none => false

/-- `UPDATE orders SET admin_status=?, delivery_date=?, admin_note=? WHERE id=?`. -/
def updateOrderRows (id : JSNum) (admin_status delivery_date admin_note : String) :
    List Order → List Order
  | [] => []
  | o :: rest =>
    (if id.sqlEq (.ofInt o.id) then
      { o with admin_status := some admin_status, delivery_date := some delivery_date,
               admin_note := some admin_note }
    else o) :: updateOrderRows id admin_status delivery_date admin_note rest

/-- Handler of `PUT /api/admin/orders/:id` behind `auth` and `requireAdmin`;
`idParam` is the `:id` segment of the URL.  The three texts are the values as
the `UPDATE` binds them. -/
def putAdminOrder (E : Engine) (db : Db) (uid : Nat) (idParam : String) (body : AdminOrderBody) :
    Outcome :=
  if !isAdmin db uid then reply db 403 (.error "Admin only")
  else
    let id := stringToNumber E idParam
    if !id.truthy then reply db 400 (.error "Invalid ID")
    else
      let admin_status := storedText E (safeText (jsOr body.admin_status (.str "awaiting")) 40)
      let delivery_date := storedText E (safeText (jsOr body.delivery_date (.str "")) 40)
      let admin_note := storedText E (safeLongText (jsOr body.admin_note (.str "")) 1000)
      let db1 : Db :=
        { db with orders := updateOrderRows id admin_status delivery_date admin_note db.orders }
      reply db1 200 (.row (db1.orders.find? (fun o => id.sqlEq (.ofInt o.id))))

/-! ## Order listings (lines 942-977) -/

/-- Insertion of `x` into a list ordered by decreasing `key`. -/
def insertDesc {α : Type} (key : α → Nat) (x : α) : List α → List α
  | [] => [x]
  | y :: ys => if key y ≤ key x then x :: y :: ys else y :: insertDesc key x ys

/-- `ORDER BY key DESC`. -/
def orderByDesc {α : Type} (key : α → Nat) : List α → List α
  | [] => []
  | x :: xs => insertDesc key x (orderByDesc key xs)

/-- Rows of `GET /api/orders` for the authenticated user `uid`:
`SELECT * FROM orders WHERE user_id=? ORDER BY id DESC`. -/
def getOrders (db : Db) (uid : Nat) : List Order :=
  orderByDesc (fun o => o.id) (db.orders.filter (fun o => o.user_id == uid))

/-- A row of the admin listing: `o.*, u.email AS user_email, u.name AS user_name`. -/
structure AdminOrderRow where
  order : Order
  user_email : Option String
  user_name : Option String

/-- `FROM orders o JOIN users u ON u.id = o.user_id`: an order without a user
row drops out (`users.id` is the primary key, so at most one row joins). -/
def joinUsers (db : Db) (orders : List Order) : List AdminOrderRow :=
  orders.filterMap (fun o =>
    (getUser db o.user_id).map (fun u =>
      { order := o, user_email := u.email, user_name := u.name }))

/-- Five days in seconds. -/
def FIVE_DAYS : Nat := 432000

/-- The `active` query of `GET /api/admin/orders` at time `now`. -/
def activeOrders (db : Db) (now : Nat) : List AdminOrderRow :=
  orderByDesc (fun r => r.order.id)
    (joinUsers db (db.orders.filter (fun o => decide (now ≤ o.created_at + FIVE_DAYS))))

/-- The `archived` query of `GET /api/admin/orders` at time `now`, with its
`LIMIT 200`. -/
def archivedOrders (db : Db) (now : Nat) : List AdminOrderRow :=
  (orderByDesc (fun r => r.order.id)
    (joinUsers db (db.orders.filter (fun o => decide (o.created_at + FIVE_DAYS < now))))).take 200

/-- Body `{ active, archived }` of `GET /api/admin/orders` behind `auth` and
`requireAdmin`; `none` is the 403 answer. -/
def getAdminOrders (db : Db) (uid now : Nat) :
    Option (List AdminOrderRow × List AdminOrderRow) :=
  if isAdmin db uid then some (activeOrders db now, archivedOrders db now) else none

/-! ## `PUT /api/account/me` (lines 760-812) -/

/-- Request body of the account update: the six allowed keys, `undefined` for
an absent one. -/
structure AccountBody where
  name : JVal
  address_line1 : JVal
  address_line2 : JVal
  city : JVal
  postcode : JVal
  country : JVal

/-- `replace(/\s+/g, " ")`: every run of white space becomes one space;
`inRun` says that the previous character was white space. -/
def collapseSpaces : Bool → List Nat → List Nat
  | _, [] => []
  | inRun, c :: cs =>
    if isJsSpace c then
      if inRun then collapseSpaces true cs else 0x20 :: collapseSpaces true cs
    else c :: collapseSpaces false cs

/-- `clean` of the account update: the empty string for a non-string. -/
def cleanField : JVal → JsString
  | .str s => jsSlice ⟨collapseSpaces false (jsTrim s).data⟩ 200
  | _ => ⟨[]⟩

/-- The value a column has after the `UPDATE`: the cleaned field when it is
non-empty, else what was stored. -/
def updatedColumn (E : Engine) (incoming : JVal) (stored : Option String) : Option String :=
  if (cleanField incoming).data = [] then stored else some (storedText E (cleanField incoming))

/-- The `SELECT` that ends the account update. -/
def accountView (u : User) : AccountView :=
  { id := u.id, name := u.name, email := u.email, address_line1 := u.address_line1,
    address_line2 := u.address_line2, city := u.city, postcode := u.postcode,
    country := u.country, role := u.role }

/-- Handler of `PUT /api/account/me` for the authenticated user `uid`. -/
def putAccount (E : Engine) (db : Db) (uid : Nat) (body : AccountBody) : Outcome :=
  if (cleanField body.name).data = [] ∧ (cleanField body.address_line1).data = [] ∧
      (cleanField body.address_line2).data = [] ∧ (cleanField body.city).data = [] ∧
      (cleanField body.postcode).data = [] ∧ (cleanField body.country).data = [] then
    reply db 400 (.error "No valid fields")
  else
    let db1 : Db :=
      { db with users := db.users.map (fun u =>
          if u.id == uid then
            { u with
              name := updatedColumn E body.name u.name
              address_line1 := updatedColumn E body.address_line1 u.address_line1
              address_line2 := updatedColumn E body.address_line2 u.address_line2
              city := updatedColumn E body.city u.city
              postcode := updatedColumn E body.postcode u.postcode
              country := updatedColumn E body.country u.country }
          else u) }
    reply db1 200 (.account ((getUser db1 uid).map accountView))

/-! ## Predicates used in the statements -/

/-- The number lies in the closed interval `[lo, hi]`. -/
def JSNum.inRange (lo hi : Int) : JSNum → Bool
  | .fin m e => decide (lo * 2 ^ e ≤ m) && decide (m ≤ hi * 2 ^ e)
  | _ => false

/-- The number is an integer and greater than zero. -/
def JSNum.isPositiveInteger : JSNum → Bool
  | .fin m e => decide (m % 2 ^ e = 0) && decide (0 < m)
  | _ => false

/-- Integer `k` is nearest to the number `x`: `x - 1/2 < k ≤ x + 1/2`. -/
def JSNum.isNearestInt : JSNum → Int → Prop
  | .fin m e, k => 2 * m - 2 ^ e < 2 * k * 2 ^ e ∧ 2 * k * 2 ^ e ≤ 2 * m + 2 ^ e
  | _, _ => False

/-- A cart line with a valid id and quantity: an object whose `id` converts to
a positive integer, whose `qty` converts to an integer in `[1, 99]`, and whose
`price_cents`, if any, is a value that converts to a number without throwing. -/
def validCartLine (E : Engine) (i : JVal) : Bool :=
  match i with
  | .obj fields =>
    (match toNumber E (JVal.lookup "id" fields), toNumber E (JVal.lookup "qty" fields) with
      | .ok id, .ok qty => id.isPositiveInteger && (qty.isInteger && qty.inRange 1 99)
      | _, _ => false)
    && coercible (JVal.lookup "price_cents" fields)
  | _ => false

/-- A cart line whose id and quantity are valid: an object whose `id` converts
to a positive integer and whose `qty` converts to an integer in `[1, 99]`. -/
def validIdAndQty (E : Engine) (i : JVal) : Bool :=
  match i with
  | .obj fields =>
    match toNumber E (JVal.lookup "id" fields), toNumber E (JVal.lookup "qty" fields) with
    | .ok id, .ok qty => id.isPositiveInteger && (qty.isInteger && qty.inRange 1 99)
    | _, _ => false
  | _ => false

/-- The sanitised price of output line `c` for input line `i`: an integer `k`
in `[0, 100000000]`, which is 0 when `price_cents` is absent, `Math.round` of
the supplied number (the nearest integer) when `Number(price_cents)` lies in
that range, and 0 when it does not. -/
def linePriceSanitised (E : Engine) (i : JVal) (c : CleanItem) : Prop :=
  ∃ raw k, getField i "price_cents" = .ok raw ∧ c.price_cents = .fin k 0 ∧
    0 ≤ k ∧ k ≤ 100000000 ∧
    (raw.isNullish = true → k = 0) ∧
    (∀ n, toNumber E raw = .ok n →
      (n.inRange 0 100000000 = true → c.price_cents = n.round ∧ n.isNearestInt k) ∧
      (n.inRange 0 100000000 = false → k = 0))

/-! ## Sample data for statements at concrete inputs -/

/-- An engine instance for closed statements; no statement below reaches one of
its fields. -/
def someEngine : Engine :=
  { stringToNumber := fun _ => .nan
    arrayToNumber := fun _ => .nan
    numberToText := fun _ => ""
    textToRowid := fun _ => none
    illFormedText := fun _ => "" }

/-- A cart of 50 lines `{ id: 7, qty: 99 }`. -/
def fiftyLines : List JVal :=
  List.replicate 50 (.obj [("id", .num (.fin 7 0)), ("qty", .num (.fin 99 0))])

/-- A cart of 50 lines `{ id: 7, qty: 99, price_cents: { toString: 1 } }`. -/
def hostilePriceLines : List JVal :=
  List.replicate 50 (.obj [("id", .num (.fin 7 0)), ("qty", .num (.fin 99 0)),
    ("price_cents", .obj [("toString", .num (.fin 1 0))])])

/-- A customer with a saved address. -/
def alice : User :=
  { id := 1, name := some "Alice", email := some "alice@example.com",
    password_hash := some "$2a$10$hash", role := some "user",
    address_line1 := some "1 Main Street", address_line2 := none,
    city := some "Grange-over-Sands", postcode := some "LA11 6AB", country := some "UK",
    created_at := 0 }

/-- The shop administrator. -/
def admin : User :=
  { id := 2, name := some "Admin", email := some "admin@example.com",
    password_hash := some "$2a$10$hash", role := some "admin",
    address_line1 := none, address_line2 := none, city := none, postcode := none,
    country := none, created_at := 0 }

/-- The seeded catalog of `seedIfNeeded`. -/
def seedItems : List Item :=
  [ { id := 1, name := "Dog Collar", price_cents := 1299, in_stock := true },
    { id := 2, name := "Beef Chew Bone", price_cents := 799, in_stock := true },
    { id := 3, name := "Cat Collar", price_cents := 899, in_stock := true },
    { id := 4, name := "Salmon Treats", price_cents := 499, in_stock := true } ]

/-- A database with the two users, the seeded catalog and no order. -/
def emptyShop : Db :=
  { users := [alice, admin], items := seedItems, orders := [], orderSeq := 0 }

/-- The cart line the client sends for one Beef Chew Bone. -/
def chewLine : JVal :=
  .obj [("id", .num (.fin 2 0)), ("name", .str "Beef Chew Bone"),
    ("price_cents", .num (.fin 799 0)), ("qty", .num (.fin 1 0))]

/-- `POST /api/orders` body: one Beef Chew Bone, total 799, collect. -/
def chewOrder : OrderBody :=
  { items := .arr [chewLine], total_cents := .num (.fin 799 0), delivery_method := .str "collect" }

/-- A ledger holding one order placed by `alice` at time 0 with the content of
`chewOrder`. -/
def shopWithOldOrder : Db :=
  { emptyShop with
    orders :=
      [ { id := 1, user_id := 1, items_json := cleanedJson
            [{ id := .fin 2 0, qty := .fin 1 0, name := "Beef Chew Bone", price_cents := .fin 799 0 }]
          address_json := some alice, delivery_method := some "collect",
          total_cents := .fin 799 0, status := "placed", admin_status := some "awaiting",
          delivery_date := none, admin_note := none, created_at := 0 } ]
    orderSeq := 1 }

/-- An outside world in which every postcode resolves, lies 5 miles from the
shop, and the payment gateway accepts every session. -/
def sampleWorld : World :=
  { postcodeToCoords := fun _ => some { lat := .fin 54 0, lng := .fin (-3) 0 }
    haversineDistance := fun _ _ => .fin 5 0
    createSession := fun _ => some "https://checkout.stripe.com/c/pay/cs_test_1" }

/-- `POST /api/checkout` body: one Beef Chew Bone, collect. -/
def chewCheckout : CheckoutBody :=
  { items := .arr [chewLine], delivery_method := .str "collect" }

/-- The session `POST /api/checkout` requests for `chewCheckout`. -/
def chewSession : SessionRequest :=
  { line_items := [{ name := "Beef Chew Bone", unit_amount := 799, quantity := .num (.fin 1 0) }]
    metadata :=
      { user_id := 1
        delivery_method := .str "collect"
        items_json := .arr [.obj [("id", .num (.fin 2 0)), ("name", .str "Beef Chew Bone"),
          ("price_cents", .num (.fin 799 0)), ("qty", .num (.fin 1 0))]] } }

/-- The event Stripe sends once `chewSession` is paid (799 pence). -/
def chewEvent : Event :=
  { type := "checkout.session.completed"
    metadata := some
      { user_id := some "1"
        delivery_method := some "collect"
        items_json := .parsed (.arr [.obj [("id", .num (.fin 2 0)), ("name", .str "Beef Chew Bone"),
          ("price_cents", .num (.fin 799 0)), ("qty", .num (.fin 1 0))]]) }
    amount_total := .fin 799 0 }

/-- `POST /api/checkout` body: 150 Beef Chew Bones in one line, collect. -/
def bulkCheckout : CheckoutBody :=
  { items := .arr [.obj [("id", .num (.fin 2 0)), ("qty", .num (.fin 150 0))]],
    delivery_method := .str "collect" }

/-- The session `POST /api/checkout` requests for `bulkCheckout`. -/
def bulkSession : SessionRequest :=
  { line_items := [{ name := "Beef Chew Bone", unit_amount := 799, quantity := .num (.fin 150 0) }]
    metadata :=
      { user_id := 1
        delivery_method := .str "collect"
        items_json := .arr [.obj [("id", .num (.fin 2 0)), ("name", .str "Beef Chew Bone"),
          ("price_cents", .num (.fin 799 0)), ("qty", .num (.fin 150 0))]] } }

/-- The event Stripe sends once `bulkSession` is paid (150 times 799 pence). -/
def bulkEvent : Event :=
  { type := "checkout.session.completed"
    metadata := some
      { user_id := some "1"
        delivery_method := some "collect"
        items_json := .parsed (.arr [.obj [("id", .num (.fin 2 0)), ("name", .str "Beef Chew Bone"),
          ("price_cents", .num (.fin 799 0)), ("qty", .num (.fin 150 0))]]) }
    amount_total := .fin 119850 0 }

/-- One line of stored order items is within the validator's bounds: an object
whose `id` is a positive integer and whose `qty` is a number in `[1, 99]`. -/
def lineWithinBounds : JVal → Bool
  | .obj fields =>
    match JVal.lookup "id" fields, JVal.lookup "qty" fields with
    | .num id, .num qty => id.isPositiveInteger && qty.inRange 1 99
    | _, _ => false
  | _ => false

/-- Stored order items are within the validator's bounds: between 1 and 50
lines, each within bounds. -/
def withinValidatorBounds : JVal → Bool
  | .arr l => decide (1 ≤ l.length ∧ l.length ≤ 50) && l.all lineWithinBounds
  | _ => false

/-- `POST /api/orders` body: one bag of Salmon Treats, total 499, delivery. -/
def smallDelivery : OrderBody :=
  { items := .arr [.obj [("id", .num (.fin 4 0)), ("name", .str "Salmon Treats"),
      ("price_cents", .num (.fin 499 0)), ("qty", .num (.fin 1 0))]]
    total_cents := .num (.fin 499 0)
    delivery_method := .str "deliver" }

/-- `POST /api/checkout` body: one bag of Salmon Treats, delivery. -/
def smallDeliveryCheckout : CheckoutBody :=
  { items := .arr [.obj [("id", .num (.fin 4 0)), ("name", .str "Salmon Treats"),
      ("price_cents", .num (.fin 499 0)), ("qty", .num (.fin 1 0))]]
    delivery_method := .str "deliver" }

/-- An order of `alice` with the given delivery date. -/
def aliceOrder (delivery_date : Option String) : Order :=
  { id := 1, user_id := 1, items_json := cleanedJson
      [{ id := .fin 2 0, qty := .fin 1 0, name := "Beef Chew Bone", price_cents := .fin 799 0 }]
    address_json := some alice, delivery_method := some "collect", total_cents := .fin 799 0,
    status := "placed", admin_status := some "awaiting", delivery_date := delivery_date,
    admin_note := none, created_at := 0 }

/-- A ledger holding one order whose delivery date is set to 2024-01-10. -/
def shopWithDatedOrder : Db :=
  { emptyShop with orders := [aliceOrder (some "2024-01-10")], orderSeq := 1 }

/-- A ledger holding one order without a delivery date. -/
def shopWithUndatedOrder : Db :=
  { emptyShop with orders := [aliceOrder none], orderSeq := 1 }

/-- Two cart lines agree on `id` and `qty` (whatever else they hold). -/
def sameIdAndQty (a b : JVal) : Prop :=
  getField a "id" = getField b "id" ∧ getField a "qty" = getField b "qty"

/-- One value names the catalog row `k`: a number equal to `k`, or a text that
`INTEGER` affinity turns into `k`. -/
def scalarNames (E : Engine) : JVal → Nat → Prop
  | .num n, k => n.sqlEq (.ofInt k) = true
  | .str s, k => E.textToRowid (storedText E s) = some k
  | _, _ => False

/-- The `id` value of a cart line names the catalog row `k`, bare or as the
single element of an array. -/
def idNames (E : Engine) : JVal → Nat → Prop
  | .arr [x], k => scalarNames E x k
  | .arr _, _ => False
  | v, k => scalarNames E v k

/-- The payment-session line item `ln` built for cart line `i` carries the
name and price of an item of the catalog whose id is the one `i.id` names, and
the quantity of `i`. -/
def lineFromCatalog (E : Engine) (catalog : List Item) (i : JVal) (ln : LineItem) : Prop :=
  ∃ rawId item qty, getField i "id" = .ok rawId ∧ item ∈ catalog ∧ idNames E rawId item.id ∧
    getField i "qty" = .ok qty ∧
    ln.name = item.name ∧ ln.unit_amount = item.price_cents ∧ ln.quantity = qty

/-- The metadata snapshot `v` built for cart line `i` carries the id, name and
price of an item of the catalog whose id is the one `i.id` names, and the
quantity of `i`. -/
def snapshotFromCatalog (E : Engine) (catalog : List Item) (i : JVal) (v : JVal) : Prop :=
  ∃ rawId item qty, getField i "id" = .ok rawId ∧ item ∈ catalog ∧ idNames E rawId item.id ∧
    getField i "qty" = .ok qty ∧
    v = .obj [("id", .num (.ofInt item.id)), ("name", .str item.name),
      ("price_cents", .num (.ofInt item.price_cents)), ("qty", qty)]

/-- The cart line of a client that claims a Beef Chew Bone costs one penny. -/
def pennyLine : JVal :=
  .obj [("id", .num (.fin 2 0)), ("name", .str "Free Bone"),
    ("price_cents", .num (.fin 1 0)), ("qty", .num (.fin 1 0))]

/-- A cart line that names the Beef Chew Bone by the array `[2]`, which the
driver spreads into the parameter 2. -/
def arrayIdLine : JVal :=
  .obj [("id", .arr [.num (.fin 2 0)]), ("qty", .num (.fin 1 0))]

/-- The user the metadata of an event names: `Number(metadata.user_id)` looked
up in `users`. -/
def eventUser (E : Engine) (db : Db) (ev : Event) : Option User :=
  match ev.metadata with
  | none => none
  | some m =>
    match m.user_id with
    | none => none
    | some s => (stringToNumber E s).toNat?.bind (getUser db)

/-- The items entry of the event's metadata is a text that does not parse. -/
def eventItemsMalformed (ev : Event) : Prop :=
  ∃ m, ev.metadata = some m ∧ m.items_json = .malformed

/-- A response with a success status (2xx). -/
def Response.isSuccess (r : Response) : Bool :=
  decide (200 ≤ r.status ∧ r.status < 300)

/-- `POST /api/orders` body whose cart holds a `null` element and whose total
is negative. -/
def nullLineOrder : OrderBody :=
  { items := .arr [.null], total_cents := .num (.fin (-5) 0), delivery_method := .str "collect" }

/-- An event of another type. -/
def refundEvent : Event :=
  { type := "charge.refunded", metadata := none, amount_total := .fin 799 0 }

/-- A completed-session event that names `alice` and whose items text does not
parse. -/
def malformedEvent : Event :=
  { type := "checkout.session.completed"
    metadata := some
      { user_id := some "1", delivery_method := some "collect", items_json := .malformed }
    amount_total := .fin 799 0 }

/-- A webhook request whose signature does not verify. -/
def forgedWebhook : RawWebhook :=
  { payload := chewEvent
    signatureError := some "No signatures found matching the expected signature for payload" }

/-- An outside world in which every postcode resolves and lies 20 miles from
the shop. -/
def farWorld : World :=
  { sampleWorld with haversineDistance := fun _ _ => .fin 20 0 }

/-- The cleaned line the validator returns for `chewLine`. -/
def chewClean : CleanItem :=
  { id := .fin 2 0, qty := .fin 1 0, name := "Beef Chew Bone", price_cents := .fin 799 0 }

/-- A completed-session event whose metadata names user 7, who does not exist
in `emptyShop`. -/
def ghostEvent : Event :=
  { type := "checkout.session.completed"
    metadata := some
      { user_id := some "7", delivery_method := some "collect", items_json := .absent }
    amount_total := .fin 799 0 }

/-- The number is at most `q` as a real number (`NaN` is not). -/
def JSNum.leRat : JSNum → ℚ → Prop
  | .fin m e, q => (m : ℚ) / 2 ^ e ≤ q
  | .negInf, _ => True
  | _, _ => False

/-- An outside world in which every postcode resolves and lies at distance `d`
from the shop. -/
def worldAt (d : JSNum) : World :=
  { sampleWorld with haversineDistance := fun _ _ => d }

/-- The binary64 value nearest to 15.01. -/
def fifteenPointOhOne : JSNum := .fin 8449878800853893 49

/-- Replies of a postcode service that knows the shop's postcode and answers
404 for every other one. -/
def onlyOriginKnown (pc : String) : PostcodeReply :=
  if pc = ORIGIN_POSTCODE then
    .body (.num (.fin 200 0)) (some { lat := .fin 54 0, lng := .fin (-3) 0 })
  else .body (.num (.fin 404 0)) none

/-- The orders of the `active` list of the admin listing. -/
def activeList (db : Db) (now : Nat) : List Order :=
  (activeOrders db now).map (fun r => r.order)

/-- The orders of the `archived` list of the admin listing. -/
def archivedList (db : Db) (now : Nat) : List Order :=
  (archivedOrders db now).map (fun r => r.order)

/-- An order of user `uid` with id `id`, created at `created_at`. -/
def orderAt (id uid created_at : Nat) : Order :=
  { aliceOrder none with id := id, user_id := uid, created_at := created_at }

/-- A ledger of three orders: order 1 of `alice` created at 564400 s, order 2
of `alice` created at 571600 s, order 3 of `admin` created at 900000 s. -/
def threeOrders : Db :=
  { emptyShop with
    orders := [orderAt 1 1 564400, orderAt 2 1 571600, orderAt 3 2 900000]
    orderSeq := 3 }

/-- Text `t` is text `s` without its leading and trailing white space. -/
def isTrimOf (t s : List Nat) : Prop :=
  ∃ pre post, s = pre ++ t ++ post ∧
    (∀ c ∈ pre, isJsSpace c = true) ∧ (∀ c ∈ post, isJsSpace c = true) ∧
    (∀ c, t.head? = some c → isJsSpace c = false) ∧
    (∀ c, t.getLast? = some c → isJsSpace c = false)

/-- The name of output line `c` for input line `i`: at most 160 code units
long; for a string input, the first 160 code units of the trimmed input (all of
it when it has no more); the empty string for any other input. -/
def lineNameSanitised (i : JVal) (c : CleanItem) : Prop :=
  ∃ rawName, getField i "name" = .ok rawName ∧ c.name.length ≤ 160 ∧
    (∀ s, rawName = .str s →
      ∃ trimmed, isTrimOf trimmed s.data ∧ c.name.data = trimmed.take 160) ∧
    ((∀ s, rawName ≠ .str s) → c.name.data = [])

/-- What `PUT /api/admin/orders/:id` does to stored order `o`, giving `o2`:
when `:id` names the order, each of the three fields the body omits falls back
to its default and no other column changes; any other order stays as it is. -/
def omittedFieldsReset (E : Engine) (idParam : String) (body : AdminOrderBody)
    (o o2 : Order) : Prop :=
  ((stringToNumber E idParam).sqlEq (.ofInt o.id) = true →
    (body.admin_status = .undefined → o2.admin_status = some "awaiting") ∧
    (body.delivery_date = .undefined → o2.delivery_date = some "") ∧
    (body.admin_note = .undefined → o2.admin_note = some "") ∧
    o2 = { o with admin_status := o2.admin_status, delivery_date := o2.delivery_date,
                  admin_note := o2.admin_note }) ∧
  ((stringToNumber E idParam).sqlEq (.ofInt o.id) = false → o2 = o)

/-- An order the administrator has already worked on. -/
def editedOrder : Order :=
  { aliceOrder (some "2024-01-10") with
    admin_status := some "ready", admin_note := some "ring the bell" }

/-- A ledger holding `editedOrder`. -/
def shopWithEditedOrder : Db :=
  { emptyShop with orders := [editedOrder], orderSeq := 1 }

/-- A request body of `PUT /api/admin/orders/:id` without any property. -/
def emptyAdminBody : AdminOrderBody :=
  { admin_status := .undefined, delivery_date := .undefined, admin_note := .undefined }

/-- A name of 161 characters whose 160th character is a blank. -/
def paddedName : JsString := ⟨List.replicate 159 97 ++ [32, 98]⟩

/-- A cart line with `paddedName`. -/
def paddedLine : JVal :=
  .obj [("id", .num (.fin 1 0)), ("qty", .num (.fin 1 0)), ("name", .str paddedName)]

/-- The line `validateItemsPayload` returns for `paddedLine`: the name is cut
after the blank. -/
def paddedOnce : CleanItem :=
  { id := .fin 1 0, qty := .fin 1 0, name := ⟨List.replicate 159 97 ++ [32]⟩,
    price_cents := .fin 0 0 }

/-- The line `validateItemsPayload` returns for `paddedOnce`: the blank is
trimmed away. -/
def paddedTwice : CleanItem :=
  { id := .fin 1 0, qty := .fin 1 0, name := ⟨List.replicate 159 97⟩,
    price_cents := .fin 0 0 }

/-- `POST /api/orders` body: one Beef Chew Bone, total 799, sent with a
delivery method that is neither `collect` nor `deliver`. -/
def pigeonOrder : OrderBody :=
  { items := .arr [chewLine], total_cents := .num (.fin 799 0), delivery_method := .str "pigeon" }

/-- `POST /api/checkout` body: one Beef Chew Bone, sent with the delivery
method `pigeon`. -/
def pigeonCheckout : CheckoutBody :=
  { items := .arr [chewLine], delivery_method := .str "pigeon" }

/-- The event Stripe sends once the session requested for `pigeonCheckout` is
paid (799 pence). -/
def pigeonEvent : Event :=
  { type := "checkout.session.completed"
    metadata := some
      { user_id := some "1"
        delivery_method := some "pigeon"
        items_json := .parsed (.arr [.obj [("id", .num (.fin 2 0)), ("name", .str "Beef Chew Bone"),
          ("price_cents", .num (.fin 799 0)), ("qty", .num (.fin 1 0))]]) }
    amount_total := .fin 799 0 }

/-- The database after the deliveries `(time, mail transport up)` of the
verified event `ev` to the webhook, one after the other. -/
def deliverAll (E : Engine) (ev : Event) : Db → List (Nat × Bool) → Db
  | db, [] => db
  | db, (now, mailOk) :: rest =>
    deliverAll E ev (stripeWebhook E db now (.verified ev) mailOk).db rest

/-- An account update that changes the city. -/
def movedBody : AccountBody :=
  { name := .undefined, address_line1 := .undefined, address_line2 := .undefined,
    city := .str "Kendal", postcode := .undefined, country := .undefined }

/-- The snapshot `snap` holds every column of the user row `user`, the password
hash and the role included. -/
def holdsWholeRecord (snap : Option User) (user : User) : Prop :=
  ∃ u, snap = some u ∧ u.id = user.id ∧ u.name = user.name ∧ u.email = user.email ∧
    u.password_hash = user.password_hash ∧ u.role = user.role ∧
    u.address_line1 = user.address_line1 ∧ u.address_line2 = user.address_line2 ∧
    u.city = user.city ∧ u.postcode = user.postcode ∧ u.country = user.country ∧
    u.created_at = user.created_at

/-- One bound value is `NULL`: `null`, and the values JSON cannot carry that
the driver binds alike, `undefined` and `NaN`. -/
def bindsNull : JVal → Bool
  | .null => true
  | .undefined => true
  | .num .nan => true
  | _ => false

/-- The `delivery_method` of a request body is stored as `NULL`: it is `null`,
bare or as the single element of an array (an absent property is not, it takes
the default `collect`). -/
def isNullDelivery : JVal → Bool
  | .null => true
  | .num .nan => true
  | .arr [x] => bindsNull x
  | _ => false

/-- `POST /api/orders` body: one Beef Chew Bone, total 799, delivery method
`null`. -/
def nullDeliveryOrder : OrderBody :=
  { items := .arr [chewLine], total_cents := .num (.fin 799 0), delivery_method := .null }

/-- `POST /api/orders` body: one Beef Chew Bone, total 799, delivery method
`[null]`. -/
def nullInArrayOrder : OrderBody :=
  { items := .arr [chewLine], total_cents := .num (.fin 799 0), delivery_method := .arr [.null] }

/-- `POST /api/orders` body: one Beef Chew Bone, total 799, delivery method
`true`. -/
def booleanDeliveryOrder : OrderBody :=
  { items := .arr [chewLine], total_cents := .num (.fin 799 0), delivery_method := .bool true }

/-- A completed-session event whose metadata names `alice` and nothing else:
no delivery method, no items. -/
def bareEvent : Event :=
  { type := "checkout.session.completed"
    metadata := some { user_id := some "1", delivery_method := none, items_json := .absent }
    amount_total := .fin 799 0 }

/-! # Theorems

Every declaration from here on is a theorem; definitions, the predicates used
in statements and the sample data stand above. -/

/-! ## Lemmas on JSON values -/

namespace JVal

mutual
theorem beq_refl : ∀ a : JVal, beq a a = true
  | undefined => rfl
  | null => rfl
  | bool b => by simp [beq]
  | num n => by simp [beq]
  | str s => by simp [beq]
  | arr l => by simp [beq, beqList_refl l]
  | obj fs => by simp [beq, beqFields_refl fs]
theorem beqList_refl : ∀ l : List JVal, beqList l l = true
  | [] => rfl
  | x :: xs => by simp [beqList, beq_refl x, beqList_refl xs]
theorem beqFields_refl : ∀ l : List (JsString × JVal), beqFields l l = true
  | [] => rfl
  | (k, x) :: xs => by simp [beqFields, beq_refl x, beqFields_refl xs]
end

mutual
theorem eq_of_beq : ∀ a b : JVal, beq a b = true → a = b
  | undefined, b, h => by cases b <;> simp_all [beq]
  | null, b, h => by cases b <;> simp_all [beq]
  | bool x, b, h => by cases b <;> simp_all [beq]
  | num x, b, h => by cases b <;> simp_all [beq]
  | str x, b, h => by cases b <;> simp_all [beq]
  | arr x, undefined, h => by simp [beq] at h
  | arr x, null, h => by simp [beq] at h
  | arr x, bool _, h => by simp [beq] at h
  | arr x, num _, h => by simp [beq] at h
  | arr x, str _, h => by simp [beq] at h
  | arr x, obj _, h => by simp [beq] at h
  | arr x, arr y, h => by rw [eqList_of_beq x y (by simpa [beq] using h)]
  | obj x, undefined, h => by simp [beq] at h
  | obj x, null, h => by simp [beq] at h
  | obj x, bool _, h => by simp [beq] at h
  | obj x, num _, h => by simp [beq] at h
  | obj x, str _, h => by simp [beq] at h
  | obj x, arr _, h => by simp [beq] at h
  | obj x, obj y, h => by rw [eqFields_of_beq x y (by simpa [beq] using h)]
theorem eqList_of_beq : ∀ a b : List JVal, beqList a b = true → a = b
  | [], [], _ => rfl
  | [], _ :: _, h => by simp [beqList] at h
  | _ :: _, [], h => by simp [beqList] at h
  | x :: xs, y :: ys, h => by
    simp only [beqList, Bool.and_eq_true] at h
    rw [eq_of_beq x y h.1, eqList_of_beq xs ys h.2]
theorem eqFields_of_beq : ∀ a b : List (JsString × JVal), beqFields a b = true → a = b
  | [], [], _ => rfl
  | [], _ :: _, h => by simp [beqFields] at h
  | _ :: _, [], h => by simp [beqFields] at h
  | (k, x) :: xs, (l, y) :: ys, h => by
    simp only [beqFields, Bool.and_eq_true, beq_iff_eq] at h
    rw [h.1.1, eq_of_beq x y h.1.2, eqFields_of_beq xs ys h.2]
end

/-- The equality test on JSON trees decides equality of the trees. -/
theorem beq_iff (a b : JVal) : beq a b = true ↔ a = b :=
  ⟨eq_of_beq a b, fun h => h ▸ beq_refl a⟩

end JVal

/-! ## The order validator -/

/-- A coercible value converts to a number without throwing. -/
theorem toNumber_of_coercible (E : Engine) (v : JVal) (h : coercible v = true) :
    ∃ n, toNumber E v = .ok n := by
  cases v with
  | undefined => exact ⟨_, rfl⟩
  | null => exact ⟨_, rfl⟩
  | bool b => cases b <;> exact ⟨_, rfl⟩
  | num n => exact ⟨_, rfl⟩
  | str s => exact ⟨_, rfl⟩
  | arr l =>
    cases l with
    | nil => exact ⟨_, rfl⟩
    | cons x xs =>
      simp only [coercible] at h
      exact ⟨E.arrayToNumber (x :: xs), by simp [toNumber, h]⟩
  | obj fields => exact ⟨.nan, by simp [toNumber, h]⟩

/-- The loop returns a list exactly when every remaining element is accepted,
and then appends the accepted lines in order. -/
theorem validateLoop_eq_some (E : Engine) (l : List JVal) (acc out : List CleanItem) :
    validateLoop E l acc = .ok (some out) ↔
      ∃ cs, out = acc ++ cs ∧ List.Forall₂ (fun i c => validateLine E i = .ok (some c)) l cs := by
  induction l generalizing acc with
  | nil =>
    simp only [validateLoop, Except.ok.injEq, Option.some.injEq, List.forall₂_nil_left_iff]
    constructor
    · intro h; exact ⟨[], by simp [h], rfl⟩
    · rintro ⟨cs, h1, h2⟩; simp [h1, h2]
  | cons i rest ih =>
    simp only [validateLoop]
    cases hline : validateLine E i with
    | error e =>
      constructor
      · intro h; cases h
      · rintro ⟨cs, _, hf⟩
        cases hf with
        | cons h _ => rw [hline] at h; cases h
    | ok r =>
      cases r with
      | none =>
        constructor
        · intro h; cases h
        · rintro ⟨cs, _, hf⟩
          cases hf with
          | cons h _ => rw [hline] at h; cases h
      | some c =>
        simp only [ih]
        constructor
        · rintro ⟨cs, h1, h2⟩
          exact ⟨c :: cs, by simp [h1], List.Forall₂.cons hline h2⟩
        · rintro ⟨cs, h1, h2⟩
          cases h2 with
          | cons h h3 =>
            rw [hline] at h
            cases h
            exact ⟨_, by simp [h1], h3⟩

/-- What an accepted line went through: the conversions succeeded, the two
checks passed, and the pushed line holds the converted values. -/
theorem validateLine_eq_some (E : Engine) (i : JVal) (c : CleanItem)
    (h : validateLine E i = .ok (some c)) :
    ∃ rawId rawQty rawPrice rawName price,
      getField i "id" = .ok rawId ∧ toNumber E rawId = .ok c.id ∧
      getField i "qty" = .ok rawQty ∧ toNumber E rawQty = .ok c.qty ∧
      getField i "price_cents" = .ok rawPrice ∧
      safePrice E (priceOrZero rawPrice) = .ok price ∧
      getField i "name" = .ok rawName ∧
      (c.id.truthy = true ∧ c.id.ltInt 0 = false ∧ c.id.isInteger = true) ∧
      (c.qty.truthy = true ∧ c.qty.ltInt 1 = false ∧ c.qty.gtInt 99 = false) ∧
      c.name = safeText rawName 160 ∧ c.price_cents = priceOrDefault price := by
  unfold validateLine at h
  split at h
  · cases h
  rename_i rawId hId
  split at h
  · cases h
  rename_i id hid
  split at h
  · cases h
  rename_i rawQty hQty
  split at h
  · cases h
  rename_i qty hqty
  split at h
  · cases h
  rename_i rawPrice hPrice
  split at h
  · cases h
  rename_i price hprice
  split at h
  · cases h
  rename_i hc1
  split at h
  · cases h
  rename_i hc2
  split at h
  · cases h
  rename_i rawName hName
  simp only [Except.ok.injEq, Option.some.injEq] at h
  subst h
  simp only [Bool.or_eq_true, Bool.not_eq_true', not_or, Bool.not_eq_false] at hc1 hc2
  refine ⟨rawId, rawQty, rawPrice, rawName, price, hId, hid, hQty, hqty, hPrice, hprice, hName, ?_, ?_,
    rfl, rfl⟩
  · exact ⟨hc1.1.1, by simpa using hc1.1.2, hc1.2⟩
  · exact ⟨hc2.1.1, by simpa using hc2.1.2, by simpa using hc2.2⟩

/-- Rounding `m / p` to the nearest integer by floor division. -/
theorem round_div_nearest (m p : Int) (hp : 0 < p) :
    2 * m - p < 2 * ((2 * m + p) / (2 * p)) * p ∧ 2 * ((2 * m + p) / (2 * p)) * p ≤ 2 * m + p := by
  have h2p : 0 < 2 * p := by omega
  have h1 := Int.ediv_mul_le (2 * m + p) (Int.ne_of_gt h2p)
  have h2 := Int.lt_ediv_add_one_mul_self (2 * m + p) h2p
  constructor <;> nlinarith

/-- `Math.round` of a number in `[0, hi]` is an integer in `[0, hi]` nearest to it. -/
theorem round_of_inRange (n : JSNum) (hi : Int) (h : n.inRange 0 hi = true) :
    ∃ k : Int, n.round = .fin k 0 ∧ 0 ≤ k ∧ k ≤ hi ∧ n.isNearestInt k := by
  cases n with
  | nan => simp [JSNum.inRange] at h
  | posInf => simp [JSNum.inRange] at h
  | negInf => simp [JSNum.inRange] at h
  | fin m e =>
    simp only [JSNum.inRange, zero_mul, Bool.and_eq_true, decide_eq_true_eq] at h
    have hp : (0 : Int) < 2 ^ e := by positivity
    have hpow : (2 : Int) ^ (e + 1) = 2 * 2 ^ e := by rw [pow_succ]; ring
    refine ⟨(2 * m + 2 ^ e) / (2 * 2 ^ e), by simp [JSNum.round, hpow], ?_, ?_, ?_⟩
    · exact Int.ediv_nonneg (by omega) (by omega)
    · have : (2 * m + 2 ^ e) / (2 * 2 ^ e) < hi + 1 :=
        Int.ediv_lt_of_lt_mul (by omega) (by nlinarith)
      omega
    · exact round_div_nearest m (2 ^ e) hp

/-- The test of `safePrice` rejects exactly the numbers outside `[0, PRICE_CAP]`. -/
theorem safePrice_eq (E : Engine) (v : JVal) (n : JSNum) (hn : toNumber E v = .ok n) :
    safePrice E v = .ok (if n.inRange 0 PRICE_CAP then some n.round else none) := by
  unfold safePrice
  rw [hn]
  cases n with
  | nan => rfl
  | posInf => rfl
  | negInf => rfl
  | fin m e =>
    simp only [JSNum.isNaN, JSNum.ltInt, JSNum.gtInt, JSNum.inRange, Bool.false_or, zero_mul,
      Bool.or_eq_true, decide_eq_true_eq, Bool.and_eq_true]
    by_cases h1 : m < 0
    · simp [h1, Int.not_le.mpr h1]
    · by_cases h2 : PRICE_CAP * 2 ^ e < m
      · simp [h1, h2, Int.not_le.mpr h2]
      · simp [h1, h2, Int.not_lt.mp h1, Int.not_lt.mp h2]

/-- A valid cart line is accepted by the loop body. -/
theorem validateLine_of_valid (E : Engine) (i : JVal) (h : validCartLine E i = true) :
    ∃ c, validateLine E i = .ok (some c) := by
  cases i with
  | obj fields =>
    simp only [validCartLine, Bool.and_eq_true] at h
    obtain ⟨hnum, hprice⟩ := h
    cases hid : toNumber E (JVal.lookup "id" fields) with
    | error e => simp [hid] at hnum
    | ok id =>
      cases hqty : toNumber E (JVal.lookup "qty" fields) with
      | error e => simp [hid, hqty] at hnum
      | ok qty =>
        simp only [hid, hqty, Bool.and_eq_true] at hnum
        obtain ⟨hidv, hqi, hqr⟩ := hnum
        have hco : coercible (priceOrZero (JVal.lookup "price_cents" fields)) = true := by
          unfold priceOrZero
          split
          · rfl
          · exact hprice
        obtain ⟨p, hp⟩ := toNumber_of_coercible E _ hco
        have hsp := safePrice_eq E _ p hp
        cases id with
        | nan => simp [JSNum.isPositiveInteger] at hidv
        | posInf => simp [JSNum.isPositiveInteger] at hidv
        | negInf => simp [JSNum.isPositiveInteger] at hidv
        | fin m e =>
          cases qty with
          | nan => simp [JSNum.inRange] at hqr
          | posInf => simp [JSNum.inRange] at hqr
          | negInf => simp [JSNum.inRange] at hqr
          | fin q f =>
            simp only [JSNum.isPositiveInteger, Bool.and_eq_true, decide_eq_true_eq] at hidv
            simp only [JSNum.inRange, Bool.and_eq_true, decide_eq_true_eq, one_mul] at hqr
            simp only [JSNum.isInteger, beq_iff_eq] at hqi
            have hf : (0 : Int) < 2 ^ f := by positivity
            have c1 : (!(JSNum.fin m e).truthy || (JSNum.fin m e).ltInt 0
                || !(JSNum.fin m e).isInteger) = false := by
              simp only [JSNum.truthy, JSNum.ltInt, JSNum.isInteger, zero_mul, Bool.or_eq_false_iff,
                Bool.not_eq_false', bne_iff_ne, ne_eq, decide_eq_false_iff_not, beq_iff_eq]
              omega
            have c2 : (!(JSNum.fin q f).truthy || (JSNum.fin q f).ltInt 1
                || (JSNum.fin q f).gtInt 99) = false := by
              simp only [JSNum.truthy, JSNum.ltInt, JSNum.gtInt, one_mul, Bool.or_eq_false_iff,
                Bool.not_eq_false', bne_iff_ne, ne_eq, decide_eq_false_iff_not]
              omega
            refine ⟨⟨.fin m e, .fin q f, safeText (JVal.lookup "name" fields) 160,
              priceOrDefault (if p.inRange 0 PRICE_CAP then some p.round else none)⟩, ?_⟩
            simp only [validateLine, getField, hid, hqty, hsp, c1, c2, Bool.false_eq_true, if_false]
  | undefined => simp [validCartLine] at h
  | null => simp [validCartLine] at h
  | bool b => simp [validCartLine] at h
  | num n => simp [validCartLine] at h
  | str s => simp [validCartLine] at h
  | arr l => simp [validCartLine] at h

/-- A relation that is total on the elements of a list relates the list to some list. -/
theorem exists_forall₂_of_forall_mem {α β : Type} (R : α → β → Prop) (l : List α)
    (h : ∀ a ∈ l, ∃ b, R a b) : ∃ bs, List.Forall₂ R l bs := by
  induction l with
  | nil => exact ⟨[], List.Forall₂.nil⟩
  | cons a rest ih =>
    obtain ⟨b, hb⟩ := h a (List.mem_cons_self a rest)
    obtain ⟨bs, hbs⟩ := ih (fun x hx => h x (List.mem_cons_of_mem a hx))
    exact ⟨b :: bs, List.Forall₂.cons hb hbs⟩

/-! ## C7: bounded cart -/

/-- What holds of the cart bound: `validateItemsPayload` returns `null` for
every input that is not an array, for the empty array, and for every array of
more than 50 elements; for every array of exactly 50 cart lines with valid ids
and quantities, and prices that convert to a number without throwing, it
returns a cleaned list of 50 lines. -/
theorem validateItemsPayload_bounded_cart (E : Engine) :
    (∀ v : JVal, v.isArray = false → validateItemsPayload E v = .ok none) ∧
    validateItemsPayload E (.arr []) = .ok none ∧
    (∀ l : List JVal, 50 < l.length → validateItemsPayload E (.arr l) = .ok none) ∧
    (∀ l : List JVal, l.length = 50 → (∀ i ∈ l, validCartLine E i = true) →
      ∃ cleaned, validateItemsPayload E (.arr l) = .ok (some cleaned) ∧ cleaned.length = 50) := by
  refine ⟨?_, rfl, ?_, ?_⟩
  · intro v hv
    cases v <;> first | rfl | simp [JVal.isArray] at hv
  · intro l hl
    simp [validateItemsPayload, hl]
  · intro l hl hvalid
    obtain ⟨cs, hcs⟩ := exists_forall₂_of_forall_mem
      (fun i c => validateLine E i = .ok (some c)) l
      (fun i hi => validateLine_of_valid E i (hvalid i hi))
    refine ⟨cs, ?_, ?_⟩
    · have hloop := (validateLoop_eq_some E l [] cs).mpr ⟨cs, by simp, hcs⟩
      simp [validateItemsPayload, hl, hloop]
    · rw [← hcs.length_eq, hl]

/-- The cart bound at a concrete cart: 50 valid lines give 50 cleaned lines,
51 elements give `null`. -/
theorem validateItemsPayload_bounded_cart_witness :
    (∃ cleaned, validateItemsPayload someEngine (.arr fiftyLines) = .ok (some cleaned) ∧
      cleaned.length = 50) ∧
    validateItemsPayload someEngine (.arr (.null :: fiftyLines)) = .ok none :=
  ⟨(validateItemsPayload_bounded_cart someEngine).2.2.2 fiftyLines rfl (by
      intro i hi
      rw [List.eq_of_mem_replicate hi]
      rfl),
    (validateItemsPayload_bounded_cart someEngine).2.2.1 (.null :: fiftyLines) (by decide)⟩

/-- C7 at the failing input: a cart of exactly 50 lines, each with a valid id
and a valid quantity, whose `price_cents` is an object with an own `toString`
property that is not a function.  `Number(price_cents)` throws a `TypeError`
inside `safePrice`, so `validateItemsPayload` returns no cleaned list (every
other unusable price is replaced by 0), and `POST /api/orders` answers 500. -/
theorem validateItemsPayload_throws_on_hostile_price (E : Engine) :
    hostilePriceLines.length = 50 ∧
    (∀ i ∈ hostilePriceLines, validIdAndQty E i = true) ∧
    validateItemsPayload E (.arr hostilePriceLines) = .error .thrown ∧
    (postOrders E emptyShop 1000 1
      { items := .arr hostilePriceLines, total_cents := .num (.fin 799 0),
        delivery_method := .str "collect" } true).resp =
      ⟨500, .error "Failed to create order"⟩ :=
  ⟨rfl, (by
      intro i hi
      rw [List.eq_of_mem_replicate hi]
      rfl), rfl, rfl⟩

/-- A cart is accepted exactly when it has between 1 and 50 elements and the
loop body accepts each of them; the result lists the accepted lines in order. -/
theorem validateItemsPayload_eq_some (E : Engine) (l : List JVal) (cleaned : List CleanItem) :
    validateItemsPayload E (.arr l) = .ok (some cleaned) ↔
      (1 ≤ l.length ∧ l.length ≤ 50) ∧
        List.Forall₂ (fun i c => validateLine E i = .ok (some c)) l cleaned := by
  simp only [validateItemsPayload]
  split
  · rename_i hlen
    constructor
    · intro h; cases h
    · rintro ⟨hl, _⟩; omega
  · rename_i hlen
    rw [validateLoop_eq_some]
    constructor
    · rintro ⟨cs, hcs, hall⟩
      simp only [List.nil_append] at hcs
      subst hcs
      exact ⟨by omega, hall⟩
    · rintro ⟨_, hall⟩
      exact ⟨cleaned, by simp, hall⟩

/-! ## C8: per-line acceptance -/

/-- Every accepted line has an id that is a positive integer and a quantity
that is a number in `[1, 99]`. -/
theorem validateLine_bounds (E : Engine) (i : JVal) (c : CleanItem)
    (h : validateLine E i = .ok (some c)) :
    c.id.isPositiveInteger = true ∧ c.qty.inRange 1 99 = true := by
  obtain ⟨_, _, _, _, _, _, _, _, _, _, _, _, ⟨h1, h2, h3⟩, ⟨h4, h5, h6⟩, _, _⟩ :=
    validateLine_eq_some E i c h
  constructor
  · cases hc : c.id with
    | nan => simp [hc, JSNum.isInteger] at h3
    | posInf => simp [hc, JSNum.isInteger] at h3
    | negInf => simp [hc, JSNum.isInteger] at h3
    | fin m e =>
      simp only [hc, JSNum.truthy, JSNum.ltInt, JSNum.isInteger, zero_mul, bne_iff_ne, ne_eq,
        decide_eq_false_iff_not, beq_iff_eq] at h1 h2 h3
      simp only [JSNum.isPositiveInteger, Bool.and_eq_true, decide_eq_true_eq]
      omega
  · cases hc : c.qty with
    | nan => simp [hc, JSNum.truthy] at h4
    | posInf => simp [hc, JSNum.gtInt] at h6
    | negInf => simp [hc, JSNum.ltInt] at h5
    | fin m e =>
      simp only [hc, JSNum.ltInt, JSNum.gtInt, decide_eq_false_iff_not] at h5 h6
      simp only [JSNum.inRange, Bool.and_eq_true, decide_eq_true_eq]
      omega

/-- C8 at the failing input `[{ id: 1, qty: 1.5 }]`: the validator accepts the
cart and returns the line with quantity 1.5, which is not an integer (the id
is tested with `Number.isInteger`, the quantity is not). -/
theorem validateItemsPayload_accepts_fractional_qty (E : Engine) :
    validateItemsPayload E (.arr [.obj [("id", .num (.fin 1 0)), ("qty", .num (.fin 3 1))]]) =
      .ok (some [{ id := .fin 1 0, qty := .fin 3 1, name := "", price_cents := .fin 0 0 }]) ∧
    (JSNum.fin 3 1).isInteger = false :=
  ⟨rfl, rfl⟩

/-! ## C9: line price sanitisation -/

/-- The sanitised price of one accepted line. -/
theorem validateLine_price (E : Engine) (i : JVal) (c : CleanItem)
    (h : validateLine E i = .ok (some c)) :
    linePriceSanitised E i c := by
  unfold linePriceSanitised
  obtain ⟨_, _, raw, _, price, _, _, _, _, hraw, hsafe, _, _, _, _, hprice⟩ :=
    validateLine_eq_some E i c h
  refine ⟨raw, ?_⟩
  by_cases hnull : raw.isNullish = true
  · -- `price_cents` is absent or `null`: `?? 0` supplies 0
    have hz : priceOrZero raw = .num (.fin 0 0) := by simp [priceOrZero, hnull]
    rw [hz, safePrice_eq E (.num (.fin 0 0)) (.fin 0 0) rfl] at hsafe
    have hp : price = some (.fin 0 0) := by
      have := (Except.ok.inj hsafe).symm
      simpa [JSNum.inRange, PRICE_CAP, JSNum.round] using this
    have hc : c.price_cents = .fin 0 0 := by rw [hprice, hp]; rfl
    refine ⟨0, hraw, hc, le_refl _, by norm_num, fun _ => rfl, ?_⟩
    intro n hn
    cases raw with
    | undefined =>
      cases hn
      exact ⟨fun hr => by simp [JSNum.inRange] at hr, fun _ => rfl⟩
    | null =>
      cases hn
      exact ⟨fun _ => ⟨by rw [hc]; rfl, by simp [JSNum.isNearestInt]⟩, fun _ => rfl⟩
    | bool b => simp [JVal.isNullish] at hnull
    | num x => simp [JVal.isNullish] at hnull
    | str s => simp [JVal.isNullish] at hnull
    | arr l => simp [JVal.isNullish] at hnull
    | obj fs => simp [JVal.isNullish] at hnull
  · have hz : priceOrZero raw = raw := by simp [priceOrZero, hnull]
    rw [hz] at hsafe
    cases hnum : toNumber E raw with
    | error e => simp [safePrice, hnum] at hsafe
    | ok n' =>
      rw [safePrice_eq E raw n' hnum] at hsafe
      have hp := (Except.ok.inj hsafe).symm
      by_cases hr : n'.inRange 0 100000000 = true
      · obtain ⟨k, hk, hk0, hk1, hk2⟩ := round_of_inRange n' 100000000 hr
        have hc : c.price_cents = n'.round := by
          rw [hprice, hp]
          simp [PRICE_CAP, hr, priceOrDefault]
        refine ⟨k, hraw, by rw [hc, hk], hk0, hk1, fun hn => absurd hn hnull, ?_⟩
        intro n hn
        cases hn
        exact ⟨fun _ => ⟨hc, hk2⟩, fun hf => by rw [hr] at hf; cases hf⟩
      · have hc : c.price_cents = .fin 0 0 := by
          rw [hprice, hp]
          simp [PRICE_CAP, hr, priceOrDefault]
        refine ⟨0, hraw, hc, le_refl _, by norm_num, fun _ => rfl, ?_⟩
        intro n hn
        cases hn
        exact ⟨fun ht => absurd ht hr, fun _ => rfl⟩

/-- C9. Line price sanitisation: for every cart that `validateItemsPayload`
accepts, each output line's `price_cents` is an integer in `[0, 100000000]`; it
is `Math.round` of the supplied price, the nearest integer, when the supplied
price (as `Number` reads it) is a number in that range, and it is 0 when the
price is absent or is not a number in that range. -/
theorem validateItemsPayload_price_sanitised (E : Engine) (l : List JVal)
    (cleaned : List CleanItem) (h : validateItemsPayload E (.arr l) = .ok (some cleaned)) :
    List.Forall₂ (linePriceSanitised E) l cleaned :=
  ((validateItemsPayload_eq_some E l cleaned).mp h).2.imp
    (fun i c hic => validateLine_price E i c hic)

/-- C9 at a concrete cart: prices 799.5, -3 and an absent price come out as
800, 0 and 0. -/
theorem validateItemsPayload_price_sanitised_witness :
    List.Forall₂ (linePriceSanitised someEngine)
      [ .obj [("id", .num (.fin 1 0)), ("qty", .num (.fin 2 0)), ("price_cents", .num (.fin 1599 1))],
        .obj [("id", .num (.fin 2 0)), ("qty", .num (.fin 1 0)), ("price_cents", .num (.fin (-3) 0))],
        .obj [("id", .num (.fin 3 0)), ("qty", .num (.fin 1 0))] ]
      [ { id := .fin 1 0, qty := .fin 2 0, name := "", price_cents := .fin 800 0 },
        { id := .fin 2 0, qty := .fin 1 0, name := "", price_cents := .fin 0 0 },
        { id := .fin 3 0, qty := .fin 1 0, name := "", price_cents := .fin 0 0 } ] :=
  validateItemsPayload_price_sanitised someEngine _ _ rfl

/-! ## C1: dedup of `POST /api/orders` -/

/-- The row `ORDER BY id DESC LIMIT 1` returns is one of the rows. -/
theorem maxById_mem (l : List Order) (b : Order) (h : maxById l = some b) : b ∈ l := by
  induction l generalizing b with
  | nil => cases h
  | cons o rest ih =>
    simp only [maxById] at h
    cases hr : maxById rest with
    | none =>
      rw [hr] at h
      cases h
      exact List.mem_cons_self _ _
    | some b' =>
      rw [hr] at h
      simp only at h
      split at h
      · cases h
        exact List.mem_cons_self _ _
      · cases h
        exact List.mem_cons_of_mem _ (ih _ hr)

/-- The row `ORDER BY id DESC LIMIT 1` returns has the largest id. -/
theorem maxById_le (l : List Order) (b : Order) (h : maxById l = some b) :
    ∀ o ∈ l, o.id ≤ b.id := by
  induction l generalizing b with
  | nil => cases h
  | cons o rest ih =>
    simp only [maxById] at h
    intro x hx
    cases hr : maxById rest with
    | none =>
      rw [hr] at h
      cases h
      cases rest with
      | nil =>
        simp only [List.mem_singleton] at hx
        rw [hx]
      | cons y ys =>
        simp only [maxById] at hr
        split at hr
        · cases hr
        · split at hr <;> cases hr
    | some b' =>
      rw [hr] at h
      simp only at h
      rcases List.mem_cons.mp hx with hx | hx
      · subst hx
        split at h <;> cases h <;> omega
      · have := ih b' hr x hx
        split at h <;> cases h <;> omega

/-- A non-empty selection has a row of largest id. -/
theorem maxById_isSome (l : List Order) (o : Order) (h : o ∈ l) : ∃ b, maxById l = some b := by
  cases l with
  | nil => cases h
  | cons x rest =>
    simp only [maxById]
    cases maxById rest with
    | none => exact ⟨x, rfl⟩
    | some b' =>
      simp only
      split
      · exact ⟨x, rfl⟩
      · exact ⟨b', rfl⟩

/-- A row matched by the dedup query at a later time was matched at an earlier one. -/
theorem isRecentDuplicate_mono (now1 now2 uid : Nat) (total : JSNum) (delivery : Option String)
    (itemsJson : JVal) (o : Order) (ht : now1 ≤ now2)
    (h : isRecentDuplicate now2 uid total delivery itemsJson o = true) :
    isRecentDuplicate now1 uid total delivery itemsJson o = true := by
  simp only [isRecentDuplicate, Bool.and_eq_true, decide_eq_true_eq] at h ⊢
  exact ⟨h.1, by omega⟩

/-- What a successful `POST /api/orders` went through. -/
theorem postOrders_order_inv (E : Engine) (db : Db) (now uid : Nat) (body : OrderBody)
    (m : Bool) (id : Nat) (d : Bool)
    (h : (postOrders E db now uid body m).resp = ⟨200, .order id d⟩) :
    ∃ i rest cleaned total delivery,
      body.items = .arr (i :: rest) ∧
      validateItemsPayload E (.arr (i :: rest)) = .ok (some cleaned) ∧
      safePrice E body.total_cents = .ok (some total) ∧
      bindText E (deliveryOrDefault body.delivery_method) = .ok delivery ∧
      ((d = true ∧ (postOrders E db now uid body m).db = db ∧
          ∃ ex, findRecentDuplicate db now uid total delivery (cleanedJson cleaned) = some ex ∧
            ex.id = id) ∨
       (d = false ∧ id = nextOrderId db ∧
          findRecentDuplicate db now uid total delivery (cleanedJson cleaned) = none ∧
          ∃ user, getUser db uid = some user ∧
            (postOrders E db now uid body m).db = insertOrder db
              (placedOrder (nextOrderId db) uid (cleanedJson cleaned) (some user) delivery total
                now))) := by
  cases hitems : body.items with
  | arr l =>
    cases l with
    | nil => simp [postOrders, hitems, reply] at h
    | cons i rest =>
      cases hval : validateItemsPayload E (.arr (i :: rest)) with
      | error e => simp [postOrders, hitems, hval, reply] at h
      | ok r =>
        cases r with
        | none => simp [postOrders, hitems, hval, reply] at h
        | some cleaned =>
          cases hprice : safePrice E body.total_cents with
          | error e => simp [postOrders, hitems, hval, hprice, reply] at h
          | ok t =>
            cases t with
            | none => simp [postOrders, hitems, hval, hprice, reply] at h
            | some total =>
              cases hbind : bindText E (deliveryOrDefault body.delivery_method) with
              | error e => simp [postOrders, hitems, hval, hprice, hbind, reply] at h
              | ok delivery =>
                refine ⟨i, rest, cleaned, total, delivery, rfl, by first | rfl | assumption,
                  rfl, rfl, ?_⟩
                cases hfind : findRecentDuplicate db now uid total delivery
                    (cleanedJson cleaned) with
                | some ex =>
                  left
                  simp only [postOrders, hitems, hval, hprice, hbind, hfind, reply,
                    Response.mk.injEq, Body.order.injEq, true_and] at h
                  refine ⟨h.2.symm, ?_, ex, rfl, h.1⟩
                  simp only [postOrders, hitems, hval, hprice, hbind, hfind, reply]
                | none =>
                  right
                  cases haddr : getUser db uid with
                  | none =>
                    simp [postOrders, hitems, hval, hprice, hbind, hfind, haddr, reply] at h
                  | some user =>
                    have hdb : (postOrders E db now uid body m).db = insertOrder db
                        (placedOrder (nextOrderId db) uid (cleanedJson cleaned) (some user)
                          delivery total now) := by
                      simp only [postOrders, hitems, hval, hprice, hbind, hfind, haddr]
                      split <;> rfl
                    simp only [postOrders, hitems, hval, hprice, hbind, hfind, haddr] at h
                    split at h <;>
                      simp only [Response.mk.injEq, Body.order.injEq, true_and] at h <;>
                      exact ⟨h.2.symm, h.1.symm, rfl, user, rfl, hdb⟩
  | undefined => simp [postOrders, hitems, reply] at h
  | null => simp [postOrders, hitems, reply] at h
  | bool b => simp [postOrders, hitems, reply] at h
  | num n => simp [postOrders, hitems, reply] at h
  | str s => simp [postOrders, hitems, reply] at h
  | obj fs => simp [postOrders, hitems, reply] at h

/-- A request that passes validation and matches a recent order is answered
with that order and changes nothing. -/
theorem postOrders_of_duplicate (E : Engine) (db : Db) (now uid : Nat) (body : OrderBody)
    (m : Bool) (i : JVal) (rest : List JVal) (cleaned : List CleanItem) (total : JSNum)
    (delivery : Option String) (ex : Order)
    (hitems : body.items = .arr (i :: rest))
    (hval : validateItemsPayload E (.arr (i :: rest)) = .ok (some cleaned))
    (hprice : safePrice E body.total_cents = .ok (some total))
    (hbind : bindText E (deliveryOrDefault body.delivery_method) = .ok delivery)
    (hfind : findRecentDuplicate db now uid total delivery (cleanedJson cleaned) = some ex) :
    postOrders E db now uid body m = reply db 200 (.order ex.id true) := by
  simp only [postOrders, hitems, hval, hprice, hbind, hfind]

/-- A sanitised total is a finite integer. -/
theorem safePrice_some_fin (E : Engine) (v : JVal) (t : JSNum)
    (h : safePrice E v = .ok (some t)) : ∃ k : Int, t = .fin k 0 := by
  cases hn : toNumber E v with
  | error e => simp [safePrice, hn] at h
  | ok n =>
    rw [safePrice_eq E v n hn] at h
    by_cases hr : n.inRange 0 PRICE_CAP = true
    · obtain ⟨k, hk, _⟩ := round_of_inRange n PRICE_CAP hr
      simp only [hr, if_true, Except.ok.injEq, Option.some.injEq] at h
      exact ⟨k, by rw [← h, hk]⟩
    · simp [hr] at h

/-- One value that is not bound as `NULL` is bound as a text. -/
theorem bindScalar_some (E : Engine) (v : JVal) (delivery : Option String)
    (hv : bindsNull v = false) (hbind : bindScalar E v = .ok delivery) :
    ∃ s, delivery = some s := by
  cases v with
  | undefined => cases hv
  | null => cases hv
  | bool b => cases hbind
  | num n =>
    cases n with
    | nan => cases hv
    | posInf => exact ⟨_, (Except.ok.inj hbind).symm⟩
    | negInf => exact ⟨_, (Except.ok.inj hbind).symm⟩
    | fin m e => exact ⟨_, (Except.ok.inj hbind).symm⟩
  | str s => exact ⟨_, (Except.ok.inj hbind).symm⟩
  | arr l => cases hbind
  | obj fs => cases hbind

/-- A delivery method that is not stored as `NULL` is bound as a text. -/
theorem bindText_delivery_some (E : Engine) (dm : JVal) (delivery : Option String)
    (hdm : isNullDelivery dm = false)
    (hbind : bindText E (deliveryOrDefault dm) = .ok delivery) : ∃ s, delivery = some s := by
  cases dm with
  | undefined => exact ⟨_, (Except.ok.inj hbind).symm⟩
  | null => cases hdm
  | bool b => cases hbind
  | num n => exact bindScalar_some E (.num n) delivery (by cases n <;> first | rfl | cases hdm) hbind
  | str s => exact ⟨_, (Except.ok.inj hbind).symm⟩
  | arr l =>
    cases l with
    | nil => cases hbind
    | cons x xs =>
      cases xs with
      | nil => exact bindScalar_some E x delivery hdm hbind
      | cons y ys => cases hbind
  | obj fs => cases hbind

/-- An empty result of `ORDER BY id DESC LIMIT 1` means no row was selected. -/
theorem maxById_eq_none (l : List Order) (h : maxById l = none) : l = [] := by
  cases l with
  | nil => rfl
  | cons o rest =>
    obtain ⟨b, hb⟩ := maxById_isSome (o :: rest) o (List.mem_cons_self _ _)
    rw [h] at hb
    cases hb

/-- C1 (amended). Path A dedup is idempotent within the window of the matched
row: if `POST /api/orders` answers a payload with an order id, the delivery
method of the payload is not stored as `NULL` (it is not `null`, bare or as
the single element of an array), and the same payload is posted again by the
same user at most 24 hours later with no write in between, and the order
answered first, when it was already stored before the first call, was created
at most 24 hours before the second call, then the second call inserts no row
and answers `deduped: true` with the same order id. -/
theorem postOrders_dedup_idempotent (E : Engine) (db : Db) (uid now1 now2 : Nat)
    (body : OrderBody) (m1 m2 : Bool) (id : Nat) (d : Bool)
    (hdm : isNullDelivery body.delivery_method = false)
    (ht1 : now1 ≤ now2) (ht2 : now2 ≤ now1 + 86400)
    (h1 : (postOrders E db now1 uid body m1).resp = ⟨200, .order id d⟩)
    (hwin : ∀ o ∈ db.orders, o.id = id → now2 ≤ o.created_at + 86400) :
    (postOrders E (postOrders E db now1 uid body m1).db now2 uid body m2).db.orders =
        (postOrders E db now1 uid body m1).db.orders ∧
      (postOrders E (postOrders E db now1 uid body m1).db now2 uid body m2).resp =
        ⟨200, .order id true⟩ := by
  obtain ⟨i, rest, cleaned, total, delivery, hitems, hval, hprice, hbind, hcase⟩ :=
    postOrders_order_inv E db now1 uid body m1 id d h1
  rcases hcase with ⟨_, hdb, ex, hfind, hex⟩ | ⟨_, hid, hfind, user, _, hdb⟩
  · -- the first call was itself answered with a stored order `ex`
    rw [hdb]
    have hex1 := maxById_mem _ _ hfind
    have hmax1 := maxById_le _ _ hfind
    rw [List.mem_filter] at hex1
    have hex2 : ex ∈ db.orders.filter
        (isRecentDuplicate now2 uid total delivery (cleanedJson cleaned)) := by
      rw [List.mem_filter]
      refine ⟨hex1.1, ?_⟩
      have hw := hwin ex hex1.1 hex
      have hk := hex1.2
      simp only [isRecentDuplicate, Bool.and_eq_true, decide_eq_true_eq] at hk ⊢
      exact ⟨hk.1, hw⟩
    obtain ⟨b, hb⟩ := maxById_isSome _ ex hex2
    have hb2 := maxById_mem _ _ hb
    have hle := maxById_le _ _ hb ex hex2
    rw [List.mem_filter] at hb2
    have hge := hmax1 b (List.mem_filter.mpr
      ⟨hb2.1, isRecentDuplicate_mono now1 now2 uid total delivery _ b ht1 hb2.2⟩)
    have hbid : b.id = id := by omega
    rw [postOrders_of_duplicate E db now2 uid body m2 i rest cleaned total delivery b hitems hval
      hprice hbind hb, hbid]
    exact ⟨rfl, rfl⟩
  · -- the first call inserted a new row
    rw [hdb]
    obtain ⟨k, hk⟩ := safePrice_some_fin E _ _ hprice
    obtain ⟨s, hs⟩ := bindText_delivery_some E _ _ hdm hbind
    have hnone : db.orders.filter
        (isRecentDuplicate now2 uid total delivery (cleanedJson cleaned)) = [] := by
      rw [List.filter_eq_nil_iff]
      intro o ho hdup
      have := maxById_eq_none _ hfind
      rw [List.filter_eq_nil_iff] at this
      exact this o ho (isRecentDuplicate_mono now1 now2 uid total delivery _ o ht1 hdup)
    have hfind2 : findRecentDuplicate (insertOrder db
        (placedOrder (nextOrderId db) uid (cleanedJson cleaned) (some user) delivery total now1)) now2 uid total delivery (cleanedJson cleaned) =
        some (placedOrder (nextOrderId db) uid (cleanedJson cleaned) (some user) delivery total now1) := by
      simp only [findRecentDuplicate, insertOrder, List.filter_append, hnone, List.nil_append]
      have hrow : isRecentDuplicate now2 uid total delivery (cleanedJson cleaned)
          (placedOrder (nextOrderId db) uid (cleanedJson cleaned) (some user) delivery total now1) = true := by
        simp only [isRecentDuplicate, placedOrder, hk, hs, JSNum.sqlEq, sqlTextEq, JVal.beq_refl, beq_self_eq_true,
          decide_True, Bool.and_self, Bool.true_and, decide_eq_true_eq]
        exact ht2
      simp only [List.filter_cons, hrow, if_true, List.filter_nil, maxById]
    rw [postOrders_of_duplicate E _ now2 uid body m2 i rest cleaned total delivery _ hitems hval
      hprice hbind hfind2, hid]
    exact ⟨rfl, rfl⟩

/-- C1 (amended) at a concrete run: the first call inserts order 1 at time
1000, the second call 23 hours later is answered with order 1, `deduped`. -/
theorem postOrders_dedup_idempotent_witness :
    (postOrders someEngine (postOrders someEngine emptyShop 1000 1 chewOrder true).db 83800 1
        chewOrder true).db.orders =
        (postOrders someEngine emptyShop 1000 1 chewOrder true).db.orders ∧
      (postOrders someEngine (postOrders someEngine emptyShop 1000 1 chewOrder true).db 83800 1
        chewOrder true).resp = ⟨200, .order 1 true⟩ :=
  postOrders_dedup_idempotent someEngine emptyShop 1 1000 83800 chewOrder true true 1 false
    rfl (by decide) (by decide) rfl (by intro o ho; cases ho)

/-- C1 as stated fails in two ways.  First, the ledger holds a matching order
created at time 0; a first call at 80000 s is answered with that order
(`deduped`), and a second identical call at 90000 s, less than 24 hours after
the first, finds the order older than 24 hours, inserts order 2 and answers
without `deduped`.  Second, a payload with delivery method `null`, or
`[null]`, is stored with `NULL`, which the query's `delivery_method=?` never
matches: the identical call one second later inserts order 2. -/
theorem postOrders_dedup_window_counterexample :
    (80000 ≤ 90000 ∧ 90000 ≤ 80000 + 86400 ∧
      (postOrders someEngine shopWithOldOrder 80000 1 chewOrder true).resp =
        ⟨200, .order 1 true⟩ ∧
      (postOrders someEngine (postOrders someEngine shopWithOldOrder 80000 1 chewOrder true).db
        90000 1 chewOrder true).resp = ⟨200, .order 2 false⟩ ∧
      ((postOrders someEngine shopWithOldOrder 80000 1 chewOrder true).db.orders.map
        (fun o => o.id)) = [1] ∧
      ((postOrders someEngine (postOrders someEngine shopWithOldOrder 80000 1 chewOrder true).db
        90000 1 chewOrder true).db.orders.map (fun o => o.id)) = [1, 2]) ∧
    ((postOrders someEngine emptyShop 1000 1 nullDeliveryOrder true).resp =
        ⟨200, .order 1 false⟩ ∧
      (postOrders someEngine (postOrders someEngine emptyShop 1000 1 nullDeliveryOrder true).db
        1001 1 nullDeliveryOrder true).resp = ⟨200, .order 2 false⟩ ∧
      (postOrders someEngine (postOrders someEngine emptyShop 1000 1 nullDeliveryOrder true).db
        1001 1 nullDeliveryOrder true).db.orders.map (fun o => (o.id, o.delivery_method)) =
        [(1, none), (2, none)]) ∧
    ((postOrders someEngine emptyShop 1000 1 nullInArrayOrder true).resp =
        ⟨200, .order 1 false⟩ ∧
      (postOrders someEngine (postOrders someEngine emptyShop 1000 1 nullInArrayOrder true).db
        1001 1 nullInArrayOrder true).resp = ⟨200, .order 2 false⟩ ∧
      (postOrders someEngine (postOrders someEngine emptyShop 1000 1 nullInArrayOrder true).db
        1001 1 nullInArrayOrder true).db.orders.map (fun o => (o.id, o.delivery_method)) =
        [(1, none), (2, none)]) :=
  ⟨⟨by decide, by decide, rfl, rfl, rfl, rfl⟩, ⟨rfl, rfl, rfl⟩, ⟨rfl, rfl, rfl⟩⟩

/-! ## C2: the two creation paths and one purchase -/

/-- C2 at the failing input.  `alice` checks out one Beef Chew Bone; the webhook
records the paid order from the session metadata, whose lines are serialised
with the keys in the order `id, name, price_cents, qty`.  A `POST /api/orders`
by `alice` with the same line, method and total serialises the line as
`id, qty, name, price_cents`, so the dedup query does not match: it inserts
order 2 and answers without `deduped`.  In the other order of arrival the
webhook, which runs no dedup query, inserts a second row as well. -/
theorem checkout_and_manual_order_both_insert (E : Engine) :
    (postCheckout E sampleWorld emptyShop 1 chewCheckout).sessions = [chewSession] ∧
    completedEvent chewSession (.fin 799 0) = some chewEvent ∧
    (stripeWebhook E emptyShop 1000 (.verified chewEvent) true).db.orders =
      [paidOrder 1 alice chewSession.metadata.items_json (some "collect") (.fin 799 0) 1000] ∧
    (postOrders E (stripeWebhook E emptyShop 1000 (.verified chewEvent) true).db 2000 1
      chewOrder true).resp = ⟨200, .order 2 false⟩ ∧
    (postOrders E (stripeWebhook E emptyShop 1000 (.verified chewEvent) true).db 2000 1
      chewOrder true).db.orders =
      [paidOrder 1 alice chewSession.metadata.items_json (some "collect") (.fin 799 0) 1000,
       placedOrder 2 1 (.arr [.obj [("id", .num (.fin 2 0)), ("qty", .num (.fin 1 0)),
          ("name", .str "Beef Chew Bone"), ("price_cents", .num (.fin 799 0))]])
          (some alice) (some "collect") (.fin 799 0) 2000] ∧
    ((stripeWebhook E (postOrders E emptyShop 1000 1 chewOrder true).db 2000
      (.verified chewEvent) true).db.orders.map (fun o => (o.id, o.status))) =
      [(1, "placed"), (2, "paid")] :=
  ⟨rfl, rfl, rfl, rfl, rfl, rfl⟩

/-! ## C3, C4: the admin order update -/

/-- C3 at the failing input: the order's delivery date is 2024-01-10 and the
admin update supplies 2024-01-11; the handler answers 200 and the stored date
is overwritten (the handler runs the `UPDATE` unconditionally; only the admin
page compares the dates). -/
theorem putAdminOrder_overwrites_date (E : Engine) :
    (putAdminOrder E shopWithDatedOrder 2 "1"
      { admin_status := .str "awaiting", delivery_date := .str "2024-01-11",
        admin_note := .undefined }).resp.status = 200 ∧
    (putAdminOrder E shopWithDatedOrder 2 "1"
      { admin_status := .str "awaiting", delivery_date := .str "2024-01-11",
        admin_note := .undefined }).db.orders.map (fun o => o.delivery_date) =
      [some "2024-01-11"] :=
  ⟨rfl, rfl⟩

/-- C4 at the failing input: the order has no delivery date and the admin
update sets the status to `preparing` without a date; the handler answers 200
and stores the status, with the empty string as date. -/
theorem putAdminOrder_sets_status_without_date (E : Engine) :
    (putAdminOrder E shopWithUndatedOrder 2 "1"
      { admin_status := .str "preparing", delivery_date := .undefined,
        admin_note := .undefined }).resp.status = 200 ∧
    (putAdminOrder E shopWithUndatedOrder 2 "1"
      { admin_status := .str "preparing", delivery_date := .undefined,
        admin_note := .undefined }).db.orders.map (fun o => (o.admin_status, o.delivery_date)) =
      [(some "preparing", some "")] :=
  ⟨rfl, rfl⟩

/-! ## C6: the delivery minimum -/

/-- C6 at the failing input: a delivery order of 499 pence is inserted by
`POST /api/orders`, and `POST /api/checkout` requests a payment session for a
delivery cart worth 499 pence (neither handler compares the total with 500;
only the client's `placeOrder` does). -/
theorem delivery_below_minimum_accepted (E : Engine) :
    (postOrders E emptyShop 1000 1 smallDelivery true).resp = ⟨200, .order 1 false⟩ ∧
    (postOrders E emptyShop 1000 1 smallDelivery true).db.orders.map
      (fun o => (o.delivery_method, o.total_cents)) = [(some "deliver", .fin 499 0)] ∧
    (postCheckout E sampleWorld emptyShop 1 smallDeliveryCheckout).resp.status = 200 ∧
    (postCheckout E sampleWorld emptyShop 1 smallDeliveryCheckout).sessions.map
      (fun r => (r.metadata.delivery_method.beq (.str "deliver"),
        r.line_items.map (fun l => (l.unit_amount, l.quantity.beq (.num (.fin 1 0)))))) =
      [(true, [(499, true)])] :=
  ⟨rfl, rfl, rfl, rfl⟩

/-! ## C10: what the ledger persists -/

/-- C10 at the failing input: `POST /api/checkout` does not run the validator,
so a cart line with quantity 150 reaches the session metadata, and the webhook
stores it: the order's items are outside the validator's bounds. -/
theorem webhook_persists_unvalidated_lines (E : Engine) :
    (postCheckout E sampleWorld emptyShop 1 bulkCheckout).sessions = [bulkSession] ∧
    completedEvent bulkSession (.fin 119850 0) = some bulkEvent ∧
    (stripeWebhook E emptyShop 1000 (.verified bulkEvent) true).db.orders =
      [paidOrder 1 alice (.arr [.obj [("id", .num (.fin 2 0)), ("name", .str "Beef Chew Bone"),
          ("price_cents", .num (.fin 799 0)), ("qty", .num (.fin 150 0))]])
        (some "collect") (.fin 119850 0) 1000] ∧
    withinValidatorBounds (.arr [.obj [("id", .num (.fin 2 0)), ("name", .str "Beef Chew Bone"),
          ("price_cents", .num (.fin 799 0)), ("qty", .num (.fin 150 0))]]) = false :=
  ⟨rfl, rfl, rfl, rfl⟩

/-! ## C5: prices in the gateway path -/

/-- The checkout loop reads only `id` and `qty` of a cart line. -/
theorem checkoutLoop_congr (E : Engine) (catalog : List Item) (cart1 cart2 : List JVal)
    (h : List.Forall₂ sameIdAndQty cart1 cart2) (ls : List LineItem) (ss : List JVal) :
    checkoutLoop E catalog cart1 ls ss = checkoutLoop E catalog cart2 ls ss := by
  induction h generalizing ls ss with
  | nil => rfl
  | cons hab _ ih =>
    simp only [checkoutLoop, hab.1, hab.2]
    split
    · rfl
    · split
      · rfl
      · rfl
      · split
        · rfl
        · exact ih _ _

/-- A number that denotes the natural number `k` equals `k`. -/
theorem sqlEq_of_toNat (n : JSNum) (k : Nat) (h : n.toNat? = some k) :
    n.sqlEq (.ofInt k) = true := by
  cases n with
  | nan => cases h
  | posInf => cases h
  | negInf => cases h
  | fin m e =>
    simp only [JSNum.toNat?] at h
    split at h
    · rename_i hc
      obtain ⟨h0, hdiv⟩ := hc
      have hk : (k : Int) = m / 2 ^ e := by
        have := Option.some.inj h
        rw [← this]
        exact Int.toNat_of_nonneg (Int.ediv_nonneg h0 (by positivity))
      simp only [JSNum.sqlEq, JSNum.ofInt, pow_zero, mul_one, decide_eq_true_eq, hk]
      exact (Int.ediv_mul_cancel (Int.dvd_of_emod_eq_zero hdiv)).symm
    · cases h

/-- The rowid one bound value selects is the row the value names. -/
theorem scalarNames_of_scalarRowid (E : Engine) (v : JVal) (k : Nat)
    (h : scalarRowid E v = .ok (some k)) : scalarNames E v k := by
  cases v with
  | num n =>
    have h2 : (Except.ok n.toNat? : Except JsError (Option Nat)) = .ok (some k) := h
    exact sqlEq_of_toNat n k (Except.ok.inj h2)
  | str s =>
    have h2 : (Except.ok (E.textToRowid (storedText E s)) : Except JsError (Option Nat)) =
        .ok (some k) := h
    exact Except.ok.inj h2
  | undefined => cases h
  | null => cases h
  | bool b => cases h
  | arr l => cases h
  | obj fs => cases h

/-- The rowid an `id` value selects is the row the value names. -/
theorem idNames_of_boundRowid (E : Engine) (v : JVal) (k : Nat)
    (h : boundRowid E v = .ok (some k)) : idNames E v k := by
  cases v with
  | arr l =>
    cases l with
    | nil => cases h
    | cons x xs =>
      cases xs with
      | nil => exact scalarNames_of_scalarRowid E x k h
      | cons y ys => cases h
  | num n => exact scalarNames_of_scalarRowid E (.num n) k h
  | str s => exact scalarNames_of_scalarRowid E (.str s) k h
  | undefined => cases h
  | null => cases h
  | bool b => cases h
  | obj fs => cases h

/-- The row `SELECT * FROM items WHERE id=?` returns is a catalog item whose id
is the one the bound value names. -/
theorem lookupItem_some (E : Engine) (catalog : List Item) (rawId : JVal) (item : Item)
    (h : lookupItem E catalog rawId = .ok (some item)) :
    item ∈ catalog ∧ idNames E rawId item.id := by
  simp only [lookupItem] at h
  split at h
  · cases h
  · cases h
  · rename_i k hk
    have hfind := Except.ok.inj h
    have hmem := List.mem_of_find?_eq_some hfind
    have hid : item.id = k := by simpa using List.find?_some hfind
    exact ⟨hmem, hid ▸ idNames_of_boundRowid E rawId k hk⟩

/-- Every line item and snapshot the checkout loop appends comes from the catalog. -/
theorem checkoutLoop_built (E : Engine) (catalog : List Item) (cart : List JVal)
    (ls0 : List LineItem) (ss0 : List JVal) (line_items : List LineItem) (snapshot : List JVal)
    (h : checkoutLoop E catalog cart ls0 ss0 = .built line_items snapshot) :
    ∃ ls ss, line_items = ls0 ++ ls ∧ snapshot = ss0 ++ ss ∧
      List.Forall₂ (lineFromCatalog E catalog) cart ls ∧
      List.Forall₂ (snapshotFromCatalog E catalog) cart ss := by
  induction cart generalizing ls0 ss0 with
  | nil =>
    simp only [checkoutLoop, CartLines.built.injEq] at h
    exact ⟨[], [], by simp [h.1], by simp [h.2], List.Forall₂.nil, List.Forall₂.nil⟩
  | cons i rest ih =>
    simp only [checkoutLoop] at h
    split at h
    · cases h
    · rename_i rawId hId
      split at h
      · cases h
      · cases h
      · rename_i item hItem
        split at h
        · cases h
        · rename_i qty hQty
          obtain ⟨ls, ss, h1, h2, h3, h4⟩ := ih _ _ h
          obtain ⟨hmem, hnames⟩ := lookupItem_some E catalog rawId item hItem
          refine ⟨_ :: ls, _ :: ss, by simpa using h1, by simpa using h2,
            List.Forall₂.cons ⟨rawId, item, qty, hId, hmem, hnames, hQty, rfl, rfl, rfl⟩ h3,
            List.Forall₂.cons ⟨rawId, item, qty, hId, hmem, hnames, hQty, rfl⟩ h4⟩

/-- C5. Price non-trust in the gateway path: two carts that agree on each
line's `id` and `qty` get the same outcome from `POST /api/checkout` (same
response, same payment session with the same line items and metadata
snapshot), whatever `price_cents` and `name` the client supplied; and in every
session requested, each line item's name and unit amount, and each snapshot
line's id, name and price, are those of an item of the catalog whose id is the
id the cart line names (a number equal to it, or a text SQLite compares equal
to it, bare or as the single element of an array). -/
theorem postCheckout_ignores_client_price (E : Engine) (W : World) (db : Db) (uid : Nat)
    (cart1 cart2 : List JVal) (delivery_method : JVal)
    (h : List.Forall₂ sameIdAndQty cart1 cart2) :
    postCheckout E W db uid { items := .arr cart1, delivery_method := delivery_method } =
      postCheckout E W db uid { items := .arr cart2, delivery_method := delivery_method } ∧
    ∀ request ∈ (postCheckout E W db uid
        { items := .arr cart1, delivery_method := delivery_method }).sessions,
      List.Forall₂ (lineFromCatalog E db.items) cart1 request.line_items ∧
      ∃ snapshot, request.metadata.items_json = jsonify (.arr snapshot) ∧
        List.Forall₂ (snapshotFromCatalog E db.items) cart1 snapshot := by
  constructor
  · simp only [postCheckout, iterate, checkoutLoop_congr E db.items cart1 cart2 h]
  · intro request hreq
    simp only [postCheckout, iterate] at hreq
    split at hreq
    · simp [reply] at hreq
    · split at hreq
      · simp [reply] at hreq
      · split at hreq
        · simp [reply] at hreq
        · split at hreq
          · simp [reply] at hreq
          · simp [reply] at hreq
          · rename_i line_items snapshot hloop
            obtain ⟨ls, ss, h1, h2, h3, h4⟩ := checkoutLoop_built E db.items cart1 [] [] _ _ hloop
            simp only [List.nil_append] at h1 h2
            subst h1 h2
            have hr : request = { line_items := line_items, metadata :=
                { user_id := uid, delivery_method := delivery_method,
                  items_json := jsonify (.arr snapshot) } } := by
              split at hreq <;> simpa using hreq
            subst hr
            exact ⟨h3, snapshot, rfl, h4⟩

/-- C5 at a concrete pair of carts: a line that claims the Beef Chew Bone costs
one penny gets the same session as the honest line, with unit amount 799; so
does a line that names the item by the array `[2]`. -/
theorem postCheckout_ignores_client_price_witness :
    (postCheckout someEngine sampleWorld emptyShop 1
        { items := .arr [pennyLine], delivery_method := .str "collect" } =
      postCheckout someEngine sampleWorld emptyShop 1
        { items := .arr [chewLine], delivery_method := .str "collect" } ∧
    ∀ request ∈ (postCheckout someEngine sampleWorld emptyShop 1
        { items := .arr [pennyLine], delivery_method := .str "collect" }).sessions,
      List.Forall₂ (lineFromCatalog someEngine emptyShop.items) [pennyLine] request.line_items ∧
      ∃ snapshot, request.metadata.items_json = jsonify (.arr snapshot) ∧
        List.Forall₂ (snapshotFromCatalog someEngine emptyShop.items) [pennyLine] snapshot) ∧
    (postCheckout someEngine sampleWorld emptyShop 1
        { items := .arr [pennyLine], delivery_method := .str "collect" }).sessions.map
      (fun r => r.line_items.map (fun l => (l.name, l.unit_amount))) =
      [[("Beef Chew Bone", 799)]] ∧
    (postCheckout someEngine sampleWorld emptyShop 1
        { items := .arr [arrayIdLine], delivery_method := .str "collect" }).sessions.map
      (fun r => r.line_items.map (fun l => (l.name, l.unit_amount))) =
      [[("Beef Chew Bone", 799)]] :=
  ⟨postCheckout_ignores_client_price someEngine sampleWorld emptyShop 1 [pennyLine] [chewLine]
      (.str "collect") (List.Forall₂.cons ⟨rfl, rfl⟩ List.Forall₂.nil),
    rfl, rfl⟩

/-! ## What `POST /api/orders` persists -/

/-- `JSON.stringify` keeps the number of array elements. -/
theorem jsonifyList_length (l : List JVal) : (jsonifyList l).length = l.length := by
  induction l with
  | nil => rfl
  | cons x xs ih => simp [jsonifyList, ih]

/-- The serialised form of an accepted line is within the validator's bounds. -/
theorem lineWithinBounds_of_accepted (E : Engine) (i : JVal) (c : CleanItem)
    (h : validateLine E i = .ok (some c)) : lineWithinBounds (jsonify c.toJVal) = true := by
  obtain ⟨hid, hqty⟩ := validateLine_bounds E i c h
  obtain ⟨id, qty, name, price⟩ := c
  simp only at hid hqty
  cases id with
  | nan => simp [JSNum.isPositiveInteger] at hid
  | posInf => simp [JSNum.isPositiveInteger] at hid
  | negInf => simp [JSNum.isPositiveInteger] at hid
  | fin m e =>
    cases qty with
    | nan => simp [JSNum.inRange] at hqty
    | posInf => simp [JSNum.inRange] at hqty
    | negInf => simp [JSNum.inRange] at hqty
    | fin q f =>
      have hne : ¬ (JsString.ofString "id" = JsString.ofString "qty") := by decide
      simp [CleanItem.toJVal, jsonify, jsonifyFields, lineWithinBounds, JVal.lookup, hid, hqty,
        hne]

/-- The items `POST /api/orders` stores for an accepted cart lie within the
validator's bounds: between 1 and 50 lines, each with a positive integer id
and a quantity in `[1, 99]`. -/
theorem cleanedJson_withinValidatorBounds (E : Engine) (l : List JVal) (cleaned : List CleanItem)
    (h : validateItemsPayload E (.arr l) = .ok (some cleaned)) :
    withinValidatorBounds (cleanedJson cleaned) = true := by
  obtain ⟨hlen, hall⟩ := (validateItemsPayload_eq_some E l cleaned).mp h
  have hl : cleaned.length = l.length := hall.length_eq.symm
  have hlines : (jsonifyList (cleaned.map CleanItem.toJVal)).all lineWithinBounds = true := by
    clear hlen hl h
    induction hall with
    | nil => rfl
    | cons hac _ ih =>
      simp only [List.map_cons, jsonifyList, List.all_cons, Bool.and_eq_true]
      exact ⟨lineWithinBounds_of_accepted E _ _ hac, ih⟩
  simp only [cleanedJson, jsonify, withinValidatorBounds, jsonifyList_length, List.length_map,
    Bool.and_eq_true, decide_eq_true_eq]
  exact ⟨by omega, hlines⟩

/-! ## C11, C12: rejected and malformed carts -/

/-- A cart the validator rejects is answered with 400 and nothing is written. -/
theorem postOrders_of_rejected_items (E : Engine) (db : Db) (now uid : Nat) (body : OrderBody)
    (m : Bool) (h : validateItemsPayload E body.items = .ok none) :
    ∃ msg, postOrders E db now uid body m = reply db 400 (.error msg) := by
  cases hitems : body.items with
  | arr l =>
    cases l with
    | nil => exact ⟨"No items provided", by simp only [postOrders, hitems]⟩
    | cons i rest =>
      rw [hitems] at h
      exact ⟨"Bad items payload", by simp only [postOrders, hitems, h]⟩
  | undefined => exact ⟨"No items provided", by simp only [postOrders, hitems]⟩
  | null => exact ⟨"No items provided", by simp only [postOrders, hitems]⟩
  | bool b => exact ⟨"No items provided", by simp only [postOrders, hitems]⟩
  | num n => exact ⟨"No items provided", by simp only [postOrders, hitems]⟩
  | str s => exact ⟨"No items provided", by simp only [postOrders, hitems]⟩
  | obj fs => exact ⟨"No items provided", by simp only [postOrders, hitems]⟩

/-- An accepted cart is a non-empty array. -/
theorem items_of_accepted (E : Engine) (items : JVal) (cleaned : List CleanItem)
    (h : validateItemsPayload E items = .ok (some cleaned)) :
    ∃ i rest, items = .arr (i :: rest) := by
  cases items with
  | arr l =>
    cases l with
    | nil => simp [validateItemsPayload] at h
    | cons i rest => exact ⟨i, rest, rfl⟩
  | undefined => simp [validateItemsPayload] at h
  | null => simp [validateItemsPayload] at h
  | bool b => simp [validateItemsPayload] at h
  | num n => simp [validateItemsPayload] at h
  | str s => simp [validateItemsPayload] at h
  | obj fs => simp [validateItemsPayload] at h

/-- An accepted cart with a total that `safePrice` rejects is answered with 400
and nothing is written. -/
theorem postOrders_of_rejected_total (E : Engine) (db : Db) (now uid : Nat) (body : OrderBody)
    (m : Bool) (cleaned : List CleanItem)
    (hv : validateItemsPayload E body.items = .ok (some cleaned))
    (ht : safePrice E body.total_cents = .ok none) :
    postOrders E db now uid body m = reply db 400 (.error "Bad total") := by
  obtain ⟨i, rest, hitems⟩ := items_of_accepted E body.items cleaned hv
  rw [hitems] at hv
  simp only [postOrders, hitems, hv, ht]

/-- A request that is not answered with 200 leaves the database as it was. -/
theorem postOrders_unchanged_of_error (E : Engine) (db : Db) (now uid : Nat) (body : OrderBody)
    (m : Bool) (h : (postOrders E db now uid body m).resp.status ≠ 200) :
    (postOrders E db now uid body m).db = db := by
  cases hitems : body.items with
  | arr l =>
    cases l with
    | nil => simp only [postOrders, hitems, reply]
    | cons i rest =>
      cases hval : validateItemsPayload E (.arr (i :: rest)) with
      | error e => simp only [postOrders, hitems, hval, reply]
      | ok r =>
        cases r with
        | none => simp only [postOrders, hitems, hval, reply]
        | some cleaned =>
          cases hprice : safePrice E body.total_cents with
          | error e => simp only [postOrders, hitems, hval, hprice, reply]
          | ok t =>
            cases t with
            | none => simp only [postOrders, hitems, hval, hprice, reply]
            | some total =>
              cases hbind : bindText E (deliveryOrDefault body.delivery_method) with
              | error e => simp only [postOrders, hitems, hval, hprice, hbind, reply]
              | ok delivery =>
                cases hfind : findRecentDuplicate db now uid total delivery
                    (cleanedJson cleaned) with
                | some ex => simp only [postOrders, hitems, hval, hprice, hbind, hfind, reply]
                | none =>
                  cases haddr : getUser db uid with
                  | none =>
                    simp only [postOrders, hitems, hval, hprice, hbind, hfind, haddr, reply]
                  | some user =>
                    exfalso
                    apply h
                    simp only [postOrders, hitems, hval, hprice, hbind, hfind, haddr]
                    split <;> rfl
  | undefined => simp only [postOrders, hitems, reply]
  | null => simp only [postOrders, hitems, reply]
  | bool b => simp only [postOrders, hitems, reply]
  | num n => simp only [postOrders, hitems, reply]
  | str s => simp only [postOrders, hitems, reply]
  | obj fs => simp only [postOrders, hitems, reply]

/-- C11 at the failing input: the cart holds a `null` element and the total is
-5, which `safePrice` rejects.  The validator throws before the total is
looked at, and the request is answered with 500 instead of 400; the orders
table is left as it was. -/
theorem postOrders_bad_total_answered_500 (E : Engine) :
    safePrice E nullLineOrder.total_cents = .ok none ∧
    (postOrders E emptyShop 1000 1 nullLineOrder true).resp =
      ⟨500, .error "Failed to create order"⟩ ∧
    (postOrders E emptyShop 1000 1 nullLineOrder true).db.orders = emptyShop.orders :=
  ⟨rfl, rfl, rfl⟩

/-- An array element that is neither an object nor `null` makes the loop body
return `null` without throwing. -/
theorem validateLine_of_non_object (E : Engine) (i : JVal)
    (h : ∀ fields, i ≠ .obj fields) (hn : i ≠ .null) (hu : i ≠ .undefined) :
    validateLine E i = .ok none := by
  cases i with
  | undefined => exact absurd rfl hu
  | null => exact absurd rfl hn
  | bool b => rfl
  | num n => rfl
  | str s => rfl
  | arr l => rfl
  | obj fs => exact absurd rfl (h fs)

/-- C12 at the failing input `items = [null]`: reading `i.id` of the `null`
element throws a `TypeError`, so `validateItemsPayload` neither returns `null`
nor a list, and `POST /api/orders` answers 500 rather than 400. -/
theorem validateItemsPayload_throws_on_null_line (E : Engine) :
    validateItemsPayload E (.arr [.null]) = .error .thrown ∧
    (postOrders E emptyShop 1000 1
      { items := .arr [.null], total_cents := .num (.fin 799 0),
        delivery_method := .str "collect" } true).resp =
      ⟨500, .error "Failed to create order"⟩ :=
  ⟨rfl, rfl⟩

/-! ## C13: insertion by `POST /api/orders` -/

/-- The serialised form of an accepted line is the line itself: its numbers
are finite. -/
theorem jsonify_accepted_line (E : Engine) (i : JVal) (c : CleanItem)
    (h : validateLine E i = .ok (some c)) : jsonify c.toJVal = c.toJVal := by
  obtain ⟨hid, hqty⟩ := validateLine_bounds E i c h
  obtain ⟨_, k, _, hk, _⟩ := validateLine_price E i c h
  obtain ⟨id, qty, name, price⟩ := c
  simp only at hid hqty hk
  subst hk
  cases id with
  | nan => simp [JSNum.isPositiveInteger] at hid
  | posInf => simp [JSNum.isPositiveInteger] at hid
  | negInf => simp [JSNum.isPositiveInteger] at hid
  | fin m e =>
    cases qty with
    | nan => simp [JSNum.inRange] at hqty
    | posInf => simp [JSNum.inRange] at hqty
    | negInf => simp [JSNum.inRange] at hqty
    | fin q f => simp [CleanItem.toJVal, jsonify, jsonifyFields]

/-- `JSON.stringify` of the cleaned lines of an accepted cart is the array of
those lines, each `{ id, qty, name, price_cents }`. -/
theorem cleanedJson_of_accepted (E : Engine) (l : List JVal) (cleaned : List CleanItem)
    (h : validateItemsPayload E (.arr l) = .ok (some cleaned)) :
    cleanedJson cleaned = .arr (cleaned.map CleanItem.toJVal) := by
  have hall := ((validateItemsPayload_eq_some E l cleaned).mp h).2
  have : jsonifyList (cleaned.map CleanItem.toJVal) = cleaned.map CleanItem.toJVal := by
    clear h
    induction hall with
    | nil => rfl
    | cons hac _ ih =>
      simp only [List.map_cons, jsonifyList, jsonify_accepted_line E _ _ hac, ih]
  simp only [cleanedJson, jsonify, this]

/-- The user `SELECT * FROM users WHERE id=?` returns has that id. -/
theorem getUser_id (db : Db) (uid : Nat) (u : User) (h : getUser db uid = some u) :
    u.id = uid := by
  have := List.find?_some h
  simpa using this

/-- No stored order has an id above `maxOrderId`. -/
theorem le_maxOrderId (l : List Order) (o : Order) (h : o ∈ l) : o.id ≤ maxOrderId l := by
  induction l with
  | nil => cases h
  | cons x xs ih =>
    simp only [maxOrderId]
    rcases List.mem_cons.mp h with h | h
    · subst h; omega
    · have := ih h; omega

/-- C13 (amended). Path A insertion: for every request of an authenticated
user with a cart the validator accepts, a total `safePrice` accepts and a
delivery method the statement can bind (a string, a number or `null`, bare or
as the single element of an array, or absent), that matches no stored order
under the dedup key
within the last 24 hours, `POST /api/orders` appends exactly one row to the
orders table, with status `placed`, the caller as `user_id`, the sanitised
total, the validator's cleaned lines as items and the user's record of that
moment as address snapshot; the rows stored before are unchanged, the new id
is larger than every stored id, and the response carries the new row's id. -/
theorem postOrders_inserts_placed_order (E : Engine) (db : Db) (now uid : Nat) (body : OrderBody)
    (m : Bool) (user : User) (cleaned : List CleanItem) (total : JSNum)
    (delivery : Option String)
    (huser : getUser db uid = some user)
    (hval : validateItemsPayload E body.items = .ok (some cleaned))
    (htotal : safePrice E body.total_cents = .ok (some total))
    (hbind : bindText E (deliveryOrDefault body.delivery_method) = .ok delivery)
    (hnew : ∀ o ∈ db.orders,
      isRecentDuplicate now uid total delivery (cleanedJson cleaned) o = false) :
    ∃ row : Order,
      (postOrders E db now uid body m).db.orders = db.orders ++ [row] ∧
      row.status = "placed" ∧ row.user_id = uid ∧ row.total_cents = total ∧
      row.items_json = .arr (cleaned.map CleanItem.toJVal) ∧
      row.address_json = some user ∧ row.delivery_method = delivery ∧
      row.created_at = now ∧
      (∀ o ∈ db.orders, o.id < row.id) ∧
      (postOrders E db now uid body m).resp = ⟨200, .order row.id false⟩ := by
  obtain ⟨i, rest, hitems⟩ := items_of_accepted E body.items cleaned hval
  rw [hitems] at hval
  have hjson := cleanedJson_of_accepted E (i :: rest) cleaned hval
  have hfind : findRecentDuplicate db now uid total delivery (cleanedJson cleaned) = none := by
    have hnil : db.orders.filter
        (isRecentDuplicate now uid total delivery (cleanedJson cleaned)) = [] := by
      rw [List.filter_eq_nil_iff]
      intro o ho
      simp [hnew o ho]
    simp only [findRecentDuplicate, hnil, maxById]
  refine ⟨placedOrder (nextOrderId db) uid (cleanedJson cleaned) (some user) delivery total now,
    ?_, rfl, rfl, rfl, hjson, rfl, rfl, rfl, ?_, ?_⟩
  · simp only [postOrders, hitems, hval, htotal, hbind, hfind, huser]
    split <;> rfl
  · intro o ho
    have := le_maxOrderId db.orders o ho
    simp only [placedOrder, nextOrderId]
    omega
  · simp only [postOrders, hitems, hval, htotal, hbind, hfind, huser]
    split <;> rfl

/-- C13 (amended) at a concrete request: `alice` orders one Beef Chew Bone in
the empty shop; order 1 is appended. -/
theorem postOrders_inserts_placed_order_witness :
    ∃ row : Order,
      (postOrders someEngine emptyShop 1000 1 chewOrder true).db.orders =
        emptyShop.orders ++ [row] ∧
      row.status = "placed" ∧ row.user_id = 1 ∧ row.total_cents = .fin 799 0 ∧
      row.items_json = .arr ([chewClean].map CleanItem.toJVal) ∧
      row.address_json = some alice ∧ row.delivery_method = some "collect" ∧
      row.created_at = 1000 ∧
      (∀ o ∈ emptyShop.orders, o.id < row.id) ∧
      (postOrders someEngine emptyShop 1000 1 chewOrder true).resp = ⟨200, .order row.id false⟩ :=
  postOrders_inserts_placed_order someEngine emptyShop 1000 1 chewOrder true alice _ _ _
    rfl rfl rfl rfl (by intro o ho; cases ho)

/-- C13 as stated fails: `alice` sends a valid cart and total to the empty
shop, so no stored order matches, but with the delivery method `true`, which
the driver refuses to bind; the handler answers 500 and appends no row. -/
theorem postOrders_unbindable_delivery_counterexample :
    getUser emptyShop 1 = some alice ∧
    validateItemsPayload someEngine booleanDeliveryOrder.items = .ok (some [chewClean]) ∧
    safePrice someEngine booleanDeliveryOrder.total_cents = .ok (some (.fin 799 0)) ∧
    emptyShop.orders = [] ∧
    (postOrders someEngine emptyShop 1000 1 booleanDeliveryOrder true).resp =
      ⟨500, .error "Failed to create order"⟩ ∧
    (postOrders someEngine emptyShop 1000 1 booleanDeliveryOrder true).db.orders = [] :=
  ⟨rfl, rfl, rfl, rfl, rfl, rfl⟩

/-! ## The webhook: C14 to C19 -/

/-- Outcome of the webhook for a verified `checkout.session.completed` event:
the acknowledgement, with the database and mails of the `try` block, whether
the block ended normally or in the `catch`. -/
theorem stripeWebhook_completed (E : Engine) (db : Db) (now : Nat) (ev : Event) (m : Bool)
    (h : ev.type = "checkout.session.completed") :
    stripeWebhook E db now (.verified ev) m =
      { db := (webhookProcess E db now ev m).1, resp := ⟨200, .received⟩,
        mails := (webhookProcess E db now ev m).2.1, sessions := [] } := by
  simp only [stripeWebhook, h, if_true]
  rcases webhookProcess E db now ev m with ⟨d, ms, r⟩
  cases r <;> rfl

/-- The `try` block of the webhook for an event whose metadata names a user
and holds items that parse: the paid order is inserted, with the delivery
method of the metadata, `NULL` when it has none. -/
theorem webhookProcess_inserts (E : Engine) (db : Db) (now : Nat) (ev : Event)
    (meta : EventMeta) (s : JsString) (user : User) (items : JVal) (m : Bool)
    (hmeta : ev.metadata = some meta) (hid : meta.user_id = some s)
    (huser : (stringToNumber E s).toNat?.bind (getUser db) = some user)
    (hitems : parseItemsMeta meta.items_json = .ok items) :
    (webhookProcess E db now ev m).1 = insertOrder db
      (paidOrder (nextOrderId db) user (jsonify items)
        (meta.delivery_method.map (storedText E)) ev.amount_total now) := by
  cases hd : meta.delivery_method with
  | none =>
    simp only [webhookProcess, hmeta, hid, hitems, huser, hd, bindText, bindScalar, Option.map]
    split <;> rfl
  | some d =>
    simp only [webhookProcess, hmeta, hid, hitems, huser, hd, bindText, bindScalar, Option.map]
    split <;> rfl

/-- C14 (amended). Path B insertion: for every signature-verified
`checkout.session.completed` event whose metadata `user_id` names an existing
user and whose items metadata is absent or parses as JSON, the webhook appends
one order row with status `paid`, whose `total_cents` is the event's
`amount_total`, whose `user_id` and `delivery_method` are those of the
metadata (`NULL` when the metadata has no delivery method), whose items are
the parsed items of the metadata and whose address snapshot is the user's
record; the rows stored before are unchanged and the event is acknowledged. -/
theorem stripeWebhook_inserts_paid_order (E : Engine) (db : Db) (now : Nat) (ev : Event)
    (meta : EventMeta) (s : JsString) (user : User) (items : JVal) (m : Bool)
    (htype : ev.type = "checkout.session.completed")
    (hmeta : ev.metadata = some meta) (hid : meta.user_id = some s)
    (huser : (stringToNumber E s).toNat?.bind (getUser db) = some user)
    (hitems : parseItemsMeta meta.items_json = .ok items) :
    ∃ row : Order,
      (stripeWebhook E db now (.verified ev) m).db.orders = db.orders ++ [row] ∧
      row.status = "paid" ∧ row.total_cents = ev.amount_total ∧
      (stringToNumber E s).toNat? = some row.user_id ∧
      row.delivery_method = meta.delivery_method.map (storedText E) ∧
      row.items_json = jsonify items ∧
      row.address_json = some user ∧
      (∀ o ∈ db.orders, o.id < row.id) ∧
      (stripeWebhook E db now (.verified ev) m).resp = ⟨200, .received⟩ := by
  refine ⟨paidOrder (nextOrderId db) user (jsonify items)
    (meta.delivery_method.map (storedText E)) ev.amount_total now,
    ?_, rfl, rfl, ?_, rfl, rfl, rfl, ?_, ?_⟩
  · rw [stripeWebhook_completed E db now ev m htype]
    simp only [webhookProcess_inserts E db now ev meta s user items m hmeta hid huser hitems,
      insertOrder]
  · cases hn : (stringToNumber E s).toNat? with
    | none => simp [hn] at huser
    | some n =>
      rw [hn] at huser
      simp only [Option.some_bind] at huser
      simp only [paidOrder, getUser_id db n user huser]
  · intro o ho
    have := le_maxOrderId db.orders o ho
    simp only [paidOrder, nextOrderId]
    omega
  · rw [stripeWebhook_completed E db now ev m htype]

/-- C14 (amended) at concrete events: the event of `chewSession` is recorded as
order 1 of `alice`, for collection; an event without delivery method in its
metadata is recorded with `NULL`. -/
theorem stripeWebhook_inserts_paid_order_witness :
    (∃ row : Order,
      (stripeWebhook someEngine emptyShop 1000 (.verified chewEvent) true).db.orders =
        emptyShop.orders ++ [row] ∧
      row.status = "paid" ∧ row.total_cents = chewEvent.amount_total ∧
      (stringToNumber someEngine "1").toNat? = some row.user_id ∧
      row.delivery_method = some "collect" ∧
      row.items_json = jsonify chewSession.metadata.items_json ∧
      row.address_json = some alice ∧
      (∀ o ∈ emptyShop.orders, o.id < row.id) ∧
      (stripeWebhook someEngine emptyShop 1000 (.verified chewEvent) true).resp =
        ⟨200, .received⟩) ∧
    (∃ row : Order,
      (stripeWebhook someEngine emptyShop 1000 (.verified bareEvent) true).db.orders =
        emptyShop.orders ++ [row] ∧
      row.status = "paid" ∧ row.total_cents = bareEvent.amount_total ∧
      (stringToNumber someEngine "1").toNat? = some row.user_id ∧
      row.delivery_method = none ∧
      row.items_json = jsonify (.arr []) ∧
      row.address_json = some alice ∧
      (∀ o ∈ emptyShop.orders, o.id < row.id) ∧
      (stripeWebhook someEngine emptyShop 1000 (.verified bareEvent) true).resp =
        ⟨200, .received⟩) :=
  ⟨stripeWebhook_inserts_paid_order someEngine emptyShop 1000 chewEvent _ "1" alice
      chewSession.metadata.items_json true rfl rfl rfl rfl rfl,
    stripeWebhook_inserts_paid_order someEngine emptyShop 1000 bareEvent _ "1" alice
      (.arr []) true rfl rfl rfl rfl rfl⟩

/-- C14 as stated fails: the event is verified, of type
`checkout.session.completed`, and its metadata names the existing user
`alice`, but its items text does not parse; `JSON.parse` throws inside the
`try` block and no order row is appended. -/
theorem stripeWebhook_malformed_items_counterexample :
    malformedEvent.type = "checkout.session.completed" ∧
    eventUser someEngine emptyShop malformedEvent = some alice ∧
    (stripeWebhook someEngine emptyShop 1000 (.verified malformedEvent) true).db.orders =
      emptyShop.orders ∧
    emptyShop.orders = [] :=
  ⟨rfl, rfl, rfl, rfl⟩

/-- C15. For every webhook request whose signature verification fails, no order
row is created: the database is what it was, no mail is sent, and the outcome
is the same whatever event the body encodes (the payload is not read). -/
theorem stripeWebhook_bad_signature_no_order (E : Engine) (db : Db) (now : Nat)
    (raw : RawWebhook) (m : Bool) (message : String)
    (h : raw.signatureError = some message) :
    (stripeWebhook E db now (constructEvent raw) m).db = db ∧
    (stripeWebhook E db now (constructEvent raw) m).mails = [] ∧
    (stripeWebhook E db now (constructEvent raw) m).sessions = [] ∧
    ∀ payload : Event,
      stripeWebhook E db now (constructEvent { raw with payload := payload }) m =
        stripeWebhook E db now (constructEvent raw) m := by
  simp only [constructEvent, h, stripeWebhook, reply]
  exact ⟨trivial, trivial, trivial, fun _ => trivial⟩

/-- C15 at a concrete request: a forged request that encodes the event of
`chewSession` creates no order. -/
theorem stripeWebhook_bad_signature_no_order_witness :
    (stripeWebhook someEngine emptyShop 1000 (constructEvent forgedWebhook) true).db = emptyShop ∧
    (stripeWebhook someEngine emptyShop 1000 (constructEvent forgedWebhook) true).mails = [] ∧
    (stripeWebhook someEngine emptyShop 1000 (constructEvent forgedWebhook) true).sessions = [] ∧
    ∀ payload : Event,
      stripeWebhook someEngine emptyShop 1000
          (constructEvent { forgedWebhook with payload := payload }) true =
        stripeWebhook someEngine emptyShop 1000 (constructEvent forgedWebhook) true :=
  stripeWebhook_bad_signature_no_order someEngine emptyShop 1000 forgedWebhook true _ rfl

/-- C16 (amended). For every webhook request whose signature verification
fails, the event is dropped (the database is what it was) and the gateway is
answered with HTTP 400 and the text `Webhook Error: ` followed by the
verification message, which is not a success response. -/
theorem stripeWebhook_bad_signature_answers_400 (E : Engine) (db : Db) (now : Nat)
    (raw : RawWebhook) (m : Bool) (message : String)
    (h : raw.signatureError = some message) :
    (stripeWebhook E db now (constructEvent raw) m).resp =
      ⟨400, .text ("Webhook Error: " ++ message)⟩ ∧
    (stripeWebhook E db now (constructEvent raw) m).resp.isSuccess = false ∧
    (stripeWebhook E db now (constructEvent raw) m).db = db := by
  simp only [constructEvent, h, stripeWebhook, reply]
  exact ⟨trivial, rfl, trivial⟩

/-- C16 (amended) at a concrete request. -/
theorem stripeWebhook_bad_signature_answers_400_witness :
    (stripeWebhook someEngine emptyShop 1000 (constructEvent forgedWebhook) true).resp =
      ⟨400, .text ("Webhook Error: " ++
        "No signatures found matching the expected signature for payload")⟩ ∧
    (stripeWebhook someEngine emptyShop 1000 (constructEvent forgedWebhook) true).resp.isSuccess =
      false ∧
    (stripeWebhook someEngine emptyShop 1000 (constructEvent forgedWebhook) true).db = emptyShop :=
  stripeWebhook_bad_signature_answers_400 someEngine emptyShop 1000 forgedWebhook true _ rfl

/-- C16 as stated fails: a request whose signature does not verify is answered
with status 400, an HTTP error, not with a success acknowledgement. -/
theorem stripeWebhook_bad_signature_counterexample :
    forgedWebhook.signatureError ≠ none ∧
    (stripeWebhook someEngine emptyShop 1000 (constructEvent forgedWebhook) true).resp.status =
      400 ∧
    (stripeWebhook someEngine emptyShop 1000 (constructEvent forgedWebhook) true).resp.isSuccess =
      false :=
  ⟨(by intro h; cases h), rfl, rfl⟩

/-- The `try` block writes nothing when the metadata names no existing user. -/
theorem webhookProcess_of_missing_user (E : Engine) (db : Db) (now : Nat) (ev : Event) (m : Bool)
    (h : eventUser E db ev = none) :
    (webhookProcess E db now ev m).1 = db ∧ (webhookProcess E db now ev m).2.1 = [] := by
  unfold eventUser at h
  unfold webhookProcess
  cases hmeta : ev.metadata with
  | none =>
    simp only [parseItemsMeta, JSNum.toNat?, Option.none_bind]
    exact ⟨trivial, trivial⟩
  | some meta =>
    rw [hmeta] at h
    simp only at h ⊢
    cases hid : meta.user_id with
    | none =>
      simp only [JSNum.toNat?, Option.none_bind]
      split <;> exact ⟨rfl, rfl⟩
    | some s =>
      rw [hid] at h
      simp only at h
      simp only [h]
      split <;> exact ⟨rfl, rfl⟩

/-- The `try` block writes nothing when the items text does not parse. -/
theorem webhookProcess_of_malformed (E : Engine) (db : Db) (now : Nat) (ev : Event) (m : Bool)
    (h : eventItemsMalformed ev) :
    (webhookProcess E db now ev m).1 = db ∧ (webhookProcess E db now ev m).2.1 = [] := by
  obtain ⟨meta, hmeta, hmal⟩ := h
  simp only [webhookProcess, hmeta, hmal, parseItemsMeta]
  exact ⟨trivial, trivial⟩

/-- C17. Ack is decoupled from the internal outcome: every signature-verified
event is answered with status 200 and `{received: true}`, whatever happens
while it is processed; when the metadata names no existing user, and when the
items metadata does not parse, the database is left as it was and no mail is
sent. -/
theorem stripeWebhook_always_acks (E : Engine) (db : Db) (now : Nat) (ev : Event) (m : Bool) :
    (stripeWebhook E db now (.verified ev) m).resp = ⟨200, .received⟩ ∧
    (eventUser E db ev = none →
      (stripeWebhook E db now (.verified ev) m).db = db ∧
      (stripeWebhook E db now (.verified ev) m).mails = []) ∧
    (eventItemsMalformed ev →
      (stripeWebhook E db now (.verified ev) m).db = db ∧
      (stripeWebhook E db now (.verified ev) m).mails = []) := by
  by_cases htype : ev.type = "checkout.session.completed"
  · rw [stripeWebhook_completed E db now ev m htype]
    exact ⟨rfl, fun h => webhookProcess_of_missing_user E db now ev m h,
      fun h => webhookProcess_of_malformed E db now ev m h⟩
  · simp only [stripeWebhook, htype, if_false, reply]
    exact ⟨trivial, fun _ => ⟨trivial, trivial⟩, fun _ => ⟨trivial, trivial⟩⟩

/-- C17 at concrete events: an event whose items text does not parse, and an
event that names user 7, who does not exist, are acknowledged and leave the
database as it was. -/
theorem stripeWebhook_always_acks_witness :
    ((stripeWebhook someEngine emptyShop 1000 (.verified malformedEvent) false).resp =
        ⟨200, .received⟩ ∧
      (stripeWebhook someEngine emptyShop 1000 (.verified malformedEvent) false).db =
        emptyShop) ∧
    ((stripeWebhook someEngine emptyShop 1000 (.verified ghostEvent) false).resp =
        ⟨200, .received⟩ ∧
      (stripeWebhook someEngine emptyShop 1000 (.verified ghostEvent) false).db = emptyShop) :=
  ⟨⟨(stripeWebhook_always_acks someEngine emptyShop 1000 malformedEvent false).1,
      ((stripeWebhook_always_acks someEngine emptyShop 1000 malformedEvent false).2.2
        ⟨_, rfl, rfl⟩).1⟩,
    ⟨(stripeWebhook_always_acks someEngine emptyShop 1000 ghostEvent false).1,
      ((stripeWebhook_always_acks someEngine emptyShop 1000 ghostEvent false).2.1 rfl).1⟩⟩

/-- C18. For every signature-verified event whose type is not
`checkout.session.completed`, the webhook leaves the database, and so the
orders table, unchanged, sends no notification, requests no session and
responds with the success acknowledgement. -/
theorem stripeWebhook_ignores_other_events (E : Engine) (db : Db) (now : Nat) (ev : Event)
    (m : Bool) (h : ev.type ≠ "checkout.session.completed") :
    (stripeWebhook E db now (.verified ev) m).db = db ∧
    (stripeWebhook E db now (.verified ev) m).mails = [] ∧
    (stripeWebhook E db now (.verified ev) m).sessions = [] ∧
    (stripeWebhook E db now (.verified ev) m).resp = ⟨200, .received⟩ := by
  simp only [stripeWebhook, h, if_false, reply]
  exact ⟨trivial, trivial, trivial, trivial⟩

/-- C18 at a concrete event of type `charge.refunded`. -/
theorem stripeWebhook_ignores_other_events_witness :
    (stripeWebhook someEngine shopWithOldOrder 1000 (.verified refundEvent) true).db =
      shopWithOldOrder ∧
    (stripeWebhook someEngine shopWithOldOrder 1000 (.verified refundEvent) true).mails = [] ∧
    (stripeWebhook someEngine shopWithOldOrder 1000 (.verified refundEvent) true).sessions = [] ∧
    (stripeWebhook someEngine shopWithOldOrder 1000 (.verified refundEvent) true).resp =
      ⟨200, .received⟩ :=
  stripeWebhook_ignores_other_events someEngine shopWithOldOrder 1000 refundEvent true
    (by decide)

/-! ## C19: notification failures -/

/-- The database and the mails of the webhook's `try` block do not depend on
whether the notification send succeeds. -/
theorem webhookProcess_mail_independent (E : Engine) (db : Db) (now : Nat) (ev : Event) :
    (webhookProcess E db now ev true).1 = (webhookProcess E db now ev false).1 ∧
    (webhookProcess E db now ev true).2.1 = (webhookProcess E db now ev false).2.1 := by
  unfold webhookProcess
  simp only
  split
  · exact ⟨rfl, rfl⟩
  · split
    · exact ⟨rfl, rfl⟩
    · split
      · exact ⟨rfl, rfl⟩
      · split <;> exact ⟨rfl, rfl⟩

/-- C19. Notification is off the critical path: `POST /api/orders` and the
webhook have the same outcome (database, and so the inserted row, and
response) whether the notification send succeeds or throws; and when
`POST /api/orders` answers with a new order id although the send failed, the
row with that id is in the orders table. -/
theorem notification_failure_is_harmless (E : Engine) (db : Db) (now uid : Nat)
    (body : OrderBody) (req : WebhookRequest) :
    postOrders E db now uid body true = postOrders E db now uid body false ∧
    stripeWebhook E db now req true = stripeWebhook E db now req false ∧
    ∀ id, (postOrders E db now uid body false).resp = ⟨200, .order id false⟩ →
      ∃ row ∈ (postOrders E db now uid body false).db.orders, row.id = id ∧
        row.status = "placed" := by
  refine ⟨?_, ?_, ?_⟩
  · cases hitems : body.items with
    | arr l =>
      cases l with
      | nil => simp only [postOrders, hitems]
      | cons i rest =>
        cases hval : validateItemsPayload E (.arr (i :: rest)) with
        | error e => simp only [postOrders, hitems, hval]
        | ok r =>
          cases r with
          | none => simp only [postOrders, hitems, hval]
          | some cleaned =>
            cases hprice : safePrice E body.total_cents with
            | error e => simp only [postOrders, hitems, hval, hprice]
            | ok t =>
              cases t with
              | none => simp only [postOrders, hitems, hval, hprice]
              | some total =>
                cases hbind : bindText E (deliveryOrDefault body.delivery_method) with
                | error e => simp only [postOrders, hitems, hval, hprice, hbind]
                | ok delivery =>
                  cases hfind : findRecentDuplicate db now uid total delivery
                      (cleanedJson cleaned) with
                  | some ex => simp only [postOrders, hitems, hval, hprice, hbind, hfind]
                  | none =>
                    cases huser : getUser db uid with
                    | none =>
                      simp only [postOrders, hitems, hval, hprice, hbind, hfind, huser]
                    | some u =>
                      simp only [postOrders, hitems, hval, hprice, hbind, hfind, huser,
                        sendMail]
                      rfl
    | undefined => simp only [postOrders, hitems]
    | null => simp only [postOrders, hitems]
    | bool b => simp only [postOrders, hitems]
    | num n => simp only [postOrders, hitems]
    | str s => simp only [postOrders, hitems]
    | obj fs => simp only [postOrders, hitems]
  · cases req with
    | badSignature message => rfl
    | verified ev =>
      by_cases htype : ev.type = "checkout.session.completed"
      · rw [stripeWebhook_completed E db now ev true htype,
          stripeWebhook_completed E db now ev false htype,
          (webhookProcess_mail_independent E db now ev).1,
          (webhookProcess_mail_independent E db now ev).2]
      · simp only [stripeWebhook, htype, if_false]
  · intro id h
    obtain ⟨_, _, cleaned, total, delivery, _, _, _, _, hcase⟩ :=
      postOrders_order_inv E db now uid body false id false h
    rcases hcase with ⟨hd, _⟩ | ⟨_, hid, _, user, _, hdb⟩
    · cases hd
    · refine ⟨placedOrder (nextOrderId db) uid (cleanedJson cleaned) (some user) delivery total
        now, ?_, hid.symm, rfl⟩
      rw [hdb]
      simp [insertOrder]

/-! ## C20: checkout outside the service area -/

/-- C20. For every authenticated user with a stored postcode for which the
service-radius check returns false, `POST /api/checkout` responds with status
403 and the out-of-area message, requests no payment session, sends no mail
and leaves the database, and so the orders table, unchanged. -/
theorem postCheckout_outside_service_area (E : Engine) (W : World) (db : Db) (uid : Nat)
    (body : CheckoutBody) (user : User) (postcode : String)
    (huser : getUser db uid = some user) (hpc : user.postcode = some postcode)
    (hne : postcode ≠ "") (hfar : withinDeliveryRange W postcode = false) :
    (postCheckout E W db uid body).resp =
      ⟨403, .error "Your address is outside our 15-mile service area."⟩ ∧
    (postCheckout E W db uid body).sessions = [] ∧
    (postCheckout E W db uid body).mails = [] ∧
    (postCheckout E W db uid body).db = db := by
  simp only [postCheckout, huser, hpc, Option.getD_some, hne, if_false, hfar, Bool.not_false,
    if_true, reply]
  exact ⟨trivial, trivial, trivial, trivial⟩

/-- C20 at a concrete request: `alice`, whose postcode lies 20 miles from the
shop, checks out one Beef Chew Bone. -/
theorem postCheckout_outside_service_area_witness :
    (postCheckout someEngine farWorld emptyShop 1 chewCheckout).resp =
      ⟨403, .error "Your address is outside our 15-mile service area."⟩ ∧
    (postCheckout someEngine farWorld emptyShop 1 chewCheckout).sessions = [] ∧
    (postCheckout someEngine farWorld emptyShop 1 chewCheckout).mails = [] ∧
    (postCheckout someEngine farWorld emptyShop 1 chewCheckout).db = emptyShop :=
  postCheckout_outside_service_area someEngine farWorld emptyShop 1 chewCheckout alice "LA11 6AB"
    rfl rfl (by decide) rfl

/-! ## C21, C22: the delivery range -/

/-- C21. Fail-closed radius: for every postcode, if the coordinate lookup of
the origin postcode or of the target postcode returns `null`,
`withinDeliveryRange` returns false; it returns true only when both lookups
succeeded; and `postcodeToCoords` returns `null` whenever the request throws
or the reply's status is not 200. -/
theorem withinDeliveryRange_fails_closed (W : World) (postcode : String) :
    ((W.postcodeToCoords ORIGIN_POSTCODE = none ∨ W.postcodeToCoords postcode = none) →
      withinDeliveryRange W postcode = false) ∧
    (withinDeliveryRange W postcode = true →
      (W.postcodeToCoords ORIGIN_POSTCODE).isSome = true ∧
      (W.postcodeToCoords postcode).isSome = true) ∧
    (∀ (fetch : String → PostcodeReply) (pc : String),
      (fetch pc = .threw ∨
        ∃ status result, fetch pc = .body status result ∧ isStatus200 status = false) →
      postcodeToCoords fetch pc = none) := by
  refine ⟨?_, ?_, ?_⟩
  · intro h
    unfold withinDeliveryRange
    rcases h with h | h
    · rw [h]
    · rw [h]
      cases W.postcodeToCoords ORIGIN_POSTCODE <;> rfl
  · intro h
    unfold withinDeliveryRange at h
    cases ho : W.postcodeToCoords ORIGIN_POSTCODE with
    | none => rw [ho] at h; cases h
    | some o =>
      cases ht : W.postcodeToCoords postcode with
      | none => rw [ho, ht] at h; cases h
      | some t => exact ⟨rfl, rfl⟩
  · intro fetch pc h
    unfold postcodeToCoords
    rcases h with h | ⟨status, result, h, hs⟩
    · rw [h]
    · rw [h]
      simp only [hs, Bool.false_eq_true, if_false]

/-- C21 at a concrete service: the target postcode is answered with 404, its
lookup returns `null` and the range check is false. -/
theorem withinDeliveryRange_fails_closed_witness :
    postcodeToCoords onlyOriginKnown "ZZ1 1ZZ" = none ∧
    withinDeliveryRange
      (worldOf onlyOriginKnown (fun _ _ => .fin 5 0) (fun _ => none)) "ZZ1 1ZZ" = false :=
  ⟨(withinDeliveryRange_fails_closed sampleWorld "ZZ1 1ZZ").2.2 onlyOriginKnown "ZZ1 1ZZ"
      (Or.inr ⟨_, _, rfl, rfl⟩),
    (withinDeliveryRange_fails_closed
      (worldOf onlyOriginKnown (fun _ _ => .fin 5 0) (fun _ => none)) "ZZ1 1ZZ").1
      (Or.inr rfl)⟩

/-- The comparison `x <= n` of the model is the comparison of the values. -/
theorem leInt_iff_leRat (x : JSNum) (n : Int) : x.leInt n = true ↔ x.leRat n := by
  cases x with
  | nan => simp [JSNum.leInt, JSNum.leRat]
  | posInf => simp [JSNum.leInt, JSNum.leRat]
  | negInf => simp [JSNum.leInt, JSNum.leRat]
  | fin m e =>
    simp only [JSNum.leInt, JSNum.leRat, decide_eq_true_eq]
    have hp : (0 : ℚ) < 2 ^ e := by positivity
    rw [div_le_iff₀ hp]
    constructor
    · intro h
      exact_mod_cast h
    · intro h
      exact_mod_cast h

/-- C22. Inclusive 15-mile threshold: whenever both postcodes resolve to
coordinates, `withinDeliveryRange` returns true if and only if the computed
distance is at most 15 miles; in particular it is true when the distance is
exactly 15 and false when it is 15.01. -/
theorem withinDeliveryRange_threshold (W : World) (postcode : String) (origin target : Coords)
    (ho : W.postcodeToCoords ORIGIN_POSTCODE = some origin)
    (ht : W.postcodeToCoords postcode = some target) :
    (withinDeliveryRange W postcode = true ↔ (W.haversineDistance origin target).leRat 15) ∧
    (W.haversineDistance origin target = .fin 15 0 → withinDeliveryRange W postcode = true) ∧
    (W.haversineDistance origin target = fifteenPointOhOne →
      withinDeliveryRange W postcode = false) := by
  have hw : withinDeliveryRange W postcode = (W.haversineDistance origin target).leInt 15 := by
    simp only [withinDeliveryRange, ho, ht]
  refine ⟨?_, ?_, ?_⟩
  · rw [hw]
    exact_mod_cast leInt_iff_leRat (W.haversineDistance origin target) 15
  · intro h
    rw [hw, h]
    rfl
  · intro h
    rw [hw, h]
    rfl

/-- C22 at concrete distances: in range at exactly 15 miles, out of range at
15.01 miles. -/
theorem withinDeliveryRange_threshold_witness :
    withinDeliveryRange (worldAt (.fin 15 0)) "LA11 6AB" = true ∧
    withinDeliveryRange (worldAt fifteenPointOhOne) "LA11 6AB" = false :=
  ⟨(withinDeliveryRange_threshold (worldAt (.fin 15 0)) "LA11 6AB" _ _ rfl rfl).2.1 rfl,
    (withinDeliveryRange_threshold (worldAt fifteenPointOhOne) "LA11 6AB" _ _ rfl rfl).2.2 rfl⟩

/-! ## C23, C24: order listings -/

/-- Insertion keeps the elements and adds the inserted one. -/
theorem insertDesc_perm {α : Type} (key : α → Nat) (x : α) (l : List α) :
    (insertDesc key x l).Perm (x :: l) := by
  induction l with
  | nil => exact List.Perm.refl _
  | cons y ys ih =>
    simp only [insertDesc]
    split
    · exact List.Perm.refl _
    · exact (List.Perm.cons y ih).trans (List.Perm.swap x y ys)

/-- `ORDER BY` permutes the rows. -/
theorem orderByDesc_perm {α : Type} (key : α → Nat) (l : List α) :
    (orderByDesc key l).Perm l := by
  induction l with
  | nil => exact List.Perm.refl _
  | cons x xs ih =>
    simp only [orderByDesc]
    exact (insertDesc_perm key x _).trans (List.Perm.cons x ih)

/-- Insertion into a list ordered by decreasing key keeps it ordered. -/
theorem insertDesc_sorted {α : Type} (key : α → Nat) (x : α) (l : List α)
    (h : l.Pairwise (fun a b => key b ≤ key a)) :
    (insertDesc key x l).Pairwise (fun a b => key b ≤ key a) := by
  induction l with
  | nil => simp [insertDesc]
  | cons y ys ih =>
    simp only [insertDesc]
    have hy := List.pairwise_cons.mp h
    split
    · rename_i hle
      refine List.pairwise_cons.mpr ⟨?_, h⟩
      intro a ha
      rcases List.mem_cons.mp ha with ha | ha
      · rw [ha]; exact hle
      · exact le_trans (hy.1 a ha) hle
    · rename_i hlt
      refine List.pairwise_cons.mpr ⟨?_, ih hy.2⟩
      intro a ha
      rcases List.mem_cons.mp ((insertDesc_perm key x ys).mem_iff.mp ha) with ha | ha
      · rw [ha]; omega
      · exact hy.1 a ha

/-- `ORDER BY key DESC` returns the rows by decreasing key. -/
theorem orderByDesc_sorted {α : Type} (key : α → Nat) (l : List α) :
    (orderByDesc key l).Pairwise (fun a b => key b ≤ key a) := by
  induction l with
  | nil => exact List.Pairwise.nil
  | cons x xs ih => exact insertDesc_sorted key x _ ih

/-- With pairwise distinct keys `ORDER BY key DESC` is strictly decreasing. -/
theorem orderByDesc_strict {α : Type} (key : α → Nat) (l : List α)
    (h : (l.map key).Nodup) :
    (orderByDesc key l).Pairwise (fun a b => key b < key a) := by
  have hnd : ((orderByDesc key l).map key).Nodup :=
    ((orderByDesc_perm key l).map key).nodup_iff.mpr h
  have hne : (orderByDesc key l).Pairwise (fun a b => key a ≠ key b) :=
    List.pairwise_map.mp hnd
  exact ((orderByDesc_sorted key l).and hne).imp (fun ⟨h1, h2⟩ => by omega)

/-- The orders of the joined rows are the orders that have a user row. -/
theorem joinUsers_orders (db : Db) (l : List Order) :
    (joinUsers db l).map (fun r => r.order) =
      l.filter (fun o => (getUser db o.user_id).isSome) := by
  induction l with
  | nil => rfl
  | cons o rest ih =>
    simp only [joinUsers, List.filterMap_cons, List.filter_cons] at ih ⊢
    cases hu : getUser db o.user_id with
    | none => simpa using ih
    | some u => simpa using ih

/-- The part of a list ordered by strictly decreasing key that `LIMIT n` cuts
off has smaller keys than every row kept. -/
theorem lt_of_not_mem_take {α : Type} (key : α → Nat) (l : List α) (n : Nat)
    (h : l.Pairwise (fun a b => key b < key a)) (x : α) (hx : x ∈ l)
    (hnot : x ∉ l.take n) : (l.take n).length = n ∧ ∀ r ∈ l.take n, key x < key r := by
  have hsplit : l.take n ++ l.drop n = l := List.take_append_drop n l
  have hxd : x ∈ l.drop n := by
    rw [← hsplit] at hx
    rcases List.mem_append.mp hx with h1 | h1
    · exact absurd h1 hnot
    · exact h1
  constructor
  · have hlen : n < l.length := by
      by_contra hc
      have : l.drop n = [] := List.drop_eq_nil_of_le (by omega)
      rw [this] at hxd
      cases hxd
    rw [List.length_take]
    omega
  · intro r hr
    rw [← hsplit] at h
    exact (List.pairwise_append.mp h).2.2 r hr x hxd

/-- C24. For every user and ledger state whose order ids are distinct (the
primary key), `GET /api/orders` returns exactly the order rows whose `user_id`
is the caller's id, none of another user's, by strictly decreasing id. -/
theorem getOrders_own_rows_newest_first (db : Db) (uid : Nat)
    (hkey : (db.orders.map (fun o => o.id)).Nodup) :
    (∀ o, o ∈ getOrders db uid ↔ o ∈ db.orders ∧ o.user_id = uid) ∧
    (getOrders db uid).length = (db.orders.filter (fun o => o.user_id == uid)).length ∧
    (getOrders db uid).Pairwise (fun a b => b.id < a.id) := by
  refine ⟨?_, ?_, ?_⟩
  · intro o
    unfold getOrders
    rw [(orderByDesc_perm _ _).mem_iff, List.mem_filter]
    simp
  · exact (orderByDesc_perm _ _).length_eq
  · unfold getOrders
    apply orderByDesc_strict
    exact (hkey.sublist ((List.filter_sublist _).map _))

/-- C24 at a concrete ledger: `alice` gets her orders 2 and 1, in this order,
and not order 3 of the other user. -/
theorem getOrders_own_rows_newest_first_witness :
    ((∀ o, o ∈ getOrders threeOrders 1 ↔ o ∈ threeOrders.orders ∧ o.user_id = 1) ∧
      (getOrders threeOrders 1).length =
        (threeOrders.orders.filter (fun o => o.user_id == 1)).length ∧
      (getOrders threeOrders 1).Pairwise (fun a b => b.id < a.id)) ∧
    (getOrders threeOrders 1).map (fun o => o.id) = [2, 1] :=
  ⟨getOrders_own_rows_newest_first threeOrders 1 (by decide), rfl⟩

/-- One query of the admin listing, before its `LIMIT`: when order ids are
distinct and every order has its user row, the joined and ordered rows are the
orders selected by `p`, by strictly decreasing id. -/
theorem adminQuery_rows (db : Db) (p : Order → Bool)
    (hkey : (db.orders.map (fun o => o.id)).Nodup)
    (huser : ∀ o ∈ db.orders, (getUser db o.user_id).isSome = true) :
    (∀ o, o ∈ (orderByDesc (fun r : AdminOrderRow => r.order.id)
        (joinUsers db (db.orders.filter p))).map (fun r => r.order) ↔ o ∈ db.orders ∧ p o = true) ∧
    ((orderByDesc (fun r : AdminOrderRow => r.order.id)
        (joinUsers db (db.orders.filter p))).map (fun r => r.order)).Pairwise
      (fun a b => b.id < a.id) := by
  have hjoin : (joinUsers db (db.orders.filter p)).map (fun r => r.order) = db.orders.filter p := by
    rw [joinUsers_orders, List.filter_eq_self]
    intro o ho
    exact huser o (List.mem_filter.mp ho).1
  constructor
  · intro o
    rw [((orderByDesc_perm _ _).map _).mem_iff, hjoin, List.mem_filter]
  · apply List.pairwise_map.mpr
    apply orderByDesc_strict
    have : (joinUsers db (db.orders.filter p)).map (fun r => r.order.id) =
        ((joinUsers db (db.orders.filter p)).map (fun r => r.order)).map (fun o => o.id) := by
      rw [List.map_map]
      rfl
    rw [this, hjoin]
    exact hkey.sublist ((List.filter_sublist _).map _)

/-- C23. Archive partition: for every ledger state whose order ids are
distinct and whose orders all have their user row, and every time `now`, the
active list of the admin listing holds exactly the orders with
`created_at >= now - 5 days`, the archived list holds only older orders, no
order is in both, the archived list has at most 200 rows, an older order is
missing from it only when it is full and then has a smaller id than every row
in it, and both lists are ordered by strictly decreasing id. -/
theorem adminOrders_partition (db : Db) (now : Nat)
    (hkey : (db.orders.map (fun o => o.id)).Nodup)
    (huser : ∀ o ∈ db.orders, (getUser db o.user_id).isSome = true) :
    (∀ o, o ∈ activeList db now ↔ o ∈ db.orders ∧ now ≤ o.created_at + 432000) ∧
    (∀ o ∈ archivedList db now, o ∈ db.orders ∧ o.created_at + 432000 < now) ∧
    (∀ o ∈ activeList db now, o ∉ archivedList db now) ∧
    (archivedList db now).length ≤ 200 ∧
    (∀ o ∈ db.orders, o.created_at + 432000 < now → o ∉ archivedList db now →
      (archivedList db now).length = 200 ∧ ∀ r ∈ archivedList db now, o.id < r.id) ∧
    (activeList db now).Pairwise (fun a b => b.id < a.id) ∧
    (archivedList db now).Pairwise (fun a b => b.id < a.id) := by
  obtain ⟨hact, hactS⟩ := adminQuery_rows db
    (fun o => decide (now ≤ o.created_at + FIVE_DAYS)) hkey huser
  obtain ⟨harc, harcS⟩ := adminQuery_rows db
    (fun o => decide (o.created_at + FIVE_DAYS < now)) hkey huser
  have hA : activeList db now = (orderByDesc (fun r : AdminOrderRow => r.order.id)
      (joinUsers db (db.orders.filter (fun o => decide (now ≤ o.created_at + FIVE_DAYS))))).map
      (fun r => r.order) := rfl
  have hR : archivedList db now = ((orderByDesc (fun r : AdminOrderRow => r.order.id)
      (joinUsers db (db.orders.filter (fun o => decide (o.created_at + FIVE_DAYS < now))))).map
      (fun r => r.order)).take 200 := by
    simp only [archivedList, archivedOrders, List.map_take]
  simp only [FIVE_DAYS, decide_eq_true_eq] at hact harc
  have hRmem : ∀ o ∈ archivedList db now, o ∈ db.orders ∧ o.created_at + 432000 < now := by
    intro o ho
    rw [hR] at ho
    exact (harc o).mp (List.mem_of_mem_take ho)
  refine ⟨?_, hRmem, ?_, ?_, ?_, ?_, ?_⟩
  · intro o
    rw [hA]
    exact hact o
  · intro o ho hor
    rw [hA] at ho
    have h1 := ((hact o).mp ho).2
    have h2 := (hRmem o hor).2
    omega
  · rw [hR, List.length_take]
    omega
  · intro o ho hold hnot
    rw [hR] at hnot ⊢
    exact lt_of_not_mem_take (fun o : Order => o.id) _ 200 harcS o ((harc o).mpr ⟨ho, hold⟩) hnot
  · rw [hA]
    exact hactS
  · rw [hR]
    exact harcS.sublist (List.take_sublist _ _)

/-- C23 at a concrete ledger and `now = 1000000`: the order created 4 days 23
hours earlier (order 2) is active, the one created 5 days 1 hour earlier
(order 1) is archived. -/
theorem adminOrders_partition_witness :
    ((∀ o, o ∈ activeList threeOrders 1000000 ↔
        o ∈ threeOrders.orders ∧ 1000000 ≤ o.created_at + 432000) ∧
      (∀ o ∈ archivedList threeOrders 1000000,
        o ∈ threeOrders.orders ∧ o.created_at + 432000 < 1000000) ∧
      (∀ o ∈ activeList threeOrders 1000000, o ∉ archivedList threeOrders 1000000) ∧
      (archivedList threeOrders 1000000).length ≤ 200 ∧
      (∀ o ∈ threeOrders.orders, o.created_at + 432000 < 1000000 →
        o ∉ archivedList threeOrders 1000000 →
        (archivedList threeOrders 1000000).length = 200 ∧
        ∀ r ∈ archivedList threeOrders 1000000, o.id < r.id) ∧
      (activeList threeOrders 1000000).Pairwise (fun a b => b.id < a.id) ∧
      (archivedList threeOrders 1000000).Pairwise (fun a b => b.id < a.id)) ∧
    (activeList threeOrders 1000000).map (fun o => o.id) = [3, 2] ∧
    (archivedList threeOrders 1000000).map (fun o => o.id) = [1] :=
  ⟨adminOrders_partition threeOrders 1000000 (by decide)
      (by
        intro o ho
        simp only [threeOrders, List.mem_cons, List.mem_singleton, List.not_mem_nil,
          or_false] at ho
        rcases ho with h | h | h <;> rw [h] <;> rfl),
    rfl, rfl⟩

/-! ## C26: line names -/

/-- The first element left by `dropWhile` does not satisfy the predicate. -/
theorem head_dropWhile_not {α : Type} (p : α → Bool) (l : List α) (c : α)
    (h : (l.dropWhile p).head? = some c) : p c = false := by
  induction l with
  | nil => cases h
  | cons x xs ih =>
    simp only [List.dropWhile_cons] at h
    split at h
    · exact ih h
    · rename_i hx
      simp only [List.head?_cons, Option.some.injEq] at h
      rw [← h]
      simpa using hx

/-- `trim` removes leading and trailing white space and nothing else. -/
theorem jsTrim_isTrimOf (s : JsString) : isTrimOf (jsTrim s).data s.data := by
  refine ⟨s.data.takeWhile isJsSpace,
    ((s.data.dropWhile isJsSpace).reverse.takeWhile isJsSpace).reverse, ?_, ?_, ?_, ?_, ?_⟩
  · simp only [jsTrim]
    rw [List.append_assoc, ← List.reverse_append, List.takeWhile_append_dropWhile,
      List.reverse_reverse, List.takeWhile_append_dropWhile]
  · intro c hc
    exact List.mem_takeWhile_imp hc
  · intro c hc
    exact List.mem_takeWhile_imp (List.mem_reverse.mp hc)
  · intro c hc
    simp only [jsTrim] at hc
    have hd : s.data.dropWhile isJsSpace =
        ((s.data.dropWhile isJsSpace).reverse.dropWhile isJsSpace).reverse ++
        ((s.data.dropWhile isJsSpace).reverse.takeWhile isJsSpace).reverse := by
      rw [← List.reverse_append, List.takeWhile_append_dropWhile, List.reverse_reverse]
    apply head_dropWhile_not isJsSpace s.data c
    rw [hd]
    cases ht : ((s.data.dropWhile isJsSpace).reverse.dropWhile isJsSpace).reverse with
    | nil => rw [ht] at hc; cases hc
    | cons x xs =>
      rw [ht] at hc
      simpa using hc
  · intro c hc
    simp only [jsTrim, List.getLast?_reverse] at hc
    exact head_dropWhile_not isJsSpace _ c hc

/-- The name `safeText(name, 160)` gives. -/
theorem safeText_name (rawName : JVal) :
    (safeText rawName 160).length ≤ 160 ∧
    (∀ s, rawName = .str s →
      ∃ trimmed, isTrimOf trimmed s.data ∧ (safeText rawName 160).data = trimmed.take 160) ∧
    ((∀ s, rawName ≠ .str s) → (safeText rawName 160).data = []) := by
  refine ⟨?_, ?_, ?_⟩
  · cases rawName with
    | str s => exact List.length_take_le 160 _
    | undefined => exact Nat.zero_le 160
    | null => exact Nat.zero_le 160
    | bool b => exact Nat.zero_le 160
    | num n => exact Nat.zero_le 160
    | arr l => exact Nat.zero_le 160
    | obj fs => exact Nat.zero_le 160
  · intro s hs
    subst hs
    exact ⟨(jsTrim s).data, jsTrim_isTrimOf s, rfl⟩
  · intro h
    cases rawName with
    | str s => exact absurd rfl (h s)
    | undefined => rfl
    | null => rfl
    | bool b => rfl
    | num n => rfl
    | arr l => rfl
    | obj fs => rfl

/-- C26. For every cart that `validateItemsPayload` accepts, each output
line's name is a string of at most 160 characters (UTF-16 code units, the
unit of `slice`): for a string input name, the first 160 code units of the
input without its leading and trailing white space; and the empty string when
the input name is not a string. -/
theorem validateItemsPayload_name_sanitised (E : Engine) (l : List JVal)
    (cleaned : List CleanItem) (h : validateItemsPayload E (.arr l) = .ok (some cleaned)) :
    List.Forall₂ lineNameSanitised l cleaned := by
  refine ((validateItemsPayload_eq_some E l cleaned).mp h).2.imp ?_
  intro i c hic
  obtain ⟨_, _, _, rawName, _, _, _, _, _, _, _, hname, _, _, hc, _⟩ :=
    validateLine_eq_some E i c hic
  refine ⟨rawName, hname, ?_⟩
  rw [hc]
  exact safeText_name rawName

set_option maxRecDepth 20000 in
/-- C26 at a concrete cart: a padded name is trimmed, a number as name gives
the empty string, and a name of 159 letters followed by a character outside
the basic plane is cut inside that character, after its first code unit. -/
theorem validateItemsPayload_name_sanitised_witness :
    List.Forall₂ lineNameSanitised
      [ .obj [("id", .num (.fin 1 0)), ("qty", .num (.fin 2 0)), ("name", .str "  Dog Collar \n")],
        .obj [("id", .num (.fin 2 0)), ("qty", .num (.fin 1 0)), ("name", .num (.fin 5 0))],
        .obj [("id", .num (.fin 3 0)), ("qty", .num (.fin 1 0)),
          ("name", .str ⟨List.replicate 159 97 ++ [0xD83D, 0xDC36]⟩)] ]
      [ { id := .fin 1 0, qty := .fin 2 0, name := "Dog Collar", price_cents := .fin 0 0 },
        { id := .fin 2 0, qty := .fin 1 0, name := "", price_cents := .fin 0 0 },
        { id := .fin 3 0, qty := .fin 1 0, name := ⟨List.replicate 159 97 ++ [0xD83D]⟩,
          price_cents := .fin 0 0 } ] :=
  validateItemsPayload_name_sanitised someEngine _ _ rfl

/-! ## C27: fields omitted from an admin update -/

/-- The `UPDATE` rewrites the three admin columns of the rows with the given
id and nothing else. -/
theorem updateOrderRows_forall₂ (id : JSNum) (s d n : String) (orders : List Order) :
    List.Forall₂ (fun o o2 =>
      (id.sqlEq (.ofInt o.id) = true →
        o2 = { o with admin_status := some s, delivery_date := some d, admin_note := some n }) ∧
      (id.sqlEq (.ofInt o.id) = false → o2 = o)) orders (updateOrderRows id s d n orders) := by
  induction orders with
  | nil => exact List.Forall₂.nil
  | cons o rest ih =>
    refine List.Forall₂.cons ?_ ih
    by_cases h : id.sqlEq (.ofInt o.id) = true
    · simp [h]
    · simp [h]

/-- C27. For every order and every `PUT /api/admin/orders/:id` request of an
administrator with a usable id, each of the fields `admin_status`,
`delivery_date` and `admin_note` that the body omits is reset in the targeted
order to its default (`awaiting`, the empty string, the empty string), not
left as stored; the order's other columns, the other orders and the other
tables are unchanged. -/
theorem putAdminOrder_resets_omitted_fields (E : Engine) (db : Db) (uid : Nat)
    (idParam : String) (body : AdminOrderBody)
    (hadmin : isAdmin db uid = true) (hid : (stringToNumber E idParam).truthy = true) :
    (putAdminOrder E db uid idParam body).resp.status = 200 ∧
    (putAdminOrder E db uid idParam body).db.users = db.users ∧
    (putAdminOrder E db uid idParam body).db.items = db.items ∧
    List.Forall₂ (omittedFieldsReset E idParam body) db.orders
      (putAdminOrder E db uid idParam body).db.orders := by
  simp only [putAdminOrder, hadmin, hid, Bool.not_true, Bool.false_eq_true, if_false, reply]
  refine ⟨trivial, trivial, trivial, ?_⟩
  refine (updateOrderRows_forall₂ _ _ _ _ db.orders).imp ?_
  intro o o2 ⟨hhit, hmiss⟩
  refine ⟨fun h => ?_, hmiss⟩
  have ho := hhit h
  refine ⟨fun hb => ?_, fun hb => ?_, fun hb => ?_, ?_⟩
  · rw [ho, hb]; rfl
  · rw [ho, hb]; rfl
  · rw [ho, hb]; rfl
  · rw [ho]

/-- C27 at a concrete request: an empty body sent for an order with status
`ready`, a delivery date and a note leaves it with status `awaiting`, an empty
date and an empty note. -/
theorem putAdminOrder_resets_omitted_fields_witness :
    ((putAdminOrder someEngine shopWithEditedOrder 2 "1" emptyAdminBody).resp.status = 200 ∧
      (putAdminOrder someEngine shopWithEditedOrder 2 "1" emptyAdminBody).db.users =
        shopWithEditedOrder.users ∧
      (putAdminOrder someEngine shopWithEditedOrder 2 "1" emptyAdminBody).db.items =
        shopWithEditedOrder.items ∧
      List.Forall₂ (omittedFieldsReset someEngine "1" emptyAdminBody) shopWithEditedOrder.orders
        (putAdminOrder someEngine shopWithEditedOrder 2 "1" emptyAdminBody).db.orders) ∧
    (putAdminOrder someEngine shopWithEditedOrder 2 "1" emptyAdminBody).db.orders.map
      (fun o => (o.admin_status, o.delivery_date, o.admin_note)) =
      [(some "awaiting", some "", some "")] :=
  ⟨putAdminOrder_resets_omitted_fields someEngine shopWithEditedOrder 2 "1" emptyAdminBody
    rfl rfl, rfl⟩

/-! ## C28: validating a validated cart -/

/-- `dropWhile` removes nothing from a list whose first element fails the test. -/
theorem dropWhile_of_head {α : Type} (p : α → Bool) (l : List α)
    (h : ∀ c, l.head? = some c → p c = false) : l.dropWhile p = l := by
  cases l with
  | nil => rfl
  | cons x xs => simp [List.dropWhile_cons, h x rfl]

/-- `trim` leaves a text that neither starts nor ends with white space as it is. -/
theorem jsTrim_of_trimmed (s : JsString)
    (hhead : ∀ c, s.data.head? = some c → isJsSpace c = false)
    (hlast : ∀ c, s.data.getLast? = some c → isJsSpace c = false) : jsTrim s = s := by
  simp only [jsTrim]
  rw [dropWhile_of_head isJsSpace s.data hhead,
    dropWhile_of_head isJsSpace s.data.reverse (by simpa [List.head?_reverse] using hlast),
    List.reverse_reverse]

/-- A name produced by `safeText` does not start with white space. -/
theorem safeText_head (rawName : JVal) (n : Nat) (c : Nat)
    (h : (safeText rawName n).data.head? = some c) : isJsSpace c = false := by
  cases rawName with
  | str s =>
    obtain ⟨_, _, _, _, _, hhead, _⟩ := jsTrim_isTrimOf s
    apply hhead
    obtain ⟨t, ht⟩ := List.take_prefix n (jsTrim s).data
    have h2 : ((jsTrim s).data.take n).head? = some c := h
    rw [← ht]
    cases htk : (jsTrim s).data.take n with
    | nil => rw [htk] at h2; cases h2
    | cons x xs => rw [htk] at h2; simpa using h2
  | undefined => cases h
  | null => cases h
  | bool b => cases h
  | num m => cases h
  | arr l => cases h
  | obj fs => cases h

/-- `Math.round` of an integer is that integer. -/
theorem round_int (k : Int) : JSNum.round (.fin k 0) = .fin k 0 := by
  simp only [JSNum.round, pow_zero, zero_add, pow_one]
  congr 1
  omega

/-- An accepted line, written back as an object, is accepted again and gives
the same line, provided its name does not end with white space. -/
theorem validateLine_toJVal (E : Engine) (i : JVal) (c : CleanItem)
    (h : validateLine E i = .ok (some c))
    (hend : ∀ ch, c.name.data.getLast? = some ch → isJsSpace ch = false) :
    validateLine E c.toJVal = .ok (some c) := by
  obtain ⟨raw, k, _, hk, hk0, hkcap, _, _⟩ := validateLine_price E i c h
  obtain ⟨_, _, _, rawName, _, _, _, _, _, _, _, _, ⟨h1, h2, h3⟩, ⟨h4, h5, h6⟩, hname, _⟩ :=
    validateLine_eq_some E i c h
  have hunits : c.name.data.length ≤ 160 := by rw [hname]; exact (safeText_name rawName).1
  have htrim : jsTrim c.name = c.name :=
    jsTrim_of_trimmed c.name (fun ch hch => safeText_head rawName 160 ch (by rw [← hname]; exact hch))
      hend
  have hsafe : safeText (.str c.name) 160 = c.name := by
    simp only [safeText, jsSlice, htrim]
    rw [List.take_of_length_le hunits]
  have hprice : safePrice E (.num c.price_cents) = .ok (some c.price_cents) := by
    rw [safePrice_eq E (.num c.price_cents) c.price_cents rfl, hk, round_int]
    have hr : JSNum.inRange 0 PRICE_CAP (.fin k 0) = true := by
      simp only [JSNum.inRange, PRICE_CAP, pow_zero, mul_one, Bool.and_eq_true,
        decide_eq_true_eq]
      omega
    rw [hr]
    rfl
  have hg1 : (!c.id.truthy || c.id.ltInt 0 || !c.id.isInteger) = false := by
    rw [h1, h2, h3]; rfl
  have hg2 : (!c.qty.truthy || c.qty.ltInt 1 || c.qty.gtInt 99) = false := by
    rw [h4, h5, h6]; rfl
  have hid : getField c.toJVal "id" = .ok (.num c.id) := rfl
  have hqty : getField c.toJVal "qty" = .ok (.num c.qty) := rfl
  have hpr : getField c.toJVal "price_cents" = .ok (.num c.price_cents) := rfl
  have hnm : getField c.toJVal "name" = .ok (.str c.name) := rfl
  have hz : priceOrZero (.num c.price_cents) = .num c.price_cents := rfl
  simp only [validateLine, hid, hqty, hpr, hnm, toNumber, hz, hprice, hg1, hg2, hsafe,
    priceOrDefault, Bool.false_eq_true, if_false]

/-- C28 (as amended). For every cart that `validateItemsPayload` accepts and
whose returned names do not end with white space, applying
`validateItemsPayload` to the returned list gives a list equal to it. -/
theorem validateItemsPayload_idempotent (E : Engine) (l : List JVal)
    (cleaned : List CleanItem) (h : validateItemsPayload E (.arr l) = .ok (some cleaned))
    (hend : ∀ c ∈ cleaned, ∀ ch, c.name.data.getLast? = some ch → isJsSpace ch = false) :
    validateItemsPayload E (.arr (cleaned.map CleanItem.toJVal)) = .ok (some cleaned) := by
  obtain ⟨hlen, hall⟩ := (validateItemsPayload_eq_some E l cleaned).mp h
  have hl := hall.length_eq
  refine (validateItemsPayload_eq_some E _ cleaned).mpr ⟨by simpa [← hl] using hlen, ?_⟩
  clear hlen hl h
  induction hall with
  | nil => exact List.Forall₂.nil
  | @cons i c is cs hic _ ih =>
    exact List.Forall₂.cons
      (validateLine_toJVal E i c hic (hend c (List.mem_cons_self c cs)))
      (ih (fun x hx => hend x (List.mem_cons_of_mem c hx)))

/-- C28 (as amended) at a concrete cart: the pushed line for one Beef Chew
Bone validates to itself. -/
theorem validateItemsPayload_idempotent_witness :
    validateItemsPayload someEngine (.arr [chewLine]) = .ok (some [chewClean]) ∧
    validateItemsPayload someEngine (.arr ([chewClean].map CleanItem.toJVal)) =
      .ok (some [chewClean]) :=
  ⟨rfl, validateItemsPayload_idempotent someEngine [chewLine] [chewClean] rfl (by
    intro c hc ch hch
    rw [List.mem_singleton] at hc
    subst hc
    obtain rfl : 101 = ch := Option.some.inj hch
    rfl)⟩

set_option maxRecDepth 20000 in
/-- C28 as stated fails: a name of 161 characters whose 160th is a blank is
cut after the blank by the first pass, and the second pass trims that blank
away, so the second result differs from the first. -/
theorem validateItemsPayload_idempotent_counterexample :
    validateItemsPayload someEngine (.arr [paddedLine]) = .ok (some [paddedOnce]) ∧
    validateItemsPayload someEngine (.arr ([paddedOnce].map CleanItem.toJVal)) =
      .ok (some [paddedTwice]) ∧
    paddedOnce ≠ paddedTwice :=
  ⟨rfl, rfl, fun h => absurd (congrArg (fun c => c.name.length) h) (by decide)⟩

/-! ## C25: the stored delivery method -/

/-- A request to `POST /api/orders` either leaves the database as it was or is
answered with the id of a new order. -/
theorem postOrders_cases (E : Engine) (db : Db) (now uid : Nat) (body : OrderBody) (m : Bool) :
    (postOrders E db now uid body m).db = db ∨
    ∃ id, (postOrders E db now uid body m).resp = ⟨200, .order id false⟩ := by
  by_cases h : (postOrders E db now uid body m).resp.status = 200
  · cases hitems : body.items with
    | arr l =>
      cases l with
      | nil => simp [postOrders, hitems, reply] at h
      | cons i rest =>
        cases hval : validateItemsPayload E (.arr (i :: rest)) with
        | error e => simp [postOrders, hitems, hval, reply] at h
        | ok r =>
          cases r with
          | none => simp [postOrders, hitems, hval, reply] at h
          | some cleaned =>
            cases hprice : safePrice E body.total_cents with
            | error e => simp [postOrders, hitems, hval, hprice, reply] at h
            | ok t =>
              cases t with
              | none => simp [postOrders, hitems, hval, hprice, reply] at h
              | some total =>
                cases hbind : bindText E (deliveryOrDefault body.delivery_method) with
                | error e => simp [postOrders, hitems, hval, hprice, hbind, reply] at h
                | ok delivery =>
                  cases hfind : findRecentDuplicate db now uid total delivery
                      (cleanedJson cleaned) with
                  | some ex =>
                    left
                    simp only [postOrders, hitems, hval, hprice, hbind, hfind, reply]
                  | none =>
                    cases haddr : getUser db uid with
                    | none =>
                      simp [postOrders, hitems, hval, hprice, hbind, hfind, haddr, reply] at h
                    | some user =>
                      right
                      refine ⟨nextOrderId db, ?_⟩
                      simp only [postOrders, hitems, hval, hprice, hbind, hfind, haddr]
                      split <;> rfl
    | undefined => simp [postOrders, hitems, reply] at h
    | null => simp [postOrders, hitems, reply] at h
    | bool b => simp [postOrders, hitems, reply] at h
    | num n => simp [postOrders, hitems, reply] at h
    | str s => simp [postOrders, hitems, reply] at h
    | obj fs => simp [postOrders, hitems, reply] at h
  · exact Or.inl (postOrders_unchanged_of_error E db now uid body m h)

/-- The row a successful, non-deduplicated `POST /api/orders` appends. -/
theorem postOrders_appended_row (E : Engine) (db : Db) (now uid : Nat) (body : OrderBody)
    (m : Bool) (id : Nat) (h : (postOrders E db now uid body m).resp = ⟨200, .order id false⟩) :
    ∃ row, (postOrders E db now uid body m).db.orders = db.orders ++ [row] ∧ row.id = id ∧
      bindText E (deliveryOrDefault body.delivery_method) = .ok row.delivery_method ∧
      ∃ user, getUser db uid = some user ∧ row.address_json = some user := by
  obtain ⟨i, rest, cleaned, total, delivery, hitems, hval, hprice, hbind, hcase⟩ :=
    postOrders_order_inv E db now uid body m id false h
  rcases hcase with ⟨hd, _⟩ | ⟨_, hid, hfind, user, huser, hdb⟩
  · cases hd
  · refine ⟨placedOrder (nextOrderId db) uid (cleanedJson cleaned) (some user) delivery total now,
      ?_, hid.symm, hbind, user, huser, rfl⟩
    rw [hdb]
    rfl

/-- The `try` block of the webhook either leaves the database as it was or
inserts the paid order of the metadata's user, with the metadata's delivery
method. -/
theorem webhookProcess_cases (E : Engine) (db : Db) (now : Nat) (ev : Event) (m : Bool) :
    (webhookProcess E db now ev m).1 = db ∨
    ∃ meta user items, ev.metadata = some meta ∧ eventUser E db ev = some user ∧
      parseItemsMeta meta.items_json = .ok items ∧
      (webhookProcess E db now ev m).1 = insertOrder db
        (paidOrder (nextOrderId db) user (jsonify items)
          (meta.delivery_method.map (storedText E)) ev.amount_total now) := by
  cases hU : eventUser E db ev with
  | none => exact Or.inl (webhookProcess_of_missing_user E db now ev m hU).1
  | some user =>
    cases hmeta : ev.metadata with
    | none => simp [eventUser, hmeta] at hU
    | some meta =>
      cases hid : meta.user_id with
      | none => simp [eventUser, hmeta, hid] at hU
      | some s =>
        have huser : (stringToNumber E s).toNat?.bind (getUser db) = some user := by
          simpa [eventUser, hmeta, hid] using hU
        cases hit : meta.items_json with
        | malformed =>
          exact Or.inl (webhookProcess_of_malformed E db now ev m ⟨meta, hmeta, hit⟩).1
        | absent =>
          exact Or.inr ⟨meta, user, .arr [], rfl, rfl, by rw [hit]; rfl,
            webhookProcess_inserts E db now ev meta s user (.arr []) m hmeta hid huser
              (by rw [hit]; rfl)⟩
        | parsed v =>
          exact Or.inr ⟨meta, user, v, rfl, rfl, by rw [hit]; rfl,
            webhookProcess_inserts E db now ev meta s user v m hmeta hid huser
              (by rw [hit]; rfl)⟩

/-- A webhook request either leaves the database as it was or is a verified
`checkout.session.completed` event for which the paid order is inserted. -/
theorem stripeWebhook_cases (E : Engine) (db : Db) (now : Nat) (req : WebhookRequest)
    (m : Bool) :
    (stripeWebhook E db now req m).db = db ∨
    ∃ ev meta user items, req = .verified ev ∧ ev.type = "checkout.session.completed" ∧
      ev.metadata = some meta ∧ eventUser E db ev = some user ∧
      parseItemsMeta meta.items_json = .ok items ∧
      (stripeWebhook E db now req m).db = insertOrder db
        (paidOrder (nextOrderId db) user (jsonify items)
          (meta.delivery_method.map (storedText E)) ev.amount_total now) := by
  cases req with
  | badSignature message => exact Or.inl rfl
  | verified ev =>
    by_cases htype : ev.type = "checkout.session.completed"
    · rw [stripeWebhook_completed E db now ev m htype]
      rcases webhookProcess_cases E db now ev m with h | ⟨meta, user, items, h1, h2, h3, h4⟩
      · exact Or.inl h
      · exact Or.inr ⟨ev, meta, user, items, rfl, htype, h1, h2, h3, h4⟩
    · left
      simp only [stripeWebhook, htype, if_false, reply]

/-- C25 (as amended). Every order row that `POST /api/orders` inserts carries
as `delivery_method` the value the client sent, as the statement binds it: the
string itself when it is a string, bare or as the single element of an array,
`collect` when the property is absent, `NULL` when it is `null`; every row the
webhook inserts carries the delivery method of the session metadata, `NULL`
when the metadata has none.  Neither path restricts the value to `collect` or
`deliver`. -/
theorem inserted_delivery_method_is_client_value (E : Engine) (db : Db) (now : Nat) :
    (∀ (uid : Nat) (body : OrderBody) (m : Bool),
      (postOrders E db now uid body m).db.orders = db.orders ∨
      ∃ row, (postOrders E db now uid body m).db.orders = db.orders ++ [row] ∧
        bindText E (deliveryOrDefault body.delivery_method) = .ok row.delivery_method ∧
        (∀ s, body.delivery_method = .str s → row.delivery_method = some (storedText E s)) ∧
        (∀ s, body.delivery_method = .arr [.str s] →
          row.delivery_method = some (storedText E s)) ∧
        (body.delivery_method = .undefined → row.delivery_method = some "collect") ∧
        (isNullDelivery body.delivery_method = true → row.delivery_method = none)) ∧
    (∀ (req : WebhookRequest) (m : Bool),
      (stripeWebhook E db now req m).db.orders = db.orders ∨
      ∃ ev meta row, req = .verified ev ∧ ev.metadata = some meta ∧
        (stripeWebhook E db now req m).db.orders = db.orders ++ [row] ∧
        row.delivery_method = meta.delivery_method.map (storedText E)) := by
  constructor
  · intro uid body m
    rcases postOrders_cases E db now uid body m with h | ⟨id, h⟩
    · exact Or.inl (by rw [h])
    · obtain ⟨row, horders, _, hbind, _⟩ := postOrders_appended_row E db now uid body m id h
      refine Or.inr ⟨row, horders, hbind, ?_, ?_, ?_, ?_⟩
      · intro s hs
        rw [hs] at hbind
        have hb : (Except.ok (some (storedText E s)) : Except JsError (Option String)) =
            .ok row.delivery_method := hbind
        exact (Except.ok.inj hb).symm
      · intro s hs
        rw [hs] at hbind
        have hb : (Except.ok (some (storedText E s)) : Except JsError (Option String)) =
            .ok row.delivery_method := hbind
        exact (Except.ok.inj hb).symm
      · intro hu
        rw [hu] at hbind
        have hb : (Except.ok (some "collect") : Except JsError (Option String)) =
            .ok row.delivery_method := hbind
        exact (Except.ok.inj hb).symm
      · intro hnull
        cases hdel : row.delivery_method with
        | none => rfl
        | some t =>
          exfalso
          rw [hdel] at hbind
          cases hdm : body.delivery_method with
          | undefined => rw [hdm] at hnull; cases hnull
          | null => rw [hdm] at hbind; cases hbind
          | bool b => rw [hdm] at hnull; cases hnull
          | num n =>
            rw [hdm] at hnull hbind
            cases n with
            | nan => cases hbind
            | posInf => cases hnull
            | negInf => cases hnull
            | fin a b => cases hnull
          | str s => rw [hdm] at hnull; cases hnull
          | obj fs => rw [hdm] at hnull; cases hnull
          | arr l =>
            rw [hdm] at hnull hbind
            cases l with
            | nil => cases hnull
            | cons x xs =>
              cases xs with
              | cons y ys => cases hnull
              | nil =>
                cases x with
                | undefined => cases hbind
                | null => cases hbind
                | bool b => cases hnull
                | num n =>
                  cases n with
                  | nan => cases hbind
                  | posInf => cases hnull
                  | negInf => cases hnull
                  | fin a b => cases hnull
                | str s => cases hnull
                | arr l2 => cases hnull
                | obj fs => cases hnull
  · intro req m
    rcases stripeWebhook_cases E db now req m with h | ⟨ev, meta, user, items, h1, _, h3, _, _, h6⟩
    · exact Or.inl (by rw [h])
    · exact Or.inr ⟨ev, meta, _, h1, h3, by rw [h6]; rfl, rfl⟩

/-- C25 (as amended) at concrete requests: the order of `alice` for collection
is stored with `collect`, and so is her paid session by the webhook. -/
theorem inserted_delivery_method_is_client_value_witness :
    ((postOrders someEngine emptyShop 1000 1 chewOrder true).db.orders = emptyShop.orders ∨
      ∃ row, (postOrders someEngine emptyShop 1000 1 chewOrder true).db.orders =
          emptyShop.orders ++ [row] ∧
        bindText someEngine (deliveryOrDefault chewOrder.delivery_method) =
          .ok row.delivery_method ∧
        (∀ s, chewOrder.delivery_method = .str s →
          row.delivery_method = some (storedText someEngine s)) ∧
        (∀ s, chewOrder.delivery_method = .arr [.str s] →
          row.delivery_method = some (storedText someEngine s)) ∧
        (chewOrder.delivery_method = .undefined → row.delivery_method = some "collect") ∧
        (isNullDelivery chewOrder.delivery_method = true → row.delivery_method = none)) ∧
    ((stripeWebhook someEngine emptyShop 1000 (.verified chewEvent) true).db.orders =
        emptyShop.orders ∨
      ∃ ev meta row, WebhookRequest.verified chewEvent = .verified ev ∧ ev.metadata = some meta ∧
        (stripeWebhook someEngine emptyShop 1000 (.verified chewEvent) true).db.orders =
          emptyShop.orders ++ [row] ∧
        row.delivery_method = meta.delivery_method.map (storedText someEngine)) ∧
    (postOrders someEngine emptyShop 1000 1 chewOrder true).db.orders.map
      (fun o => o.delivery_method) = [some "collect"] ∧
    (stripeWebhook someEngine emptyShop 1000 (.verified chewEvent) true).db.orders.map
      (fun o => o.delivery_method) = [some "collect"] :=
  ⟨(inserted_delivery_method_is_client_value someEngine emptyShop 1000).1 1 chewOrder true,
    (inserted_delivery_method_is_client_value someEngine emptyShop 1000).2 (.verified chewEvent)
      true,
    rfl, rfl⟩

/-- C25 as stated fails: a request with delivery method `pigeon`, bare or as
`["pigeon"]`, is answered 200 and the row is stored with `pigeon` on the
manual path; on the payment path the checkout requests a session with that
value, and the webhook stores the row of the paid session with `pigeon`. -/
theorem inserted_delivery_method_counterexample :
    (postOrders someEngine emptyShop 1000 1 pigeonOrder true).resp = ⟨200, .order 1 false⟩ ∧
    (postOrders someEngine emptyShop 1000 1 pigeonOrder true).db.orders.map
      (fun o => o.delivery_method) = [some "pigeon"] ∧
    (postOrders someEngine emptyShop 1000 1
      { pigeonOrder with delivery_method := .arr [.str "pigeon"] } true).db.orders.map
      (fun o => o.delivery_method) = [some "pigeon"] ∧
    (postCheckout someEngine sampleWorld emptyShop 1 pigeonCheckout).sessions.map
      (fun s => completedEvent s (.fin 799 0)) = [some pigeonEvent] ∧
    (stripeWebhook someEngine emptyShop 1000 (.verified pigeonEvent) true).db.orders.map
      (fun o => o.delivery_method) = [some "pigeon"] ∧
    "pigeon" ≠ "collect" ∧ "pigeon" ≠ "deliver" :=
  ⟨rfl, rfl, rfl, rfl, rfl, by decide, by decide⟩

/-! ## C29: redelivery of a webhook event -/

/-- The rowid after an insert lies above the inserted rowid. -/
theorem nextOrderId_insertOrder (db : Db) (o : Order) :
    o.id < nextOrderId (insertOrder db o) := by
  simp only [nextOrderId, insertOrder]
  omega

/-- The rows a sequence of deliveries of one event appends, with their rowids
bounded below by the next free rowid. -/
theorem deliverAll_rows (E : Engine) (ev : Event) (meta : EventMeta) (s : JsString)
    (user : User) (items : JVal)
    (htype : ev.type = "checkout.session.completed")
    (hmeta : ev.metadata = some meta) (hid : meta.user_id = some s)
    (hitems : parseItemsMeta meta.items_json = .ok items)
    (deliveries : List (Nat × Bool)) (db : Db)
    (huser : (stringToNumber E s).toNat?.bind (getUser db) = some user) :
    ∃ rows, (deliverAll E ev db deliveries).orders = db.orders ++ rows ∧
      rows.length = deliveries.length ∧
      (∀ r ∈ rows, r.user_id = user.id ∧ r.items_json = jsonify items ∧
        r.delivery_method = meta.delivery_method.map (storedText E) ∧
        r.total_cents = ev.amount_total ∧
        r.status = "paid") ∧
      (∀ r ∈ rows, nextOrderId db ≤ r.id) ∧
      rows.Pairwise (fun a b => a.id < b.id) := by
  induction deliveries generalizing db with
  | nil => exact ⟨[], by simp [deliverAll], rfl, by simp, by simp, List.Pairwise.nil⟩
  | cons d rest ih =>
    obtain ⟨now, m⟩ := d
    have hstep : (stripeWebhook E db now (.verified ev) m).db = insertOrder db
        (paidOrder (nextOrderId db) user (jsonify items)
        (meta.delivery_method.map (storedText E)) ev.amount_total now) := by
      rw [stripeWebhook_completed E db now ev m htype]
      exact webhookProcess_inserts E db now ev meta s user items m hmeta hid huser hitems
    obtain ⟨rows, horders, hlen, hsame, hids, hpair⟩ := ih
      (insertOrder db
        (paidOrder (nextOrderId db) user (jsonify items)
        (meta.delivery_method.map (storedText E)) ev.amount_total now))
      huser
    have hnext := nextOrderId_insertOrder db
      (paidOrder (nextOrderId db) user (jsonify items)
        (meta.delivery_method.map (storedText E)) ev.amount_total now)
    have hrow : (paidOrder (nextOrderId db) user (jsonify items)
        (meta.delivery_method.map (storedText E)) ev.amount_total now).id =
        nextOrderId db := rfl
    refine ⟨paidOrder (nextOrderId db) user (jsonify items)
        (meta.delivery_method.map (storedText E)) ev.amount_total now
      :: rows, ?_, ?_, ?_, ?_, ?_⟩
    · simp only [deliverAll, hstep]
      rw [horders]
      simp only [insertOrder, List.append_assoc, List.singleton_append]
    · simp [hlen]
    · intro r hr
      rcases List.mem_cons.mp hr with h | h
      · subst h
        exact ⟨rfl, rfl, rfl, rfl, rfl⟩
      · exact hsame r h
    · intro r hr
      rcases List.mem_cons.mp hr with h | h
      · subst h
        exact Nat.le_refl _
      · have := hids r h
        omega
    · refine List.Pairwise.cons ?_ hpair
      intro r hr
      have := hids r hr
      omega

/-- C29 (as amended). The webhook path performs no duplicate check: for every
signature-verified `checkout.session.completed` event whose metadata names an
existing user and holds items that are absent or parse as JSON, each delivery
appends one new order row whatever rows are present, so n deliveries of the
event append n rows, with distinct increasing ids above the stored ones, and
with the same user, items, delivery method (that of the metadata, `NULL` when
it has none) and total. -/
theorem stripeWebhook_redelivery_appends_rows (E : Engine) (db : Db) (ev : Event)
    (meta : EventMeta) (s : JsString) (user : User) (items : JVal)
    (deliveries : List (Nat × Bool))
    (htype : ev.type = "checkout.session.completed")
    (hmeta : ev.metadata = some meta) (hid : meta.user_id = some s)
    (huser : (stringToNumber E s).toNat?.bind (getUser db) = some user)
    (hitems : parseItemsMeta meta.items_json = .ok items) :
    ∃ rows, (deliverAll E ev db deliveries).orders = db.orders ++ rows ∧
      rows.length = deliveries.length ∧
      (∀ r ∈ rows, r.user_id = user.id ∧ r.items_json = jsonify items ∧
        r.delivery_method = meta.delivery_method.map (storedText E) ∧
        r.total_cents = ev.amount_total ∧
        r.status = "paid") ∧
      (∀ r ∈ rows, ∀ o ∈ db.orders, o.id < r.id) ∧
      rows.Pairwise (fun a b => a.id < b.id) := by
  obtain ⟨rows, horders, hlen, hsame, hids, hpair⟩ :=
    deliverAll_rows E ev meta s user items htype hmeta hid hitems deliveries db huser
  refine ⟨rows, horders, hlen, hsame, ?_, hpair⟩
  intro r hr o ho
  have h1 := hids r hr
  have h2 := le_maxOrderId db.orders o ho
  simp only [nextOrderId] at h1
  omega

/-- C29 (as amended) at concrete inputs: the paid session of `alice` is
delivered three times to a shop that already holds one order, and three rows
are appended; an event without delivery method, delivered twice, appends two
rows with `NULL`. -/
theorem stripeWebhook_redelivery_appends_rows_witness :
    (∃ rows, (deliverAll someEngine chewEvent shopWithOldOrder
        [(1000, true), (1001, true), (5000, false)]).orders = shopWithOldOrder.orders ++ rows ∧
      rows.length = [(1000, true), (1001, true), (5000, false)].length ∧
      (∀ r ∈ rows, r.user_id = alice.id ∧ r.items_json = jsonify (.arr [chewLine]) ∧
        r.delivery_method = some "collect" ∧
        r.total_cents = chewEvent.amount_total ∧
        r.status = "paid") ∧
      (∀ r ∈ rows, ∀ o ∈ shopWithOldOrder.orders, o.id < r.id) ∧
      rows.Pairwise (fun a b => a.id < b.id)) ∧
    (∃ rows, (deliverAll someEngine bareEvent emptyShop [(1000, true), (1001, true)]).orders =
        emptyShop.orders ++ rows ∧
      rows.length = [(1000, true), (1001, true)].length ∧
      (∀ r ∈ rows, r.user_id = alice.id ∧ r.items_json = jsonify (.arr []) ∧
        r.delivery_method = none ∧
        r.total_cents = bareEvent.amount_total ∧
        r.status = "paid") ∧
      (∀ r ∈ rows, ∀ o ∈ emptyShop.orders, o.id < r.id) ∧
      rows.Pairwise (fun a b => a.id < b.id)) :=
  ⟨stripeWebhook_redelivery_appends_rows someEngine shopWithOldOrder chewEvent _ "1" alice
      (.arr [chewLine]) [(1000, true), (1001, true), (5000, false)] rfl rfl rfl rfl rfl,
    stripeWebhook_redelivery_appends_rows someEngine emptyShop bareEvent _ "1" alice
      (.arr []) [(1000, true), (1001, true)] rfl rfl rfl rfl rfl⟩

/-- C29 as stated fails: a verified `checkout.session.completed` event of the
existing user `alice` whose items text does not parse is delivered twice, and
the orders table stays empty. -/
theorem stripeWebhook_redelivery_counterexample :
    malformedEvent.type = "checkout.session.completed" ∧
    eventUser someEngine emptyShop malformedEvent = some alice ∧
    (deliverAll someEngine malformedEvent emptyShop [(1000, true), (2000, true)]).orders = [] :=
  ⟨rfl, rfl, rfl⟩

/-! ## C30: the address snapshot -/

/-- C30. The address snapshot stored by both creation paths is the user's
entire record as read at creation time, every column, the password hash and
the role included; and it is a copy: an account update leaves the orders
table, and so the snapshot of every existing order, unchanged. -/
theorem address_snapshot_is_whole_record (E : Engine) (db : Db) (now : Nat) :
    (∀ (uid : Nat) (body : OrderBody) (m : Bool) (id : Nat) (user : User),
      getUser db uid = some user →
      (postOrders E db now uid body m).resp = ⟨200, .order id false⟩ →
      ∃ row, (postOrders E db now uid body m).db.orders = db.orders ++ [row] ∧ row.id = id ∧
        holdsWholeRecord row.address_json user) ∧
    (∀ (ev : Event) (meta : EventMeta) (s : JsString) (user : User) (items : JVal) (m : Bool),
      ev.type = "checkout.session.completed" → ev.metadata = some meta →
      meta.user_id = some s → (stringToNumber E s).toNat?.bind (getUser db) = some user →
      parseItemsMeta meta.items_json = .ok items →
      ∃ row, (stripeWebhook E db now (.verified ev) m).db.orders = db.orders ++ [row] ∧
        holdsWholeRecord row.address_json user) ∧
    (∀ (uid : Nat) (body : AccountBody), (putAccount E db uid body).db.orders = db.orders) := by
  refine ⟨?_, ?_, ?_⟩
  · intro uid body m id user huser h
    obtain ⟨row, horders, hid, _, u, hu, haddr⟩ :=
      postOrders_appended_row E db now uid body m id h
    rw [huser] at hu
    obtain rfl : user = u := Option.some.inj hu
    exact ⟨row, horders, hid, user, haddr, rfl, rfl, rfl, rfl, rfl, rfl, rfl, rfl, rfl, rfl,
      rfl⟩
  · intro ev meta s user items m htype hmeta hid huser hitems
    refine ⟨paidOrder (nextOrderId db) user (jsonify items)
      (meta.delivery_method.map (storedText E)) ev.amount_total now,
      ?_, user, rfl, rfl, rfl, rfl, rfl, rfl, rfl, rfl, rfl, rfl, rfl, rfl⟩
    rw [stripeWebhook_completed E db now ev m htype]
    simp only [webhookProcess_inserts E db now ev meta s user items m hmeta hid huser hitems,
      insertOrder]
  · intro uid body
    simp only [putAccount]
    split <;> rfl

/-- C30 at concrete requests: the order of `alice` stores her whole record,
on the manual path and by the webhook, also for an event without delivery
method; and after she moves to Kendal the stored order still holds the record
of the day of the order. -/
theorem address_snapshot_is_whole_record_witness :
    (∃ row, (postOrders someEngine emptyShop 1000 1 chewOrder true).db.orders =
        emptyShop.orders ++ [row] ∧ row.id = 1 ∧ holdsWholeRecord row.address_json alice) ∧
    (∃ row, (stripeWebhook someEngine emptyShop 1000 (.verified chewEvent) true).db.orders =
        emptyShop.orders ++ [row] ∧ holdsWholeRecord row.address_json alice) ∧
    (∃ row, (stripeWebhook someEngine emptyShop 1000 (.verified bareEvent) true).db.orders =
        emptyShop.orders ++ [row] ∧ holdsWholeRecord row.address_json alice) ∧
    (putAccount someEngine shopWithOldOrder 1 movedBody).db.orders = shopWithOldOrder.orders ∧
    (getUser (putAccount someEngine shopWithOldOrder 1 movedBody).db 1).map (fun u => u.city) =
      some (some "Kendal") ∧
    shopWithOldOrder.orders.map (fun o => o.address_json.map (fun u => (u.city, u.password_hash)))
      = [some (some "Grange-over-Sands", some "$2a$10$hash")] :=
  ⟨(address_snapshot_is_whole_record someEngine emptyShop 1000).1 1 chewOrder true 1 alice rfl rfl,
    (address_snapshot_is_whole_record someEngine emptyShop 1000).2.1 chewEvent _ "1" alice
      _ true rfl rfl rfl rfl rfl,
    (address_snapshot_is_whole_record someEngine emptyShop 1000).2.1 bareEvent _ "1" alice
      (.arr []) true rfl rfl rfl rfl rfl,
    (address_snapshot_is_whole_record someEngine shopWithOldOrder 0).2.2 1 movedBody,
    rfl, rfl⟩

end MoltenMum
